import Mathlib

set_option maxHeartbeats 1600000

/-!
Shallow embedding of the SnapNForce reconciliation engine.

Source files embedded:
  * `app/lib.py`      — value normalizer, active-record reader, reconciliation engine
  * `app/app.py`      — municipality batch driver
  * `app/operations/select.py` — active-record queries

The repository's `app/schemas.py`, `app/constants.py` and
`app/operations/{ensure,deactivate,link}.py` are not part of the source tree
given here; the definitions below that correspond to them are modelled from
the specification and carry a doc comment starting `Modelled from the spec:`.

Conventions of the embedding:
  * Python `None` becomes `Option.none`; dereferencing `None` (an
    `AttributeError` in Python) becomes `Except.error .attributeOnNone`.
  * SQLAlchemy `scalar_one()` becomes `selectOne`, failing with
    `.notFound` (`NoResultFound`) on zero rows and `.multiple`
    (`MultipleResultsFound`) on more than one row.
  * The database is an explicit record of row lists plus a write log; each
    call of an `ensure`/`deactivate`/`link` primitive appends one log entry.
    Per spec §5 each reconcile call is one atomic transaction, so a failing
    call is modelled as leaving the store unchanged (`Except.error`).
-/

/-! ## Canonical value objects (`app/schemas.py`, shapes fixed by spec §4.1) -/

/-- Canonical owner value (`schemas.Owner`): display name plus multi-entity flag. -/
structure Owner where
  name : String
  is_multi_entity : Bool
  deriving DecidableEq, Repr

/-- Delivery address line of a `Mailing` (`schemas.DeliveryAddressLine`). -/
structure DeliveryAddressLine where
  is_pobox : Bool
  attn : Option String
  number : String
  street : String
  secondary : Option String
  deriving DecidableEq, Repr

/-- Last line of a `Mailing` (`schemas.LastLine`): city, state abbreviation, zip. -/
structure LastLine where
  city : String
  state : String
  zip : String
  deriving DecidableEq, Repr

/-- Canonical mailing value (`schemas.Mailing`). -/
structure Mailing where
  delivery : DeliveryAddressLine
  last : LastLine
  deriving DecidableEq, Repr

/-- Pair returned by scraping/normalizing and by the reconcile engine
(`schemas.OwnerAndMailing`).  Both sides are nullable: an empty mailing cell
normalizes to `none`, and the projection of an absent chain is `none`. -/
structure OwnerAndMailing where
  owner : Option Owner
  mailing : Option Mailing
  deriving DecidableEq, Repr

/-- `schemas.GeneralAndMortgage`: the two role contexts of one parcel. -/
structure GeneralAndMortgage where
  general : OwnerAndMailing
  mortgage : OwnerAndMailing
  deriving DecidableEq, Repr

/-! ## Raw scraped fragments and Python string helpers -/

/-- A raw scraped fragment (`bs4.Tag | bs4.NavigableString`):
`text` models a `NavigableString` text node, `markup` models markup noise. -/
inductive RawFragment where
  | text (s : String)
  | markup
  deriving DecidableEq, Repr

/-- `_clean_tags` (`app/lib.py` 225–226): keep only text nodes, as strings. -/
def _clean_tags (content : List RawFragment) : List String :=
  content.filterMap fun t =>
    match t with
    | .text s => some s
    | .markup => none

/-- The characters matched by Python's `\s` (and stripped by `str.strip`)
for the ASCII range handled by this embedding. -/
def pyIsSpace (c : Char) : Bool :=
  c = ' ' || c = '\t' || c = '\n' || c = '\r' || c = '\x0b' || c = '\x0c'

/-- Python `str.strip()`: drop leading and trailing whitespace. -/
def pyStrip (s : String) : String :=
  String.mk (((s.toList.dropWhile pyIsSpace).reverse.dropWhile pyIsSpace).reverse)

/-- Worker for `_clean_whitespace`: the flag records whether the previous
character belonged to a whitespace run already emitted as one space. -/
def collapseAux : Bool → List Char → List Char
  | _, [] => []
  | prevSpace, c :: rest =>
    if pyIsSpace c then
      if prevSpace then collapseAux true rest else ' ' :: collapseAux true rest
    else c :: collapseAux false rest

/-- `_clean_whitespace` (`app/lib.py` 229–230): `re.sub(r"\s+", " ", text)` —
every maximal whitespace run becomes a single space. -/
def _clean_whitespace (text : String) : String :=
  String.mk (collapseAux false text.toList)

/-! Regex machinery for the literal pattern `ATT(N|ENTION):?\s+` used at
`app/lib.py` 216.  `attnMatch cs` returns the remainder of `cs` after a match
of the pattern at the head of `cs`, if there is one. -/

/-- Match the `:?\s+` tail of the attention pattern against `cs`. -/
def attnMatchTail : List Char → Option (List Char)
  | ':' :: rest =>
    if rest.head?.any pyIsSpace then some (rest.dropWhile pyIsSpace) else none
  | cs =>
    if cs.head?.any pyIsSpace then some (cs.dropWhile pyIsSpace) else none

/-- Match `(N|ENTION):?\s+` (alternation tries `N` first, as a regex engine
does) against `cs`. -/
def attnMatchAfterATT (cs : List Char) : Option (List Char) :=
  let ention : Option (List Char) :=
    match cs with
    | 'E' :: 'N' :: 'T' :: 'I' :: 'O' :: 'N' :: rest => attnMatchTail rest
    | _ => none
  match cs with
  | 'N' :: rest =>
    match attnMatchTail rest with
    | some r => some r
    | none => ention
  | _ => ention

/-- Match the full pattern `ATT(N|ENTION):?\s+` at the head of `cs`. -/
def attnMatch : List Char → Option (List Char)
  | 'A' :: 'T' :: 'T' :: rest => attnMatchAfterATT rest
  | _ => none

/-- Scan of `re.sub(r"ATT(N|ENTION):?\s+", repl, s)`: replace every
non-overlapping leftmost match by `repl`.  The fuel argument (always at least
the list length plus one) makes the recursion structural; a successful match
always consumes at least four characters. -/
def pySubAttnAux (repl : List Char) : Nat → List Char → List Char
  | _, [] => []
  | 0, l => l
  | fuel + 1, c :: cs =>
    match attnMatch (c :: cs) with
    | some r => repl ++ pySubAttnAux repl fuel r
    | none => c :: pySubAttnAux repl fuel cs

/-- `re.sub(r"ATT(N|ENTION):?\s+", repl, s)` as called at `app/lib.py` 216. -/
def pySubAttn (repl s : String) : String :=
  String.mk (pySubAttnAux repl.toList (s.toList.length + 1) s.toList)

/-! ## Value normalizer (`app/lib.py` 178–230, spec §4.1) -/

/-- `owner_from_raw` (`app/lib.py` 178–192). -/
def owner_from_raw (data : List RawFragment) : Owner :=
  let owner_list := _clean_tags data
  let is_multi_entity := decide (1 < owner_list.length)
  let dirty_owner := String.intercalate " & " (owner_list.map pyStrip)
  let clean_owner := _clean_whitespace dirty_owner
  let is_multi_entity := if dirty_owner = clean_owner then is_multi_entity else true
  { name := clean_owner, is_multi_entity := is_multi_entity }

/-- Errors raised by the value normalizer.  The source raises
`NotImplementedError` (tax shape, `app/lib.py` 204) and `RuntimeError`
(general shape, `app/lib.py` 221); the specification's error taxonomy (§7)
names both `MalformedAddressError`. -/
inductive NormalizeError where
  | notImplemented
  | runtime
  deriving DecidableEq, Repr

/-- `mailing_from_raw_tax` (`app/lib.py` 195–205).  The single-line parsers
`parse.mortgage_delivery_address_line` and `parse.mortgage_last_line` live in
the external `lib.parse` collaborator (spec §1, §6) and are passed in as
function parameters `mdal` and `mll`. -/
def mailing_from_raw_tax (mdal : String → DeliveryAddressLine)
    (mll : String → String → LastLine) (data : List RawFragment) :
    Except NormalizeError (Option Mailing) :=
  match _clean_tags data with
  | [a, b, c] => .ok (some { delivery := mdal a, last := mll b c })
  | [] => .ok none
  | _ => .error .notImplemented

/-- `mailing_from_raw_general` (`app/lib.py` 208–222), with the external
single-line parsers `parse.general_delivery_address_line` (`gdal`) and
`parse.general_city_state_zip` (`gcsz`) passed as parameters.  In the
three-fragment branch the source executes
`re.sub(r"ATT(N|ENTION):?\s+", address_list[0], "")`: the fragment is passed
as the replacement and the empty string as the subject, exactly as embedded
here. -/
def mailing_from_raw_general (gdal : String → DeliveryAddressLine)
    (gcsz : String → LastLine) (data : List RawFragment) :
    Except NormalizeError (Option Mailing) :=
  match _clean_tags data with
  | [a, b] => .ok (some { delivery := gdal a, last := gcsz b })
  | [a, b, c] =>
    let delivery_line := gdal b
    let delivery_line := { delivery_line with attn := some (pySubAttn a "") }
    .ok (some { delivery := delivery_line, last := gcsz c })
  | [] => .ok none
  | _ => .error .runtime

/-- Modelled from the spec: the intended attention stripping of §4.1 —
"substituted into the delivery line's attention field by stripping an
`ATTN`/`ATTENTION` prefix token", i.e. `re.sub(pattern, "", fragment)`. -/
def spec_attn_strip (s : String) : String :=
  pySubAttn "" s

example : owner_from_raw [.text "  Acme   Corp "] = { name := "Acme Corp", is_multi_entity := true } := by
  decide

example : owner_from_raw [.text "Jane Smith  ", .text "John Smith"]
    = { name := "Jane Smith & John Smith", is_multi_entity := true } := by
  decide

example : spec_attn_strip "ATTN: John Doe" = "John Doe" := by decide

example : spec_attn_strip "ATTENTION JANE" = "JANE" := by decide

example : pySubAttn "X" "" = "" := by decide

/-! ## Persisted rows (ORM tables referenced by `app/operations/select.py`) -/

/-- `orm.Parcel`: county parcel id (external key), surrogate key, municipality.
`deactivated` models a non-null `deactivatedts`. -/
structure ParcelRow where
  parcelkey : Nat
  parcelidcnty : String
  muni_municode : Nat
  deactivated : Bool
  deriving DecidableEq, Repr

/-- `orm.MailingCityStateZip`. -/
structure CityStateZipRow where
  id : Nat
  city : String
  state_abbr : String
  zip_code : String
  deactivated : Bool
  deriving DecidableEq, Repr

/-- `orm.MailingStreet`. -/
structure StreetRow where
  streetid : Nat
  citystatezip_cszipid : Nat
  name : String
  pobox : Bool
  deactivated : Bool
  deriving DecidableEq, Repr

/-- `orm.MailingAddress`. -/
structure AddressRow where
  addressid : Nat
  street_streetid : Nat
  bldgno : String
  attention : Option String
  secondary : Option String
  deactivated : Bool
  deriving DecidableEq, Repr

/-- `orm.Human`. -/
structure HumanRow where
  humanid : Nat
  name : String
  multihuman : Bool
  deactivated : Bool
  deriving DecidableEq, Repr

/-- `orm.ParcelMailingAddress`: role-scoped link between a parcel and a
mailing address. -/
structure ParcelMailingAddressRow where
  linkid : Nat
  parcel_parcelkey : Nat
  mailingaddress_addressid : Nat
  linkedobjectrole_lorid : Nat
  deactivated : Bool
  deriving DecidableEq, Repr

/-- `orm.HumanMailingAddress`: link between a human and a mailing address.
Both foreign keys are nullable: `link.human_to_address` is called with ids
that may be `None` (`app/lib.py` 113–114). -/
structure HumanMailingAddressRow where
  linkid : Nat
  humanmailing_humanid : Option Nat
  humanmailing_addressid : Option Nat
  role : Nat
  deactivated : Bool
  deriving DecidableEq, Repr

/-- `orm.HumanParcel`: link between a human and a parcel under a role. -/
structure HumanParcelRow where
  linkid : Nat
  humanid : Nat
  parcelkey : Nat
  role : Nat
  deactivated : Bool
  deriving DecidableEq, Repr

/-- Every call of an `ensure`/`deactivate`/`link` primitive appends one entry
to the write log; a reconcile call that appends nothing performed no writes. -/
inductive WriteOp where
  | deactivateParcelToAddress (id : Nat)
  | deactivateHumanToAddress (id : Nat)
  | deactivateAddress (id : Nat)
  | deactivateHumanToParcel (id : Nat)
  | deactivateHuman (id : Nat)
  | ensureCityStateZip (city state zip : String)
  | ensureStreet (cszid : Nat) (name : String) (pobox : Bool)
  | ensureAddress (streetid : Nat) (number : String) (attn secondary : Option String)
  | ensureHuman (name : String) (multi : Bool)
  | linkParcelToAddress (pk aid role : Nat)
  | linkHumanToParcel (pk hid role : Nat)
  | linkHumanToAddress (hid aid : Option Nat) (role : Nat)
  deriving DecidableEq, Repr

/-- The relational store (spec §6 "Storage"): one list of rows per entity of
§3, a fresh-id counter, and the write log. -/
structure DB where
  parcels : List ParcelRow
  city_state_zips : List CityStateZipRow
  streets : List StreetRow
  addresses : List AddressRow
  humans : List HumanRow
  parcel_address_links : List ParcelMailingAddressRow
  human_address_links : List HumanMailingAddressRow
  human_parcel_links : List HumanParcelRow
  nextId : Nat
  log : List WriteOp
  deriving DecidableEq, Repr

/-! ## Role constants (`app.constants.LinkedObjectRole`) -/

namespace LinkedObjectRole

/-- Modelled from the spec: `app/constants.py` is not under `src/`.  Role is a
pair (address-role, addressee-role), one pair for the general context and a
distinct pair for the mortgage context (spec §3); the concrete numeric codes
are arbitrary but distinct, and the general/mortgage address-role codes are
the ones `get_cog_tables` matches on. -/
def GENERAL_HUMAN_MAILING_ADDRESS : Nat := 223

/-- Modelled from the spec: mortgage-context address-role code. -/
def MORTGAGE_HUMAN_MAILING_ADDRESS : Nat := 234

/-- Modelled from the spec: general-context addressee-role code. -/
def GENERAL_ADDRESSEE : Nat := 224

/-- Modelled from the spec: mortgage-context addressee-role code. -/
def MORTGAGE_ADDRESSEE : Nat := 235

/-- Modelled from the spec: the (address-role, addressee-role) pair used for
the general tax-roll context. -/
def general_roles : Nat × Nat := (GENERAL_HUMAN_MAILING_ADDRESS, GENERAL_ADDRESSEE)

/-- Modelled from the spec: the (address-role, addressee-role) pair used for
the mortgage/escrow context. -/
def mortgage_roles : Nat × Nat := (MORTGAGE_HUMAN_MAILING_ADDRESS, MORTGAGE_ADDRESSEE)

end LinkedObjectRole

/-! ## Select primitives (`app/operations/select.py`) -/

/-- Errors of SQLAlchemy's `scalar_one()`: `NoResultFound` /
`MultipleResultsFound`.  The spec's taxonomy (§7) calls the former
`NotFoundError`. -/
inductive SelectError where
  | notFound
  | multiple
  deriving DecidableEq, Repr

/-- `scalar_one()` over the rows a statement returned. -/
def selectOne {α : Type} : List α → Except SelectError α
  | [] => .error .notFound
  | [a] => .ok a
  | _ :: _ :: _ => .error .multiple

/-- Keep the `.ok` payload of an `Except`, if any. -/
def okResult {ε α : Type} : Except ε α → Option α
  | .ok a => some a
  | .error _ => none

/-- `select.parcel` (`select.py` 13–17): active parcel by county id. -/
def select_parcel (db : DB) (county_parcel_id : String) : Except SelectError ParcelRow :=
  selectOne (db.parcels.filter fun p => p.parcelidcnty == county_parcel_id && !p.deactivated)

/-- `select.parcel_mailing_addresses` (`select.py` 20–25): all active links of
one parcel (a `.all()` query — never fails). -/
def parcel_mailing_addresses (db : DB) (parcel_key : Nat) : List ParcelMailingAddressRow :=
  db.parcel_address_links.filter fun l => l.parcel_parcelkey == parcel_key && !l.deactivated

/-- `select.address` (`select.py` 39–44): active address by id. -/
def select_address (db : DB) (address_id : Nat) : Except SelectError AddressRow :=
  selectOne (db.addresses.filter fun a => a.addressid == address_id && !a.deactivated)

/-- `select.street` (`select.py` 60–65): active street by id. -/
def select_street (db : DB) (street_id : Nat) : Except SelectError StreetRow :=
  selectOne (db.streets.filter fun s => s.streetid == street_id && !s.deactivated)

/-- `select.city_state_zip` (`select.py` 80–85): active city/state/zip by id. -/
def select_city_state_zip (db : DB) (csz_id : Nat) : Except SelectError CityStateZipRow :=
  selectOne (db.city_state_zips.filter fun z => z.id == csz_id && !z.deactivated)

/-- `select.human_mailing_address` (`select.py` 98–103): the active
human-to-address link pointing at one address. -/
def select_human_mailing_address (db : DB) (address_id : Nat) :
    Except SelectError HumanMailingAddressRow :=
  selectOne (db.human_address_links.filter fun l =>
    l.humanmailing_addressid == some address_id && !l.deactivated)

/-- `select.human` (`select.py` 106–111): active human by id.  The id comes
from a nullable link column; a SQL `humanid == NULL` comparison matches no
row, hence `NoResultFound` on a `none` id. -/
def select_human (db : DB) (human_id : Option Nat) : Except SelectError HumanRow :=
  selectOne (db.humans.filter fun h => some h.humanid == human_id && !h.deactivated)

/-- `select.parcels_by_municode` (`select.py` 122–126).  The statement filters
only on `muni_municode` — it does not exclude deactivated parcels. -/
def parcels_by_municode (db : DB) (municode : Nat) : List ParcelRow :=
  db.parcels.filter fun p => p.muni_municode == municode

/-! ## Retirement layer (`app/operations/deactivate.py`, spec §2) -/

/-- Modelled from the spec: the Retirement Layer soft-deletes a link or
entity by identifier and never physically deletes (spec §2, §3).
`deactivate.parcel_to_address`. -/
def deactivate_parcel_to_address (db : DB) (id : Nat) : DB :=
  { db with
      parcel_address_links := db.parcel_address_links.map fun l =>
        if l.linkid == id then { l with deactivated := true } else l,
      log := db.log ++ [.deactivateParcelToAddress id] }

/-- Modelled from the spec: `deactivate.human_to_address` soft-deletes a
human-to-address link by id. -/
def deactivate_human_to_address (db : DB) (id : Nat) : DB :=
  { db with
      human_address_links := db.human_address_links.map fun l =>
        if l.linkid == id then { l with deactivated := true } else l,
      log := db.log ++ [.deactivateHumanToAddress id] }

/-- Modelled from the spec: `deactivate.address` soft-deletes a mailing
address by id. -/
def deactivate_address (db : DB) (id : Nat) : DB :=
  { db with
      addresses := db.addresses.map fun a =>
        if a.addressid == id then { a with deactivated := true } else a,
      log := db.log ++ [.deactivateAddress id] }

/-- Modelled from the spec: `deactivate.human_to_parcel` soft-deletes a
human-to-parcel link.  (`app/lib.py` 97 passes the whole link object where
the other call sites pass `.linkid`; the Retirement Layer is modelled from
the spec as retiring that link.) -/
def deactivate_human_to_parcel (db : DB) (id : Nat) : DB :=
  { db with
      human_parcel_links := db.human_parcel_links.map fun l =>
        if l.linkid == id then { l with deactivated := true } else l,
      log := db.log ++ [.deactivateHumanToParcel id] }

/-- Modelled from the spec: `deactivate.human` soft-deletes a human by id. -/
def deactivate_human (db : DB) (id : Nat) : DB :=
  { db with
      humans := db.humans.map fun h =>
        if h.humanid == id then { h with deactivated := true } else h,
      log := db.log ++ [.deactivateHuman id] }

/-! ## Entity upsert layer (`app/operations/ensure.py`, spec §2) -/

/-- Modelled from the spec: `ensure.city_state_zip` — get-or-create keyed by
the full semantic attribute tuple; returns the existing matching active row
or creates one, never mutating existing rows (spec §2, §3, §9). -/
def ensure_city_state_zip (db : DB) (city state zip_ : String) : DB × CityStateZipRow :=
  match db.city_state_zips.find? (fun z =>
      z.city == city && z.state_abbr == state && z.zip_code == zip_ && !z.deactivated) with
  | some z => ({ db with log := db.log ++ [.ensureCityStateZip city state zip_] }, z)
  | none =>
    let z : CityStateZipRow :=
      { id := db.nextId, city := city, state_abbr := state, zip_code := zip_, deactivated := false }
    ({ db with
        city_state_zips := db.city_state_zips ++ [z],
        nextId := db.nextId + 1,
        log := db.log ++ [.ensureCityStateZip city state zip_] }, z)

/-- Modelled from the spec: `ensure.street` — get-or-create a street scoped
to one city/state/zip. -/
def ensure_street (db : DB) (city_state_zip_id : Nat) (street_name : String)
    (is_pobox : Bool) : DB × StreetRow :=
  match db.streets.find? (fun s =>
      s.citystatezip_cszipid == city_state_zip_id && s.name == street_name &&
      s.pobox == is_pobox && !s.deactivated) with
  | some s => ({ db with log := db.log ++ [.ensureStreet city_state_zip_id street_name is_pobox] }, s)
  | none =>
    let s : StreetRow :=
      { streetid := db.nextId, citystatezip_cszipid := city_state_zip_id,
        name := street_name, pobox := is_pobox, deactivated := false }
    ({ db with
        streets := db.streets ++ [s],
        nextId := db.nextId + 1,
        log := db.log ++ [.ensureStreet city_state_zip_id street_name is_pobox] }, s)

/-- Modelled from the spec: `ensure.address` — get-or-create an address
scoped to one street. -/
def ensure_address (db : DB) (street_id : Nat) (number : String)
    (attn secondary : Option String) : DB × AddressRow :=
  match db.addresses.find? (fun a =>
      a.street_streetid == street_id && a.bldgno == number &&
      a.attention == attn && a.secondary == secondary && !a.deactivated) with
  | some a => ({ db with log := db.log ++ [.ensureAddress street_id number attn secondary] }, a)
  | none =>
    let a : AddressRow :=
      { addressid := db.nextId, street_streetid := street_id, bldgno := number,
        attention := attn, secondary := secondary, deactivated := false }
    ({ db with
        addresses := db.addresses ++ [a],
        nextId := db.nextId + 1,
        log := db.log ++ [.ensureAddress street_id number attn secondary] }, a)

/-- Modelled from the spec: `ensure.human` — get-or-create a human keyed by
name and multi-entity flag. -/
def ensure_human (db : DB) (name : String) (is_multi_entity : Bool) : DB × HumanRow :=
  match db.humans.find? (fun h =>
      h.name == name && h.multihuman == is_multi_entity && !h.deactivated) with
  | some h => ({ db with log := db.log ++ [.ensureHuman name is_multi_entity] }, h)
  | none =>
    let h : HumanRow :=
      { humanid := db.nextId, name := name, multihuman := is_multi_entity, deactivated := false }
    ({ db with
        humans := db.humans ++ [h],
        nextId := db.nextId + 1,
        log := db.log ++ [.ensureHuman name is_multi_entity] }, h)

/-! ## Linking layer (`app/operations/link.py`, spec §2) -/

/-- Modelled from the spec: `link.parcel_to_address` — creates a new
role-scoped association row between parcel and address (spec §2). -/
def link_parcel_to_address (db : DB) (parcelkey address_id role : Nat) : DB :=
  { db with
      parcel_address_links := db.parcel_address_links ++
        [{ linkid := db.nextId, parcel_parcelkey := parcelkey,
           mailingaddress_addressid := address_id,
           linkedobjectrole_lorid := role, deactivated := false }],
      nextId := db.nextId + 1,
      log := db.log ++ [.linkParcelToAddress parcelkey address_id role] }

/-- Modelled from the spec: `link.human_to_parcel` — creates a new
role-scoped association row between human and parcel. -/
def link_human_to_parcel (db : DB) (parcelkey humanid role : Nat) : DB :=
  { db with
      human_parcel_links := db.human_parcel_links ++
        [{ linkid := db.nextId, humanid := humanid, parcelkey := parcelkey,
           role := role, deactivated := false }],
      nextId := db.nextId + 1,
      log := db.log ++ [.linkHumanToParcel parcelkey humanid role] }

/-- Modelled from the spec: `link.human_to_address` — creates a new
role-scoped association row between human and address; both ids may be
`None` at the call site (`app/lib.py` 113–114). -/
def link_human_to_address (db : DB) (human_id address_id : Option Nat) (role : Nat) : DB :=
  { db with
      human_address_links := db.human_address_links ++
        [{ linkid := db.nextId, humanmailing_humanid := human_id,
           humanmailing_addressid := address_id, role := role, deactivated := false }],
      nextId := db.nextId + 1,
      log := db.log ++ [.linkHumanToAddress human_id address_id role] }

/-! ## Active-record reader (`app/lib.py` 233–273, spec §4.2) -/

/-- `schemas.CogTables`: the active chain resolved for one parcel link.  All
fields are independently nullable (spec §4.2); `CogTables()` with no
arguments is the all-`none` record.  `human_parcel` is never populated by
`get_cog_tables` but is read by the reconcile engine (`app/lib.py` 96). -/
structure CogTables where
  parcel : Option ParcelRow := none
  address : Option AddressRow := none
  parcel_address : Option ParcelMailingAddressRow := none
  street : Option StreetRow := none
  city_state_zip : Option CityStateZipRow := none
  human : Option HumanRow := none
  human_address : Option HumanMailingAddressRow := none
  human_parcel : Option HumanParcelRow := none
  deriving DecidableEq, Repr

/-- Modelled from the spec: `schemas.CogTables.has_address_tables` — the
projection dereferences `street`, `address` and `city_state_zip` behind this
guard (`app/lib.py` 130–142), so it holds exactly when the address-side trio
is present. -/
def CogTables.has_address_tables (t : CogTables) : Bool :=
  t.address.isSome && t.street.isSome && t.city_state_zip.isSome

/-- `schemas.CogGeneralAndMortgage`: the two chains of one parcel. -/
structure CogGeneralAndMortgage where
  general : CogTables
  mortgage : CogTables
  deriving DecidableEq, Repr

/-- The loop body of `get_cog_tables` (`app/lib.py` 239–256): resolve the
chain hanging off one active parcel-to-address link.  The `try`/`except
NoResultFound` around the human lookups catches only `.notFound`; a
`.multiple` propagates. -/
def resolve_tables (db : DB) (pa : ParcelMailingAddressRow) : Except SelectError CogTables :=
  match select_address db pa.mailingaddress_addressid with
  | .error e => .error e
  | .ok address =>
    match select_street db address.street_streetid with
    | .error e => .error e
    | .ok street =>
      match select_city_state_zip db street.citystatezip_cszipid with
      | .error e => .error e
      | .ok city_state_zip =>
        match select_human_mailing_address db address.addressid with
        | .error .multiple => .error .multiple
        | .error .notFound =>
          .ok { address := some address, parcel_address := some pa, street := some street,
                city_state_zip := some city_state_zip, human := none, human_address := none }
        | .ok human_address =>
          match select_human db human_address.humanmailing_humanid with
          | .error .multiple => .error .multiple
          | .error .notFound =>
            .ok { address := some address, parcel_address := some pa, street := some street,
                  city_state_zip := some city_state_zip, human := none, human_address := none }
          | .ok human =>
            .ok { address := some address, parcel_address := some pa, street := some street,
                  city_state_zip := some city_state_zip, human := some human,
                  human_address := some human_address }

/-- The `for (parcel_address,) in parcel_addresses` loop of `get_cog_tables`,
accumulating `all_addresses`. -/
def resolve_all (db : DB) : List ParcelMailingAddressRow → Except SelectError (List CogTables)
  | [] => .ok []
  | pa :: rest =>
    match resolve_tables db pa with
    | .error e => .error e
    | .ok t =>
      match resolve_all db rest with
      | .error e => .error e
      | .ok ts => .ok (t :: ts)

/-- `_match_number` (`app/lib.py` 265–269): first chain whose link carries
the wanted role.  (The source reads `x.parcel_address.linkedobjectrole_lorid`
directly; every chain built by the loop carries its link.) -/
def _match_number (num : Nat) : List CogTables → Option CogTables
  | [] => none
  | t :: ts =>
    if t.parcel_address.any (fun pa => pa.linkedobjectrole_lorid == num) then some t
    else _match_number num ts

/-- `get_cog_tables` (`app/lib.py` 233–262) specialised to one address-role
code: resolve every active link of the parcel, pick the chain matching the
role (or an empty `CogTables()`), and set its `parcel` field.  (The source's
`if parcel is None` branch at 236–237 is dead: `select.parcel` uses
`scalar_one()`, which raises instead of returning `None`.) -/
def get_cog_tables_role (db : DB) (parcel_id : String) (address_role : Nat) :
    Except SelectError CogTables :=
  match select_parcel db parcel_id with
  | .error e => .error e
  | .ok parcel =>
    match resolve_all db (parcel_mailing_addresses db parcel.parcelkey) with
    | .error e => .error e
    | .ok all_addresses =>
      .ok { (_match_number address_role all_addresses).getD {} with parcel := some parcel }

/-- `get_cog_tables` (`app/lib.py` 233–262): both role contexts at once. -/
def get_cog_tables (db : DB) (parcel_id : String) : Except SelectError CogGeneralAndMortgage :=
  match select_parcel db parcel_id with
  | .error e => .error e
  | .ok parcel =>
    match resolve_all db (parcel_mailing_addresses db parcel.parcelkey) with
    | .error e => .error e
    | .ok all_addresses =>
      .ok { general :=
              { (_match_number LinkedObjectRole.GENERAL_HUMAN_MAILING_ADDRESS all_addresses).getD {}
                  with parcel := some parcel },
            mortgage :=
              { (_match_number LinkedObjectRole.MORTGAGE_HUMAN_MAILING_ADDRESS all_addresses).getD {}
                  with parcel := some parcel } }

/-! ## Reconciliation engine (`app/lib.py` 40–147, spec §4.3) -/

/-- `_cog_tables_to_owner_and_mailing` (`app/lib.py` 123–147): project the
active chain into the same value shape as the scraped data.  The mailing is
built only when the address trio is present (`has_address_tables`). -/
def _cog_tables_to_owner_and_mailing (t : Option CogTables) : OwnerAndMailing :=
  let owner : Option Owner :=
    match t with
    | none => none
    | some t => t.human.map fun h => { name := h.name, is_multi_entity := h.multihuman }
  let mailing : Option Mailing :=
    match t with
    | none => none
    | some t =>
      match t.street, t.address, t.city_state_zip with
      | some street, some address, some csz =>
        some { delivery := { is_pobox := street.pobox, attn := address.attention,
                             number := address.bldgno, street := street.name,
                             secondary := address.secondary },
               last := { city := csz.city, state := csz.state_abbr, zip := csz.zip_code } }
      | _, _, _ => none
  { owner := owner, mailing := mailing }

/-- A reconcile call fails only where the Python source would raise an
`AttributeError` by dereferencing `None` (`app/lib.py` 70–74, 105–106). -/
inductive ReconcileError where
  | attributeOnNone
  deriving DecidableEq, Repr

/-- The deactivation block of the address side (`app/lib.py` 59–67): retire —
each only if present, in this order — the parcel-to-address link, the
human-to-address link, and the address. -/
def address_side_deactivations (db : DB) (cog_tables : Option CogTables) : DB :=
  match cog_tables with
  | none => db
  | some t =>
    let db :=
      match t.parcel_address with
      | some pa => deactivate_parcel_to_address db pa.linkid
      | none => db
    let db :=
      match t.human_address with
      | some ha => deactivate_human_to_address db ha.linkid
      | none => db
    match t.address with
    | some a => deactivate_address db a.addressid
    | none => db

/-- The deactivation block of the human side (`app/lib.py` 95–104): retire —
each only if present, in this order — the human-to-parcel link, the
human-to-address link, and the human. -/
def human_side_deactivations (db : DB) (cog_tables : Option CogTables) : DB :=
  match cog_tables with
  | none => db
  | some t =>
    let db :=
      match t.human_parcel with
      | some hp => deactivate_human_to_parcel db hp.linkid
      | none => db
    let db :=
      match t.human_address with
      | some ha => deactivate_human_to_address db ha.linkid
      | none => db
    match t.human with
    | some h => deactivate_human db h.humanid
    | none => db

/-- Address side of `_sync_owner_and_mailing` (`app/lib.py` 55–89): returns
the updated store, the `address_id` slot and the `returned_address` slot. -/
def _sync_address_side (db : DB) (county_data : OwnerAndMailing) (cog_tables : Option CogTables)
    (address_role : Nat) : Except ReconcileError (DB × Option Nat × Option Mailing) :=
  let cog_data := _cog_tables_to_owner_and_mailing cog_tables
  if county_data.mailing = cog_data.mailing then
    .ok (db, cog_tables.bind fun t => t.address.map (·.addressid), county_data.mailing)
  else
    let db := address_side_deactivations db cog_tables
    match county_data.mailing with
    | none => .error .attributeOnNone
    | some m =>
      let (db, city_state_zip_table) := ensure_city_state_zip db m.last.city m.last.state m.last.zip
      let (db, street_table) :=
        ensure_street db city_state_zip_table.id m.delivery.street m.delivery.is_pobox
      let (db, address_table) :=
        ensure_address db street_table.streetid m.delivery.number m.delivery.attn m.delivery.secondary
      match cog_tables.bind (fun t => t.parcel) with
      | none => .error .attributeOnNone
      | some parcel =>
        let db := link_parcel_to_address db parcel.parcelkey address_table.addressid address_role
        .ok (db, some address_table.addressid,
          some { delivery := { is_pobox := street_table.pobox, attn := address_table.attention,
                               number := address_table.bldgno, street := street_table.name,
                               secondary := address_table.secondary },
                 last := { city := city_state_zip_table.city,
                           state := city_state_zip_table.state_abbr,
                           zip := city_state_zip_table.zip_code } })

/-- Human side of `_sync_owner_and_mailing` (`app/lib.py` 91–111): returns
the updated store, the `human_id` slot and the `returned_human` slot. -/
def _sync_human_side (db : DB) (county_data : OwnerAndMailing) (cog_tables : Option CogTables)
    (addressee_role : Nat) : Except ReconcileError (DB × Option Nat × Option Owner) :=
  let cog_data := _cog_tables_to_owner_and_mailing cog_tables
  if county_data.owner = cog_data.owner then
    .ok (db, cog_tables.bind fun t => t.human.map (·.humanid), county_data.owner)
  else
    let db := human_side_deactivations db cog_tables
    match county_data.owner with
    | none => .error .attributeOnNone
    | some o =>
      let (db, human_table) := ensure_human db o.name o.is_multi_entity
      match cog_tables.bind (fun t => t.parcel) with
      | none => .error .attributeOnNone
      | some parcel =>
        let db := link_human_to_parcel db parcel.parcelkey human_table.humanid addressee_role
        .ok (db, some human_table.humanid,
          some { name := human_table.name, is_multi_entity := human_table.multihuman })

/-- `_sync_owner_and_mailing` (`app/lib.py` 40–119): address side, then human
side, then — when either side changed — the human-to-address cross-link. -/
def _sync_owner_and_mailing (db : DB) (county_data : OwnerAndMailing)
    (cog_tables : Option CogTables) (address_and_human_roles : Nat × Nat) :
    Except ReconcileError (DB × OwnerAndMailing) :=
  let cog_data := _cog_tables_to_owner_and_mailing cog_tables
  match _sync_address_side db county_data cog_tables address_and_human_roles.1 with
  | .error e => .error e
  | .ok (db, address_id, returned_address) =>
    match _sync_human_side db county_data cog_tables address_and_human_roles.2 with
    | .error e => .error e
    | .ok (db, human_id, returned_human) =>
      let db :=
        if county_data.owner = cog_data.owner ∧ county_data.mailing = cog_data.mailing then db
        else link_human_to_address db human_id address_id address_and_human_roles.2
      .ok (db, { owner := returned_human, mailing := returned_address })

/-! ## Top-level sync orchestration (`app/lib.py` 20–37, `app/app.py` 30–45) -/

/-- Errors that can escape one `sync_parcel_data` call.  `htmlParsing` is the
external parse layer's `HtmlParsingError`; `http` is a failed
`raise_for_status`; `normalize`, `db` and `reconcile` wrap the embedded
layers' failures. -/
inductive SyncError where
  | htmlParsing
  | http
  | normalize (e : NormalizeError)
  | db (e : SelectError)
  | reconcile (e : ReconcileError)
  deriving DecidableEq, Repr

/-- `sync_parcel_data` (`app/lib.py` 20–37).  The scrape+parse+normalize
pipeline (`get_parcel_data_from_county`, external collaborators per spec §1)
is abstracted as `fetch`; it runs before `get_cog_tables`, and the general
context is reconciled before the mortgage context, both against the chains
read from the same snapshot. -/
def sync_parcel_data (fetch : String → Except SyncError GeneralAndMortgage) (db : DB)
    (parcel_id : String) : Except SyncError (DB × GeneralAndMortgage) :=
  match fetch parcel_id with
  | .error e => .error e
  | .ok county_data =>
    match get_cog_tables db parcel_id with
    | .error e => .error (.db e)
    | .ok cog_tables =>
      match _sync_owner_and_mailing db county_data.general (some cog_tables.general)
          LinkedObjectRole.general_roles with
      | .error e => .error (.reconcile e)
      | .ok (db, general) =>
        match _sync_owner_and_mailing db county_data.mortgage (some cog_tables.mortgage)
            LinkedObjectRole.mortgage_roles with
        | .error e => .error (.reconcile e)
        | .ok (db, mortgage) => .ok (db, { general := general, mortgage := mortgage })

/-- `schemas.MunicipalitySyncData`: the batch report of `sync_municipality`. -/
structure MunicipalitySyncData where
  total : Nat
  skipped : List Nat
  deriving DecidableEq, Repr

/-- The `for parcel in ...` loop of `sync_municipality` (`app/app.py` 37–44):
only `HtmlParsingError` is caught (the parcel is recorded as skipped); any
other exception propagates and aborts the batch.  The `finally` block's
`total += 1` is visible only on the non-aborting paths, since an abort
discards the local `sync_data`. -/
def sync_municipality_go (fetch : String → Except SyncError GeneralAndMortgage) :
    DB → List ParcelRow → Nat → List Nat → Except SyncError (DB × MunicipalitySyncData)
  | db, [], total, skipped => .ok (db, { total := total, skipped := skipped })
  | db, parcel :: rest, total, skipped =>
    match sync_parcel_data fetch db parcel.parcelidcnty with
    | .ok (db', _) => sync_municipality_go fetch db' rest (total + 1) skipped
    | .error .htmlParsing =>
      sync_municipality_go fetch db rest (total + 1) (skipped ++ [parcel.parcelkey])
    | .error e => .error e

/-- `sync_municipality` (`app/app.py` 30–45). -/
def sync_municipality (fetch : String → Except SyncError GeneralAndMortgage) (db : DB)
    (municode : Nat) : Except SyncError (DB × MunicipalitySyncData) :=
  sync_municipality_go fetch db (parcels_by_municode db municode) 0 []

/-- Modelled from the spec: the batch behaviour claimed in §8
"Skip-and-continue" — parcels whose sync raises `HtmlParsingError` are
skipped, every other parcel is fully reconciled in order.  Used as the
specification-side description that `sync_municipality` is compared with. -/
def municipality_run_spec (fetch : String → Except SyncError GeneralAndMortgage) :
    DB → List ParcelRow → DB
  | db, [] => db
  | db, parcel :: rest =>
    match sync_parcel_data fetch db parcel.parcelidcnty with
    | .ok (db', _) => municipality_run_spec fetch db' rest
    | .error _ => municipality_run_spec fetch db rest

/-! ## Store well-formedness -/

/-- The active parcel-to-address links of one (parcel, role) pair. -/
def activePMAL (db : DB) (pk r : Nat) : List ParcelMailingAddressRow :=
  db.parcel_address_links.filter fun l =>
    l.parcel_parcelkey == pk && l.linkedobjectrole_lorid == r && !l.deactivated

/-- Spec §3 invariant: at most one active `ParcelMailingAddressLink` per
(parcel, role). -/
def AtMostOnePMAL (db : DB) : Prop :=
  ∀ pk r, (activePMAL db pk r).length ≤ 1

/-- Row identifiers are pairwise distinct in every table. -/
def NodupIds (db : DB) : Prop :=
  (db.addresses.map (·.addressid)).Nodup ∧
  (db.streets.map (·.streetid)).Nodup ∧
  (db.city_state_zips.map (·.id)).Nodup ∧
  (db.humans.map (·.humanid)).Nodup ∧
  (db.parcel_address_links.map (·.linkid)).Nodup

/-- Every row identifier is below the fresh-id counter. -/
def FreshIds (db : DB) : Prop :=
  (∀ a ∈ db.addresses, a.addressid < db.nextId) ∧
  (∀ s ∈ db.streets, s.streetid < db.nextId) ∧
  (∀ z ∈ db.city_state_zips, z.id < db.nextId) ∧
  (∀ h ∈ db.humans, h.humanid < db.nextId) ∧
  (∀ l ∈ db.parcel_address_links, l.linkid < db.nextId)

/-- A well-formed store: distinct row ids, ids below the fresh counter, and
the spec §3 at-most-one-active-link invariant. -/
def WF (db : DB) : Prop := NodupIds db ∧ FreshIds db ∧ AtMostOnePMAL db

/-! ## Reconcile-call sequences (for the at-most-one-active-link claim) -/

/-- One reconcile call of a sequence: which parcel, the scraped data, and the
role pair. -/
structure ReconcileCall where
  parcel_id : String
  county_data : OwnerAndMailing
  roles : Nat × Nat
  deriving Repr

/-- Run one reconcile call the way `sync_parcel_data` does: read the active
chain for the call's address role, then reconcile.  A failing call leaves the
store unchanged (one atomic transaction per call, spec §5). -/
def reconcileStep (db : DB) (c : ReconcileCall) : DB :=
  match get_cog_tables_role db c.parcel_id c.roles.1 with
  | .error _ => db
  | .ok ct =>
    match _sync_owner_and_mailing db c.county_data (some ct) c.roles with
    | .error _ => db
    | .ok (db', _) => db'

/-- Run a sequence of reconcile calls. -/
def runReconciles (db : DB) (cs : List ReconcileCall) : DB :=
  cs.foldl reconcileStep db

/-- Does a write-op retire a `ParcelMailingAddressLink`? -/
def isDeactPTA : WriteOp → Bool
  | .deactivateParcelToAddress _ => true
  | _ => false

/-- Does a write-op create a `ParcelMailingAddressLink`? -/
def isLinkPTA : WriteOp → Bool
  | .linkParcelToAddress _ _ _ => true
  | _ => false

/-- The exact operation sequence of the human side of a reconcile call whose
owner changed (`app/lib.py` 94–106): retire the human-to-parcel link, the
human-to-address link and the human — each if present, in this order — then
ensure the new human, then create the new human-to-parcel link. -/
def human_side_ops (t : CogTables) (o : Owner) (pk hid role : Nat) : List WriteOp :=
  (match t.human_parcel with
    | some hp => [.deactivateHumanToParcel hp.linkid]
    | none => []) ++
  (match t.human_address with
    | some ha => [.deactivateHumanToAddress ha.linkid]
    | none => []) ++
  (match t.human with
    | some h => [.deactivateHuman h.humanid]
    | none => []) ++
  [.ensureHuman o.name o.is_multi_entity, .linkHumanToParcel pk hid role]

/-! ## Concrete stores and inputs used by witnesses and counterexamples -/

/-- A single active parcel row. -/
def theParcel : ParcelRow :=
  { parcelkey := 1, parcelidcnty := "p1", muni_municode := 9, deactivated := false }

/-- A store holding exactly `theParcel` and nothing else. -/
def parcelOnlyDb : DB :=
  { parcels := [theParcel], city_state_zips := [], streets := [], addresses := [],
    humans := [], parcel_address_links := [], human_address_links := [],
    human_parcel_links := [], nextId := 2, log := [] }

/-- Scraped data with an owner but no mailing address (a county page whose
mailing cell is empty normalizes to `none`). -/
def ownerNoMailing : OwnerAndMailing :=
  { owner := some { name := "JANE DOE", is_multi_entity := false }, mailing := none }

/-- A concrete scraped mailing value. -/
def mailingA : Mailing :=
  { delivery := { is_pobox := false, attn := none, number := "123", street := "MAIN ST",
                  secondary := none },
    last := { city := "SPRINGFIELD", state := "IL", zip := "62701" } }

/-- Scraped data with both an owner and a mailing address. -/
def ownerAndMailingA : OwnerAndMailing :=
  { owner := some { name := "JANE DOE", is_multi_entity := false }, mailing := some mailingA }

/-- A trivial delivery-line parser standing in for the external
`lib.parse` single-line parsers in witnesses. -/
def plainDal : String → DeliveryAddressLine :=
  fun s => { is_pobox := false, attn := none, number := s, street := s, secondary := none }

/-- A trivial last-line parser (city/state text and zip text) standing in for
`parse.mortgage_last_line` in witnesses. -/
def plainLL : String → String → LastLine :=
  fun cs z => { city := cs, state := cs, zip := z }

/-- A trivial combined city/state/zip parser standing in for
`parse.general_city_state_zip` in witnesses. -/
def plainCsz : String → LastLine :=
  fun s => { city := s, state := s, zip := s }

/-- A fetch oracle for the batch-sync witness: parcel "p2" fails with
`HtmlParsingError`, every other parcel scrapes successfully. -/
def demoFetch : String → Except SyncError GeneralAndMortgage :=
  fun pid =>
    if pid = "p2" then .error .htmlParsing
    else .ok { general := ownerAndMailingA, mortgage := ownerNoMailing }

/-- Three parcels of one municipality for the batch-sync witness. -/
def batchParcels : List ParcelRow :=
  [{ parcelkey := 1, parcelidcnty := "p1", muni_municode := 9, deactivated := false },
   { parcelkey := 2, parcelidcnty := "p2", muni_municode := 9, deactivated := false },
   { parcelkey := 3, parcelidcnty := "p3", muni_municode := 9, deactivated := false }]

/-- A store holding the three batch parcels. -/
def batchDb : DB :=
  { parcels := batchParcels, city_state_zips := [], streets := [], addresses := [],
    humans := [], parcel_address_links := [], human_address_links := [],
    human_parcel_links := [], nextId := 4, log := [] }

/-- A canonical city/state/zip row matching `mailingA`. -/
def theCsz : CityStateZipRow :=
  { id := 2, city := "SPRINGFIELD", state_abbr := "IL", zip_code := "62701", deactivated := false }

/-- A canonical street row matching `mailingA`, on `theCsz`. -/
def theStreet : StreetRow :=
  { streetid := 3, citystatezip_cszipid := 2, name := "MAIN ST", pobox := false,
    deactivated := false }

/-- A canonical address row matching `mailingA`, on `theStreet`. -/
def theAddress : AddressRow :=
  { addressid := 4, street_streetid := 3, bldgno := "123", attention := none,
    secondary := none, deactivated := false }

/-- An active general-role link from `theParcel` to `theAddress`. -/
def thePmal : ParcelMailingAddressRow :=
  { linkid := 5, parcel_parcelkey := 1, mailingaddress_addressid := 4,
    linkedobjectrole_lorid := LinkedObjectRole.GENERAL_HUMAN_MAILING_ADDRESS,
    deactivated := false }

/-- A store with a full address chain for `theParcel` but no human chain. -/
def chainDb : DB :=
  { parcels := [theParcel], city_state_zips := [theCsz], streets := [theStreet],
    addresses := [theAddress], humans := [], parcel_address_links := [thePmal],
    human_address_links := [], human_parcel_links := [], nextId := 6, log := [] }

/-- The chain `get_cog_tables` reads for `theParcel` in `chainDb`: full
address trio, no human side. -/
def theChain : CogTables :=
  { parcel := some theParcel, address := some theAddress, parcel_address := some thePmal,
    street := some theStreet, city_state_zip := some theCsz }

/-- Scraped data with a mailing address but no owner (used to exercise the
human-absent symmetric case of the cross-link). -/
def noOwnerMailingA : OwnerAndMailing := { owner := none, mailing := some mailingA }

/-- The reconcile call of the idempotence counterexample: an owner scraped
from the county page, but no mailing. -/
def callOwnerOnly : ReconcileCall :=
  { parcel_id := "p1", county_data := ownerNoMailing,
    roles := LinkedObjectRole.general_roles }

/-- The human row the first reconcile call of the idempotence witness
creates. -/
def theHuman : HumanRow :=
  { humanid := 6, name := "JANE DOE", multihuman := false, deactivated := false }

/-- The human-to-address cross link the first reconcile call of the
idempotence witness creates. -/
def theHmal : HumanMailingAddressRow :=
  { linkid := 8, humanmailing_humanid := some 6, humanmailing_addressid := some 4,
    role := 224, deactivated := false }

/-- The store produced by reconciling `ownerAndMailingA` against
`parcelOnlyDb` once in the general context. -/
def dbAfterFirst : DB :=
  { parcels := [theParcel], city_state_zips := [theCsz], streets := [theStreet],
    addresses := [theAddress], humans := [theHuman],
    parcel_address_links := [thePmal],
    human_address_links := [theHmal],
    human_parcel_links := [{ linkid := 7, humanid := 6, parcelkey := 1, role := 224,
                             deactivated := false }],
    nextId := 9,
    log := [.ensureCityStateZip "SPRINGFIELD" "IL" "62701",
            .ensureStreet 2 "MAIN ST" false,
            .ensureAddress 3 "123" none none,
            .linkParcelToAddress 1 4 223,
            .ensureHuman "JANE DOE" false,
            .linkHumanToParcel 1 6 224,
            .linkHumanToAddress (some 6) (some 4) 224] }

/-- The chain `get_cog_tables` reads back from `dbAfterFirst` for the general
address role. -/
def ctAfterFirst : CogTables :=
  { parcel := some theParcel, address := some theAddress, parcel_address := some thePmal,
    street := some theStreet, city_state_zip := some theCsz, human := some theHuman,
    human_address := some theHmal }

/-- The premise of the skip-and-continue claim, along the run order: each
parcel of the batch either raises `HtmlParsingError` (from its scrape/parse
step, which does not depend on the store) or syncs successfully from the
store reached at its turn. -/
def municipality_good_run (fetch : String → Except SyncError GeneralAndMortgage) :
    DB → List ParcelRow → Prop
  | _, [] => True
  | db, p :: rest =>
    (fetch p.parcelidcnty = .error .htmlParsing ∧ municipality_good_run fetch db rest) ∨
    (match sync_parcel_data fetch db p.parcelidcnty with
     | .ok res => municipality_good_run fetch res.1 rest
     | .error _ => False)

deriving instance DecidableEq for Except

/-! # Theorems -/

/-! ## Value normalizer claims -/

/-- C5: for every list of raw fragments, `owner_from_raw` discards non-text
fragments, sets the name to the remaining fragments' trimmed text joined with
`" & "` with all internal whitespace runs collapsed to single spaces, and
sets the multi-entity flag exactly when the kept-fragment count exceeds one
or the whitespace collapsing changed the joined string; in particular
`["  Acme   Corp "]` yields `Owner{name := "Acme Corp", isMultiEntity := true}`. -/
theorem owner_from_raw_spec (data : List RawFragment) :
    (owner_from_raw data).name
        = _clean_whitespace (String.intercalate " & " ((_clean_tags data).map pyStrip)) ∧
    ((owner_from_raw data).is_multi_entity = true ↔
      1 < (_clean_tags data).length ∨
        String.intercalate " & " ((_clean_tags data).map pyStrip)
          ≠ _clean_whitespace (String.intercalate " & " ((_clean_tags data).map pyStrip))) ∧
    owner_from_raw [.text "  Acme   Corp "]
        = { name := "Acme Corp", is_multi_entity := true } := by
  refine ⟨rfl, ?_, by decide⟩
  have e : (owner_from_raw data).is_multi_entity
      = if String.intercalate " & " ((_clean_tags data).map pyStrip)
            = _clean_whitespace (String.intercalate " & " ((_clean_tags data).map pyStrip))
        then decide (1 < (_clean_tags data).length) else true := rfl
  by_cases h : String.intercalate " & " ((_clean_tags data).map pyStrip)
      = _clean_whitespace (String.intercalate " & " ((_clean_tags data).map pyStrip))
  · rw [e, if_pos h]
    simp only [decide_eq_true_eq]
    constructor
    · exact fun hlt => Or.inl hlt
    · rintro (hlt | hne)
      · exact hlt
      · exact absurd h hne
  · rw [e, if_neg h]
    exact iff_of_true rfl (Or.inr h)

/-- C6: for every raw fragment list, `mailing_from_raw_tax` parses exactly
three text fragments into a `Mailing` whose delivery line comes from fragment
one and whose last line comes from fragments two (city/state) and three
(zip); zero text fragments yield `none`; any other count fails with the
error the spec's taxonomy names `MalformedAddressError`. -/
theorem mailing_from_raw_tax_shapes (mdal : String → DeliveryAddressLine)
    (mll : String → String → LastLine) (data : List RawFragment) :
    (∀ a b c, _clean_tags data = [a, b, c] →
      mailing_from_raw_tax mdal mll data = .ok (some { delivery := mdal a, last := mll b c })) ∧
    (_clean_tags data = [] → mailing_from_raw_tax mdal mll data = .ok none) ∧
    (_clean_tags data ≠ [] → (_clean_tags data).length ≠ 3 →
      mailing_from_raw_tax mdal mll data = .error .notImplemented) := by
  refine ⟨?_, ?_, ?_⟩
  · intro a b c h
    simp only [mailing_from_raw_tax, h]
  · intro h
    simp only [mailing_from_raw_tax, h]
  · intro hne hlen
    unfold mailing_from_raw_tax
    match hl : _clean_tags data with
    | [] => exact absurd hl hne
    | [a] => rfl
    | [a, b] => rfl
    | [a, b, c] => rw [hl] at hlen; simp at hlen
    | a :: b :: c :: d :: rest => rfl

theorem mailing_from_raw_tax_shapes_witness :
    mailing_from_raw_tax plainDal plainLL
        [.text "123 Main St", .text "Springfield, IL", .text "62701"]
      = .ok (some { delivery := plainDal "123 Main St",
                    last := plainLL "Springfield, IL" "62701" }) ∧
    mailing_from_raw_tax plainDal plainLL [.markup] = .ok none ∧
    mailing_from_raw_tax plainDal plainLL [.text "123 Main St", .text "Springfield, IL"]
      = .error .notImplemented := by
  refine ⟨?_, ?_, ?_⟩
  · exact (mailing_from_raw_tax_shapes plainDal plainLL _).1 _ _ _ rfl
  · exact (mailing_from_raw_tax_shapes plainDal plainLL _).2.1 rfl
  · exact (mailing_from_raw_tax_shapes plainDal plainLL _).2.2 (by decide) (by decide)

/-- C7 (code bug): in the three-fragment general shape the source executes
`re.sub(r"ATT(N|ENTION):?\s+", address_list[0], "")` (`app/lib.py` 216) —
the fragment is passed as the replacement and the subject is the empty
string, so the attention field is always the empty string instead of the
first fragment with its `ATTN`/`ATTENTION` prefix stripped (the behaviour
documented by the comment at `app/lib.py` 215 and by spec §4.1).  At the
failing input below the code yields `attn = ""` while the documented intent
yields `"John Doe"`. -/
theorem mailing_from_raw_general_attn_bug :
    (∀ (gdal : String → DeliveryAddressLine) (gcsz : String → LastLine),
      mailing_from_raw_general gdal gcsz
          [.text "ATTN: John Doe", .text "123 Main St", .text "Springfield, IL 62701"]
        = .ok (some { delivery := { gdal "123 Main St" with attn := some "" },
                      last := gcsz "Springfield, IL 62701" })) ∧
    spec_attn_strip "ATTN: John Doe" = "John Doe" ∧
    ("" : String) ≠ "John Doe" := by
  refine ⟨?_, by decide, by decide⟩
  intro gdal gcsz
  rfl

/-! ## Active-record reader claims -/

/-- C8: `get_cog_tables` fails with the error the spec names `NotFoundError`
when the parcel itself is absent, but absence of a sub-chain is not a
failure: a parcel with no active links yields empty (all-`none`) chains, and
a resolved address chain with no human link yields `none` human fields. -/
theorem get_cog_tables_absence (db : DB) (parcel_id : String) :
    ((db.parcels.filter fun p => p.parcelidcnty == parcel_id && !p.deactivated) = [] →
      get_cog_tables db parcel_id = .error .notFound) ∧
    (∀ parcel, select_parcel db parcel_id = .ok parcel →
      parcel_mailing_addresses db parcel.parcelkey = [] →
      get_cog_tables db parcel_id
        = .ok { general := { parcel := some parcel }, mortgage := { parcel := some parcel } }) ∧
    (∀ pa address street csz,
      select_address db pa.mailingaddress_addressid = .ok address →
      select_street db address.street_streetid = .ok street →
      select_city_state_zip db street.citystatezip_cszipid = .ok csz →
      select_human_mailing_address db address.addressid = .error .notFound →
      resolve_tables db pa
        = .ok { address := some address, parcel_address := some pa, street := some street,
                city_state_zip := some csz, human := none, human_address := none }) := by
  refine ⟨?_, ?_, ?_⟩
  · intro h
    unfold get_cog_tables select_parcel
    rw [h]
    rfl
  · intro parcel hp hl
    unfold get_cog_tables
    rw [hp]
    dsimp only
    rw [hl]
    rfl
  · intro pa address street csz ha hs hz hh
    unfold resolve_tables
    rw [ha]
    dsimp only
    rw [hs]
    dsimp only
    rw [hz]
    dsimp only
    rw [hh]

theorem get_cog_tables_absence_witness :
    get_cog_tables parcelOnlyDb "missing" = .error .notFound ∧
    get_cog_tables parcelOnlyDb "p1"
      = .ok { general := { parcel := some theParcel }, mortgage := { parcel := some theParcel } } ∧
    resolve_tables chainDb thePmal
      = .ok { address := some theAddress, parcel_address := some thePmal,
              street := some theStreet, city_state_zip := some theCsz,
              human := none, human_address := none } := by
  refine ⟨?_, ?_, ?_⟩
  · exact (get_cog_tables_absence parcelOnlyDb "missing").1 (by decide)
  · exact (get_cog_tables_absence parcelOnlyDb "p1").2.1 theParcel (by decide) (by decide)
  · exact (get_cog_tables_absence chainDb "p1").2.2 thePmal theAddress theStreet theCsz
      (by decide) (by decide) (by decide) (by decide)

/-! ## Frame lemmas for the reconcile engine -/

theorem human_side_deactivations_frame (db : DB) (ct : Option CogTables) :
    (human_side_deactivations db ct).addresses = db.addresses ∧
    (human_side_deactivations db ct).streets = db.streets ∧
    (human_side_deactivations db ct).city_state_zips = db.city_state_zips ∧
    (human_side_deactivations db ct).parcel_address_links = db.parcel_address_links ∧
    (human_side_deactivations db ct).parcels = db.parcels := by
  match ct with
  | none => exact ⟨rfl, rfl, rfl, rfl, rfl⟩
  | some t =>
    obtain ⟨p, a, pa, st, z, hu, ha, hp⟩ := t
    cases hp <;> cases ha <;> cases hu <;>
      simp [human_side_deactivations, deactivate_human_to_parcel,
            deactivate_human_to_address, deactivate_human]

theorem ensure_human_frame (db : DB) (n : String) (m : Bool) :
    (ensure_human db n m).1.addresses = db.addresses ∧
    (ensure_human db n m).1.streets = db.streets ∧
    (ensure_human db n m).1.city_state_zips = db.city_state_zips ∧
    (ensure_human db n m).1.parcel_address_links = db.parcel_address_links ∧
    (ensure_human db n m).1.parcels = db.parcels := by
  unfold ensure_human
  split <;> exact ⟨rfl, rfl, rfl, rfl, rfl⟩

/-- The human side touches only humans, human links and the log. -/
theorem _sync_human_side_frame (db : DB) (county : OwnerAndMailing)
    (ct : Option CogTables) (role : Nat) (db2 : DB) (hid : Option Nat) (ro : Option Owner)
    (hok : _sync_human_side db county ct role = .ok (db2, hid, ro)) :
    db2.addresses = db.addresses ∧ db2.streets = db.streets ∧
    db2.city_state_zips = db.city_state_zips ∧
    db2.parcel_address_links = db.parcel_address_links ∧
    db2.parcels = db.parcels := by
  by_cases hsame : county.owner = (_cog_tables_to_owner_and_mailing ct).owner
  · simp only [_sync_human_side, if_pos hsame] at hok
    cases hok
    exact ⟨rfl, rfl, rfl, rfl, rfl⟩
  · simp only [_sync_human_side, if_neg hsame] at hok
    rcases ho : county.owner with _ | o
    · rw [ho] at hok
      cases hok
    · rw [ho] at hok
      dsimp only at hok
      rcases hcb : ct.bind (fun t => t.parcel) with _ | parcel
      · rw [hcb] at hok
        cases hok
      · rw [hcb] at hok
        cases hok
        obtain ⟨d1, d2, d3, d4, d5⟩ := human_side_deactivations_frame db ct
        obtain ⟨e1, e2, e3, e4, e5⟩ :=
          ensure_human_frame (human_side_deactivations db ct) o.name o.is_multi_entity
        refine ⟨?_, ?_, ?_, ?_, ?_⟩ <;>
          simp [link_human_to_parcel, e1, e2, e3, e4, e5, d1, d2, d3, d4, d5]

theorem ensure_human_spec (db : DB) (n : String) (m : Bool) :
    (ensure_human db n m).2.name = n ∧
    (ensure_human db n m).2.multihuman = m ∧
    (ensure_human db n m).2.deactivated = false ∧
    (ensure_human db n m).2 ∈ (ensure_human db n m).1.humans ∧
    (ensure_human db n m).1.log = db.log ++ [.ensureHuman n m] ∧
    ((ensure_human db n m).1.humans = db.humans ∨
      (ensure_human db n m).1.humans = db.humans ++ [(ensure_human db n m).2]) := by
  unfold ensure_human
  rcases hf : db.humans.find? (fun h => h.name == n && h.multihuman == m && !h.deactivated)
    with _ | h
  · rw [hf]
    refine ⟨rfl, rfl, rfl, ?_, rfl, Or.inr rfl⟩
    simp
  · rw [hf]
    have hmem := List.mem_of_find?_eq_some hf
    have hpred := List.find?_some hf
    simp only [Bool.and_eq_true, beq_iff_eq, Bool.not_eq_eq_eq_not, Bool.not_true] at hpred
    exact ⟨hpred.1.1, hpred.1.2, hpred.2, hmem, rfl, Or.inl rfl⟩

theorem ensure_city_state_zip_spec (db : DB) (city state zip_ : String) :
    (ensure_city_state_zip db city state zip_).2.city = city ∧
    (ensure_city_state_zip db city state zip_).2.state_abbr = state ∧
    (ensure_city_state_zip db city state zip_).2.zip_code = zip_ ∧
    (ensure_city_state_zip db city state zip_).2.deactivated = false ∧
    (ensure_city_state_zip db city state zip_).2 ∈ (ensure_city_state_zip db city state zip_).1.city_state_zips ∧
    (ensure_city_state_zip db city state zip_).1.log = db.log ++ [.ensureCityStateZip city state zip_] ∧
    ((ensure_city_state_zip db city state zip_).1.city_state_zips = db.city_state_zips ∨
      (ensure_city_state_zip db city state zip_).1.city_state_zips
        = db.city_state_zips ++ [(ensure_city_state_zip db city state zip_).2]) := by
  unfold ensure_city_state_zip
  rcases hf : db.city_state_zips.find? (fun z =>
      z.city == city && z.state_abbr == state && z.zip_code == zip_ && !z.deactivated)
    with _ | z
  · rw [hf]
    refine ⟨rfl, rfl, rfl, rfl, ?_, rfl, Or.inr rfl⟩
    simp
  · rw [hf]
    have hmem := List.mem_of_find?_eq_some hf
    have hpred := List.find?_some hf
    simp only [Bool.and_eq_true, beq_iff_eq, Bool.not_eq_eq_eq_not, Bool.not_true] at hpred
    exact ⟨hpred.1.1.1, hpred.1.1.2, hpred.1.2, hpred.2, hmem, rfl, Or.inl rfl⟩

theorem ensure_street_spec (db : DB) (cszid : Nat) (sname : String) (pobox : Bool) :
    (ensure_street db cszid sname pobox).2.citystatezip_cszipid = cszid ∧
    (ensure_street db cszid sname pobox).2.name = sname ∧
    (ensure_street db cszid sname pobox).2.pobox = pobox ∧
    (ensure_street db cszid sname pobox).2.deactivated = false ∧
    (ensure_street db cszid sname pobox).2 ∈ (ensure_street db cszid sname pobox).1.streets ∧
    (ensure_street db cszid sname pobox).1.log = db.log ++ [.ensureStreet cszid sname pobox] ∧
    ((ensure_street db cszid sname pobox).1.streets = db.streets ∨
      (ensure_street db cszid sname pobox).1.streets
        = db.streets ++ [(ensure_street db cszid sname pobox).2]) := by
  unfold ensure_street
  rcases hf : db.streets.find? (fun s =>
      s.citystatezip_cszipid == cszid && s.name == sname && s.pobox == pobox && !s.deactivated)
    with _ | st
  · rw [hf]
    refine ⟨rfl, rfl, rfl, rfl, ?_, rfl, Or.inr rfl⟩
    simp
  · rw [hf]
    have hmem := List.mem_of_find?_eq_some hf
    have hpred := List.find?_some hf
    simp only [Bool.and_eq_true, beq_iff_eq, Bool.not_eq_eq_eq_not, Bool.not_true] at hpred
    exact ⟨hpred.1.1.1, hpred.1.1.2, hpred.1.2, hpred.2, hmem, rfl, Or.inl rfl⟩

theorem ensure_address_spec (db : DB) (sid : Nat) (num : String) (attn sec : Option String) :
    (ensure_address db sid num attn sec).2.street_streetid = sid ∧
    (ensure_address db sid num attn sec).2.bldgno = num ∧
    (ensure_address db sid num attn sec).2.attention = attn ∧
    (ensure_address db sid num attn sec).2.secondary = sec ∧
    (ensure_address db sid num attn sec).2.deactivated = false ∧
    (ensure_address db sid num attn sec).2 ∈ (ensure_address db sid num attn sec).1.addresses ∧
    (ensure_address db sid num attn sec).1.log = db.log ++ [.ensureAddress sid num attn sec] ∧
    ((ensure_address db sid num attn sec).1.addresses = db.addresses ∨
      (ensure_address db sid num attn sec).1.addresses
        = db.addresses ++ [(ensure_address db sid num attn sec).2]) := by
  unfold ensure_address
  rcases hf : db.addresses.find? (fun a =>
      a.street_streetid == sid && a.bldgno == num && a.attention == attn &&
      a.secondary == sec && !a.deactivated)
    with _ | a
  · rw [hf]
    refine ⟨rfl, rfl, rfl, rfl, rfl, ?_, rfl, Or.inr rfl⟩
    simp
  · rw [hf]
    have hmem := List.mem_of_find?_eq_some hf
    have hpred := List.find?_some hf
    simp only [Bool.and_eq_true, beq_iff_eq, Bool.not_eq_eq_eq_not, Bool.not_true] at hpred
    exact ⟨hpred.1.1.1.1, hpred.1.1.1.2, hpred.1.1.2, hpred.1.2, hpred.2, hmem, rfl, Or.inl rfl⟩

/-! ## Frame claim for an unchanged mailing (C2) -/

/-- C2 (amended): when the scraped mailing deep-equals the projection of the
current chain's mailing (including both-null), no `MailingAddress`,
`MailingStreet`, `MailingCityStateZip` or `ParcelMailingAddressLink` rows are
created or retired, and the engine returns the existing canonical mailing
unchanged.  (The original claim also covered the human-side link rows; see
the counterexample: a changed owner still retires/creates
`HumanMailingAddressLink` rows in the same call.) -/
theorem sync_same_mailing_frame (db : DB) (county : OwnerAndMailing) (ct : Option CogTables)
    (roles : Nat × Nat) (db' : DB) (r : OwnerAndMailing)
    (hsame : county.mailing = (_cog_tables_to_owner_and_mailing ct).mailing)
    (hok : _sync_owner_and_mailing db county ct roles = .ok (db', r)) :
    db'.addresses = db.addresses ∧ db'.streets = db.streets ∧
    db'.city_state_zips = db.city_state_zips ∧
    db'.parcel_address_links = db.parcel_address_links ∧
    r.mailing = (_cog_tables_to_owner_and_mailing ct).mailing := by
  have haddr : _sync_address_side db county ct roles.1
      = .ok (db, ct.bind fun t => t.address.map (·.addressid), county.mailing) := by
    simp only [_sync_address_side, if_pos hsame]
  simp only [_sync_owner_and_mailing, haddr] at hok
  rcases hh : _sync_human_side db county ct roles.2 with e | ⟨db2, hid2, ro2⟩
  · rw [hh] at hok
    cases hok
  · rw [hh] at hok
    dsimp only at hok
    obtain ⟨f1, f2, f3, f4, f5⟩ := _sync_human_side_frame db county ct roles.2 db2 hid2 ro2 hh
    by_cases hcond : county.owner = (_cog_tables_to_owner_and_mailing ct).owner ∧
        county.mailing = (_cog_tables_to_owner_and_mailing ct).mailing
    · rw [if_pos hcond] at hok
      cases hok
      exact ⟨f1, f2, f3, f4, hsame⟩
    · rw [if_neg hcond] at hok
      cases hok
      refine ⟨?_, ?_, ?_, ?_, hsame⟩ <;>
        simp [link_human_to_address, f1, f2, f3, f4]

theorem sync_same_mailing_frame_witness :
    ownerAndMailingA.mailing = (_cog_tables_to_owner_and_mailing (some theChain)).mailing ∧
    ∃ db' r, _sync_owner_and_mailing chainDb ownerAndMailingA (some theChain)
        LinkedObjectRole.general_roles = .ok (db', r) ∧
      db'.addresses = chainDb.addresses ∧ db'.streets = chainDb.streets ∧
      db'.city_state_zips = chainDb.city_state_zips ∧
      db'.parcel_address_links = chainDb.parcel_address_links ∧
      r.mailing = ownerAndMailingA.mailing := by
  refine ⟨by decide, ?_⟩
  have hrun : ∃ db' r, _sync_owner_and_mailing chainDb ownerAndMailingA (some theChain)
      LinkedObjectRole.general_roles = .ok (db', r) := ⟨_, _, rfl⟩
  obtain ⟨db', r, hok⟩ := hrun
  obtain ⟨f1, f2, f3, f4, f5⟩ := sync_same_mailing_frame chainDb ownerAndMailingA
    (some theChain) LinkedObjectRole.general_roles db' r (by decide) hok
  exact ⟨db', r, hok, f1, f2, f3, f4, by rw [f5]; decide⟩

/-- C2 counterexample: with the scraped mailing and the chain's projected
mailing both null (deep-equal) but a changed owner, the reconcile call still
creates a `HumanMailingAddressLink` row — so "no ... link rows are created or
retired" fails as stated. -/
theorem sync_same_mailing_link_created :
    ownerNoMailing.mailing
        = (_cog_tables_to_owner_and_mailing (some { parcel := some theParcel })).mailing ∧
    (okResult (_sync_owner_and_mailing parcelOnlyDb ownerNoMailing
        (some { parcel := some theParcel }) LinkedObjectRole.general_roles)).map
      (fun p : DB × OwnerAndMailing => p.1.human_address_links.length) = some 1 ∧
    parcelOnlyDb.human_address_links.length = 0 := by
  refine ⟨rfl, by decide, rfl⟩

/-! ## Inversion lemmas for the reconcile engine -/

/-- Splitting a successful reconcile call into its address side, human side
and conditional cross-link. -/
theorem _sync_owner_and_mailing_parts (db : DB) (county : OwnerAndMailing)
    (ct : Option CogTables) (roles : Nat × Nat) (db' : DB) (r : OwnerAndMailing)
    (hok : _sync_owner_and_mailing db county ct roles = .ok (db', r)) :
    ∃ db1 aid rm db2 hid ro,
      _sync_address_side db county ct roles.1 = .ok (db1, aid, rm) ∧
      _sync_human_side db1 county ct roles.2 = .ok (db2, hid, ro) ∧
      r = { owner := ro, mailing := rm } ∧
      ((county.owner = (_cog_tables_to_owner_and_mailing ct).owner ∧
        county.mailing = (_cog_tables_to_owner_and_mailing ct).mailing ∧ db' = db2) ∨
       (¬(county.owner = (_cog_tables_to_owner_and_mailing ct).owner ∧
          county.mailing = (_cog_tables_to_owner_and_mailing ct).mailing) ∧
        db' = link_human_to_address db2 hid aid roles.2)) := by
  unfold _sync_owner_and_mailing at hok
  rcases ha : _sync_address_side db county ct roles.1 with e | ⟨db1, aid, rm⟩
  · rw [ha] at hok
    cases hok
  · rw [ha] at hok
    dsimp only at hok
    rcases hh : _sync_human_side db1 county ct roles.2 with e | ⟨db2, hid, ro⟩
    · rw [hh] at hok
      cases hok
    · rw [hh] at hok
      dsimp only at hok
      by_cases hcond : county.owner = (_cog_tables_to_owner_and_mailing ct).owner ∧
          county.mailing = (_cog_tables_to_owner_and_mailing ct).mailing
      · rw [if_pos hcond] at hok
        cases hok
        exact ⟨db1, aid, rm, _, hid, ro, rfl, hh, rfl,
          Or.inl ⟨hcond.1, hcond.2, rfl⟩⟩
      · rw [if_neg hcond] at hok
        cases hok
        exact ⟨db1, aid, rm, _, hid, ro, rfl, hh, rfl, Or.inr ⟨hcond, rfl⟩⟩

/-- Inversion of the address side when the mailing is unchanged: nothing is
written and the slots keep their initial values. -/
theorem _sync_address_side_same (db : DB) (county : OwnerAndMailing) (ct : Option CogTables)
    (r1 : Nat) (hsame : county.mailing = (_cog_tables_to_owner_and_mailing ct).mailing) :
    _sync_address_side db county ct r1
      = .ok (db, ct.bind fun t => t.address.map (·.addressid), county.mailing) := by
  simp only [_sync_address_side, if_pos hsame]

/-- Inversion of the human side when the owner is unchanged. -/
theorem _sync_human_side_same (db : DB) (county : OwnerAndMailing) (ct : Option CogTables)
    (role : Nat) (hsame : county.owner = (_cog_tables_to_owner_and_mailing ct).owner) :
    _sync_human_side db county ct role
      = .ok (db, ct.bind fun t => t.human.map (·.humanid), county.owner) := by
  simp only [_sync_human_side, if_pos hsame]

/-- Inversion of the address side when the mailing changed: the scraped
mailing and the chain's parcel must be present, the deactivation block runs,
the three ensures run in csz→street→address order, and the new link is
created. -/
theorem _sync_address_side_changed (db : DB) (county : OwnerAndMailing) (ct : Option CogTables)
    (r1 : Nat) (db1 : DB) (aid : Option Nat) (rm : Option Mailing)
    (hne : ¬ county.mailing = (_cog_tables_to_owner_and_mailing ct).mailing)
    (hok : _sync_address_side db county ct r1 = .ok (db1, aid, rm)) :
    ∃ m P,
      county.mailing = some m ∧
      ct.bind (fun t => t.parcel) = some P ∧
      db1 = link_parcel_to_address
              (ensure_address
                (ensure_street
                  (ensure_city_state_zip (address_side_deactivations db ct)
                    m.last.city m.last.state m.last.zip).1
                  (ensure_city_state_zip (address_side_deactivations db ct)
                    m.last.city m.last.state m.last.zip).2.id
                  m.delivery.street m.delivery.is_pobox).1
                (ensure_street
                  (ensure_city_state_zip (address_side_deactivations db ct)
                    m.last.city m.last.state m.last.zip).1
                  (ensure_city_state_zip (address_side_deactivations db ct)
                    m.last.city m.last.state m.last.zip).2.id
                  m.delivery.street m.delivery.is_pobox).2.streetid
                m.delivery.number m.delivery.attn m.delivery.secondary).1
              P.parcelkey
              (ensure_address
                (ensure_street
                  (ensure_city_state_zip (address_side_deactivations db ct)
                    m.last.city m.last.state m.last.zip).1
                  (ensure_city_state_zip (address_side_deactivations db ct)
                    m.last.city m.last.state m.last.zip).2.id
                  m.delivery.street m.delivery.is_pobox).1
                (ensure_street
                  (ensure_city_state_zip (address_side_deactivations db ct)
                    m.last.city m.last.state m.last.zip).1
                  (ensure_city_state_zip (address_side_deactivations db ct)
                    m.last.city m.last.state m.last.zip).2.id
                  m.delivery.street m.delivery.is_pobox).2.streetid
                m.delivery.number m.delivery.attn m.delivery.secondary).2.addressid
              r1 ∧
      aid = some (ensure_address
                (ensure_street
                  (ensure_city_state_zip (address_side_deactivations db ct)
                    m.last.city m.last.state m.last.zip).1
                  (ensure_city_state_zip (address_side_deactivations db ct)
                    m.last.city m.last.state m.last.zip).2.id
                  m.delivery.street m.delivery.is_pobox).1
                (ensure_street
                  (ensure_city_state_zip (address_side_deactivations db ct)
                    m.last.city m.last.state m.last.zip).1
                  (ensure_city_state_zip (address_side_deactivations db ct)
                    m.last.city m.last.state m.last.zip).2.id
                  m.delivery.street m.delivery.is_pobox).2.streetid
                m.delivery.number m.delivery.attn m.delivery.secondary).2.addressid := by
  simp only [_sync_address_side, if_neg hne] at hok
  rcases hm : county.mailing with _ | m
  · rw [hm] at hok
    cases hok
  · rw [hm] at hok
    dsimp only at hok
    rcases hcb : ct.bind (fun t => t.parcel) with _ | P
    · rw [hcb] at hok
      cases hok
    · rw [hcb] at hok
      cases hok
      exact ⟨m, P, rfl, rfl, rfl, rfl⟩

/-- Inversion of the human side when the owner changed: the scraped owner and
the chain's parcel must be present, the deactivation block runs, the human is
ensured, and the human-to-parcel link is created under the given role. -/
theorem _sync_human_side_changed (db : DB) (county : OwnerAndMailing) (ct : Option CogTables)
    (role : Nat) (db2 : DB) (hid : Option Nat) (ro : Option Owner)
    (hne : ¬ county.owner = (_cog_tables_to_owner_and_mailing ct).owner)
    (hok : _sync_human_side db county ct role = .ok (db2, hid, ro)) :
    ∃ o P,
      county.owner = some o ∧
      ct.bind (fun t => t.parcel) = some P ∧
      db2 = link_human_to_parcel
              (ensure_human (human_side_deactivations db ct) o.name o.is_multi_entity).1
              P.parcelkey
              (ensure_human (human_side_deactivations db ct) o.name o.is_multi_entity).2.humanid
              role ∧
      hid = some (ensure_human (human_side_deactivations db ct) o.name o.is_multi_entity).2.humanid ∧
      ro = some { name := (ensure_human (human_side_deactivations db ct) o.name o.is_multi_entity).2.name,
                  is_multi_entity :=
                    (ensure_human (human_side_deactivations db ct) o.name o.is_multi_entity).2.multihuman } := by
  simp only [_sync_human_side, if_neg hne] at hok
  rcases ho : county.owner with _ | o
  · rw [ho] at hok
    cases hok
  · rw [ho] at hok
    dsimp only at hok
    rcases hcb : ct.bind (fun t => t.parcel) with _ | P
    · rw [hcb] at hok
      cases hok
    · rw [hcb] at hok
      cases hok
      exact ⟨o, P, rfl, rfl, rfl, rfl, rfl⟩

theorem human_side_deactivations_log (db : DB) (ct : Option CogTables) :
    (human_side_deactivations db ct).log = db.log ++
      (match ct with
       | none => []
       | some t =>
         (match t.human_parcel with
          | some hp => [WriteOp.deactivateHumanToParcel hp.linkid]
          | none => []) ++
         (match t.human_address with
          | some ha => [WriteOp.deactivateHumanToAddress ha.linkid]
          | none => []) ++
         (match t.human with
          | some h => [WriteOp.deactivateHuman h.humanid]
          | none => [])) := by
  match ct with
  | none => simp [human_side_deactivations]
  | some t =>
    obtain ⟨p, a, pa, st, z, hu, ha, hp⟩ := t
    cases hp <;> cases ha <;> cases hu <;>
      simp [human_side_deactivations, deactivate_human_to_parcel,
            deactivate_human_to_address, deactivate_human]

theorem address_side_deactivations_log (db : DB) (ct : Option CogTables) :
    (address_side_deactivations db ct).log = db.log ++
      (match ct with
       | none => []
       | some t =>
         (match t.parcel_address with
          | some pa => [WriteOp.deactivateParcelToAddress pa.linkid]
          | none => []) ++
         (match t.human_address with
          | some ha => [WriteOp.deactivateHumanToAddress ha.linkid]
          | none => []) ++
         (match t.address with
          | some a => [WriteOp.deactivateAddress a.addressid]
          | none => [])) := by
  match ct with
  | none => simp [address_side_deactivations]
  | some t =>
    obtain ⟨p, a, pa, st, z, hu, ha, hp⟩ := t
    cases pa <;> cases ha <;> cases a <;>
      simp [address_side_deactivations, deactivate_parcel_to_address,
            deactivate_human_to_address, deactivate_address]

theorem log_ext_step {d1 d2 : DB} (h : ∃ e, d2.log = d1.log ++ e) {d3 : DB}
    (h2 : ∃ e2, d3.log = d2.log ++ e2) : ∃ e, d3.log = d1.log ++ e := by
  obtain ⟨a, ha⟩ := h
  obtain ⟨b, hb⟩ := h2
  exact ⟨a ++ b, by rw [hb, ha, List.append_assoc]⟩

/-- A successful address side only appends to the log. -/
theorem _sync_address_side_log (db : DB) (county : OwnerAndMailing) (ct : Option CogTables)
    (r1 : Nat) (db1 : DB) (aid : Option Nat) (rm : Option Mailing)
    (hok : _sync_address_side db county ct r1 = .ok (db1, aid, rm)) :
    ∃ ext, db1.log = db.log ++ ext := by
  by_cases hsame : county.mailing = (_cog_tables_to_owner_and_mailing ct).mailing
  · rw [_sync_address_side_same db county ct r1 hsame] at hok
    cases hok
    exact ⟨[], (List.append_nil _).symm⟩
  · obtain ⟨m, P, hm, hcb, hdb1, -⟩ :=
      _sync_address_side_changed db county ct r1 db1 aid rm hsame hok
    subst hdb1
    have h1 := address_side_deactivations_log db ct
    have h2 := (ensure_city_state_zip_spec (address_side_deactivations db ct)
      m.last.city m.last.state m.last.zip).2.2.2.2.2.1
    have h3 := (ensure_street_spec (ensure_city_state_zip (address_side_deactivations db ct)
        m.last.city m.last.state m.last.zip).1
      (ensure_city_state_zip (address_side_deactivations db ct)
        m.last.city m.last.state m.last.zip).2.id
      m.delivery.street m.delivery.is_pobox).2.2.2.2.2.1
    have h4 := (ensure_address_spec (ensure_street (ensure_city_state_zip (address_side_deactivations db ct)
          m.last.city m.last.state m.last.zip).1
        (ensure_city_state_zip (address_side_deactivations db ct)
          m.last.city m.last.state m.last.zip).2.id
        m.delivery.street m.delivery.is_pobox).1
      (ensure_street (ensure_city_state_zip (address_side_deactivations db ct)
          m.last.city m.last.state m.last.zip).1
        (ensure_city_state_zip (address_side_deactivations db ct)
          m.last.city m.last.state m.last.zip).2.id
        m.delivery.street m.delivery.is_pobox).2.streetid
      m.delivery.number m.delivery.attn m.delivery.secondary).2.2.2.2.2.2.1
    exact log_ext_step ⟨_, h1⟩ (log_ext_step ⟨_, h2⟩ (log_ext_step ⟨_, h3⟩
      (log_ext_step ⟨_, h4⟩ ⟨_, rfl⟩)))

/-- C4: for every reconcile call where the scraped owner differs from the
projection of the current chain's owner and a current chain exists, the
engine retires (each if present, in order) the HumanParcelLink, the
HumanMailingAddressLink and the Human, then ensures a new Human from the
scraped owner, then creates a HumanParcelLink under the addressee-role: the
write log contains exactly that contiguous block for the human side, the new
human-to-parcel link row exists with the addressee role, and an active human
row with the scraped owner's attributes exists. -/
theorem sync_owner_changed_human_side (db : DB) (county : OwnerAndMailing) (c : CogTables)
    (roles : Nat × Nat) (o : Owner) (P : ParcelRow) (db' : DB) (r : OwnerAndMailing)
    (ho : county.owner = some o)
    (hp : c.parcel = some P)
    (hdiff : ¬ county.owner = (_cog_tables_to_owner_and_mailing (some c)).owner)
    (hok : _sync_owner_and_mailing db county (some c) roles = .ok (db', r)) :
    ∃ ext1 hid ext2,
      db'.log = db.log ++ ext1 ++ human_side_ops c o P.parcelkey hid roles.2 ++ ext2 ∧
      (∃ lid, ({ linkid := lid, humanid := hid, parcelkey := P.parcelkey, role := roles.2,
                 deactivated := false } : HumanParcelRow) ∈ db'.human_parcel_links) ∧
      (∃ hrow : HumanRow, hrow.humanid = hid ∧ hrow.name = o.name ∧
        hrow.multihuman = o.is_multi_entity ∧ hrow.deactivated = false ∧
        hrow ∈ db'.humans) := by
  obtain ⟨db1, aid, rm, db2, hid0, ro, ha, hh, hr, hcase⟩ :=
    _sync_owner_and_mailing_parts db county (some c) roles db' r hok
  obtain ⟨o', P', ho', hcb', hdb2, hhid, hro⟩ :=
    _sync_human_side_changed db1 county (some c) roles.2 db2 hid0 ro hdiff hh
  have ho2 : o = o' := by
    rw [ho] at ho'
    exact Option.some.inj ho'
  have hP2 : P = P' := by
    have hcp : c.parcel = some P' := hcb'
    rw [hp] at hcp
    exact Option.some.inj hcp
  subst ho2
  subst hP2
  rcases hcase with ⟨h1c, -, -⟩ | ⟨-, hdb'⟩
  · exact absurd h1c hdiff
  obtain ⟨ext1, hext1⟩ := _sync_address_side_log db county (some c) roles.1 db1 aid rm ha
  obtain ⟨e1, e2, e3, e4, e5, -⟩ :=
    ensure_human_spec (human_side_deactivations db1 (some c)) o.name o.is_multi_entity
  have l1 := human_side_deactivations_log db1 (some c)
  subst hdb2
  subst hdb'
  subst hhid
  refine ⟨ext1,
    (ensure_human (human_side_deactivations db1 (some c)) o.name o.is_multi_entity).2.humanid,
    [.linkHumanToAddress
      (some (ensure_human (human_side_deactivations db1 (some c)) o.name o.is_multi_entity).2.humanid)
      aid roles.2], ?_, ?_, ?_⟩
  · simp only [link_human_to_address, link_human_to_parcel, e5, l1, hext1, human_side_ops,
      List.append_assoc, List.singleton_append, List.cons_append, List.nil_append]
  · refine ⟨(ensure_human (human_side_deactivations db1 (some c)) o.name o.is_multi_entity).1.nextId, ?_⟩
    simp [link_human_to_address, link_human_to_parcel]
  · refine ⟨(ensure_human (human_side_deactivations db1 (some c)) o.name o.is_multi_entity).2,
      rfl, e1, e2, e3, ?_⟩
    simpa [link_human_to_address, link_human_to_parcel] using e4

theorem sync_owner_changed_human_side_witness :
    ∃ db' r, _sync_owner_and_mailing parcelOnlyDb ownerAndMailingA
        (some { parcel := some theParcel }) LinkedObjectRole.general_roles = .ok (db', r) ∧
      ∃ ext1 hid ext2,
        db'.log = parcelOnlyDb.log ++ ext1 ++
          human_side_ops { parcel := some theParcel }
            { name := "JANE DOE", is_multi_entity := false }
            theParcel.parcelkey hid LinkedObjectRole.general_roles.2 ++ ext2 := by
  obtain ⟨db', r, hok⟩ : ∃ db' r,
      _sync_owner_and_mailing parcelOnlyDb ownerAndMailingA
        (some { parcel := some theParcel }) LinkedObjectRole.general_roles
      = .ok (db', r) := ⟨_, _, rfl⟩
  obtain ⟨ext1, hid, ext2, hlog, -, -⟩ :=
    sync_owner_changed_human_side parcelOnlyDb ownerAndMailingA { parcel := some theParcel }
      LinkedObjectRole.general_roles { name := "JANE DOE", is_multi_entity := false }
      theParcel db' r rfl rfl (by decide) hok
  exact ⟨db', r, hok, ext1, hid, ext2, hlog⟩

theorem ensure_human_hmal (db : DB) (n : String) (m : Bool) :
    (ensure_human db n m).1.human_address_links = db.human_address_links := by
  unfold ensure_human
  split <;> rfl

theorem ensure_city_state_zip_hmal (db : DB) (city state zip_ : String) :
    (ensure_city_state_zip db city state zip_).1.human_address_links
      = db.human_address_links := by
  unfold ensure_city_state_zip
  split <;> rfl

theorem ensure_street_hmal (db : DB) (cszid : Nat) (sname : String) (pobox : Bool) :
    (ensure_street db cszid sname pobox).1.human_address_links = db.human_address_links := by
  unfold ensure_street
  split <;> rfl

theorem ensure_address_hmal (db : DB) (sid : Nat) (num : String) (attn sec : Option String) :
    (ensure_address db sid num attn sec).1.human_address_links = db.human_address_links := by
  unfold ensure_address
  split <;> rfl

theorem human_side_deactivations_hmal_length (db : DB) (ct : Option CogTables) :
    (human_side_deactivations db ct).human_address_links.length
      = db.human_address_links.length := by
  match ct with
  | none => rfl
  | some t =>
    obtain ⟨p, a, pa, st, z, hu, ha, hp⟩ := t
    cases hp <;> cases ha <;> cases hu <;>
      simp [human_side_deactivations, deactivate_human_to_parcel,
            deactivate_human_to_address, deactivate_human]

theorem address_side_deactivations_hmal_length (db : DB) (ct : Option CogTables) :
    (address_side_deactivations db ct).human_address_links.length
      = db.human_address_links.length := by
  match ct with
  | none => rfl
  | some t =>
    obtain ⟨p, a, pa, st, z, hu, ha, hp⟩ := t
    cases pa <;> cases ha <;> cases a <;>
      simp [address_side_deactivations, deactivate_parcel_to_address,
            deactivate_human_to_address, deactivate_address]

/-- A successful human side preserves the number of human-to-address rows. -/
theorem _sync_human_side_hmal_length (db : DB) (county : OwnerAndMailing)
    (ct : Option CogTables) (role : Nat) (db2 : DB) (hid : Option Nat) (ro : Option Owner)
    (hok : _sync_human_side db county ct role = .ok (db2, hid, ro)) :
    db2.human_address_links.length = db.human_address_links.length := by
  by_cases hsame : county.owner = (_cog_tables_to_owner_and_mailing ct).owner
  · rw [_sync_human_side_same db county ct role hsame] at hok
    cases hok
    rfl
  · obtain ⟨o, P, ho, hcb, hdb2, -, -⟩ :=
      _sync_human_side_changed db county ct role db2 hid ro hsame hok
    subst hdb2
    simp [link_human_to_parcel, ensure_human_hmal, human_side_deactivations_hmal_length]

/-- A successful address side preserves the number of human-to-address rows. -/
theorem _sync_address_side_hmal_length (db : DB) (county : OwnerAndMailing)
    (ct : Option CogTables) (r1 : Nat) (db1 : DB) (aid : Option Nat) (rm : Option Mailing)
    (hok : _sync_address_side db county ct r1 = .ok (db1, aid, rm)) :
    db1.human_address_links.length = db.human_address_links.length := by
  by_cases hsame : county.mailing = (_cog_tables_to_owner_and_mailing ct).mailing
  · rw [_sync_address_side_same db county ct r1 hsame] at hok
    cases hok
    rfl
  · obtain ⟨m, P, hm, hcb, hdb1, -⟩ :=
      _sync_address_side_changed db county ct r1 db1 aid rm hsame hok
    subst hdb1
    simp [link_parcel_to_address, ensure_address_hmal, ensure_street_hmal,
      ensure_city_state_zip_hmal, address_side_deactivations_hmal_length]

/-- C10: when exactly one side changes while the other side's current entity
is absent, the cross-link is still created and carries a null id for the
absent, unchanged side.  Part one: owner changed, mailing unchanged, no
active MailingAddress in the chain — the HumanMailingAddressLink row is
created with a null address id.  Part two (symmetric): mailing changed, owner
unchanged, no active Human in the chain — the row is created with a null
human id. -/
theorem cross_link_gets_null_id (db : DB) (county : OwnerAndMailing) (c : CogTables)
    (roles : Nat × Nat) (db' : DB) (r : OwnerAndMailing)
    (hok : _sync_owner_and_mailing db county (some c) roles = .ok (db', r)) :
    (county.mailing = (_cog_tables_to_owner_and_mailing (some c)).mailing →
     ¬ county.owner = (_cog_tables_to_owner_and_mailing (some c)).owner →
     c.address = none →
     ∃ hid lid,
       db'.log.getLast? = some (.linkHumanToAddress (some hid) none roles.2) ∧
       db'.human_address_links.getLast?
         = some { linkid := lid, humanmailing_humanid := some hid,
                  humanmailing_addressid := none, role := roles.2, deactivated := false } ∧
       db'.human_address_links.length = db.human_address_links.length + 1) ∧
    (¬ county.mailing = (_cog_tables_to_owner_and_mailing (some c)).mailing →
     county.owner = (_cog_tables_to_owner_and_mailing (some c)).owner →
     c.human = none →
     ∃ aid lid,
       db'.log.getLast? = some (.linkHumanToAddress none (some aid) roles.2) ∧
       db'.human_address_links.getLast?
         = some { linkid := lid, humanmailing_humanid := none,
                  humanmailing_addressid := some aid, role := roles.2, deactivated := false } ∧
       db'.human_address_links.length = db.human_address_links.length + 1) := by
  obtain ⟨db1, aid, rm, db2, hid0, ro, ha, hh, hr, hcase⟩ :=
    _sync_owner_and_mailing_parts db county (some c) roles db' r hok
  constructor
  · intro hsame hdiff hnoaddr
    rcases hcase with ⟨h1c, -, -⟩ | ⟨-, hdb'⟩
    · exact absurd h1c hdiff
    obtain ⟨o, P, ho, hcb, hdb2, hhid, hro⟩ :=
      _sync_human_side_changed db1 county (some c) roles.2 db2 hid0 ro hdiff hh
    have hlen := _sync_human_side_hmal_length db1 county (some c) roles.2 db2 hid0 ro hh
    rw [_sync_address_side_same db county (some c) roles.1 hsame] at ha
    cases ha
    have haid : ((some c).bind fun t => t.address.map (·.addressid)) = none := by
      simp [Option.bind, hnoaddr]
    subst hdb'
    subst hhid
    refine ⟨(ensure_human (human_side_deactivations db (some c)) o.name o.is_multi_entity).2.humanid,
      db2.nextId, ?_, ?_, ?_⟩
    · rw [haid]
      simp [link_human_to_address]
    · rw [haid]
      simp [link_human_to_address]
    · simp [link_human_to_address, hlen]
  · intro hdiffm hsameh hnohuman
    rcases hcase with ⟨-, h2c, -⟩ | ⟨-, hdb'⟩
    · exact absurd h2c hdiffm
    obtain ⟨m, P, hm, hcb, hdb1, haid⟩ :=
      _sync_address_side_changed db county (some c) roles.1 db1 aid rm hdiffm ha
    have hlen := _sync_address_side_hmal_length db county (some c) roles.1 db1 aid rm ha
    rw [_sync_human_side_same db1 county (some c) roles.2 hsameh] at hh
    cases hh
    have hhid : ((some c).bind fun t => t.human.map (·.humanid)) = none := by
      simp [Option.bind, hnohuman]
    subst hdb'
    subst haid
    refine ⟨(ensure_address
        (ensure_street
          (ensure_city_state_zip (address_side_deactivations db (some c))
            m.last.city m.last.state m.last.zip).1
          (ensure_city_state_zip (address_side_deactivations db (some c))
            m.last.city m.last.state m.last.zip).2.id
          m.delivery.street m.delivery.is_pobox).1
        (ensure_street
          (ensure_city_state_zip (address_side_deactivations db (some c))
            m.last.city m.last.state m.last.zip).1
          (ensure_city_state_zip (address_side_deactivations db (some c))
            m.last.city m.last.state m.last.zip).2.id
          m.delivery.street m.delivery.is_pobox).2.streetid
        m.delivery.number m.delivery.attn m.delivery.secondary).2.addressid,
      db1.nextId, ?_, ?_, ?_⟩
    · rw [hhid]
      simp [link_human_to_address]
    · rw [hhid]
      simp [link_human_to_address]
    · simp [link_human_to_address, hlen]

theorem cross_link_gets_null_id_witness :
    (∃ db' r, _sync_owner_and_mailing parcelOnlyDb ownerNoMailing
        (some { parcel := some theParcel }) LinkedObjectRole.general_roles = .ok (db', r) ∧
      ∃ hid lid,
        db'.log.getLast? = some (.linkHumanToAddress (some hid) none
          LinkedObjectRole.general_roles.2) ∧
        db'.human_address_links.getLast?
          = some { linkid := lid, humanmailing_humanid := some hid,
                   humanmailing_addressid := none, role := LinkedObjectRole.general_roles.2,
                   deactivated := false } ∧
        db'.human_address_links.length = parcelOnlyDb.human_address_links.length + 1) ∧
    (∃ db' r, _sync_owner_and_mailing parcelOnlyDb noOwnerMailingA
        (some { parcel := some theParcel }) LinkedObjectRole.general_roles = .ok (db', r) ∧
      ∃ aid lid,
        db'.log.getLast? = some (.linkHumanToAddress none (some aid)
          LinkedObjectRole.general_roles.2) ∧
        db'.human_address_links.getLast?
          = some { linkid := lid, humanmailing_humanid := none,
                   humanmailing_addressid := some aid, role := LinkedObjectRole.general_roles.2,
                   deactivated := false } ∧
        db'.human_address_links.length = parcelOnlyDb.human_address_links.length + 1) := by
  constructor
  · obtain ⟨db', r, hok⟩ : ∃ db' r,
        _sync_owner_and_mailing parcelOnlyDb ownerNoMailing
          (some { parcel := some theParcel }) LinkedObjectRole.general_roles
        = .ok (db', r) := ⟨_, _, rfl⟩
    exact ⟨db', r, hok, (cross_link_gets_null_id parcelOnlyDb ownerNoMailing
      { parcel := some theParcel } LinkedObjectRole.general_roles db' r hok).1
      rfl (by decide) rfl⟩
  · obtain ⟨db', r, hok⟩ : ∃ db' r,
        _sync_owner_and_mailing parcelOnlyDb noOwnerMailingA
          (some { parcel := some theParcel }) LinkedObjectRole.general_roles
        = .ok (db', r) := ⟨_, _, rfl⟩
    exact ⟨db', r, hok, (cross_link_gets_null_id parcelOnlyDb noOwnerMailingA
      { parcel := some theParcel } LinkedObjectRole.general_roles db' r hok).2
      (by decide) rfl rfl⟩

/-! ## Batch sync claims -/

theorem sync_municipality_go_spec (fetch : String → Except SyncError GeneralAndMortgage)
    (ps : List ParcelRow) :
    ∀ (db : DB) (total : Nat) (skipped : List Nat),
    municipality_good_run fetch db ps →
    sync_municipality_go fetch db ps total skipped
      = .ok (municipality_run_spec fetch db ps,
             { total := total + ps.length,
               skipped := skipped ++
                 (ps.filter fun p => fetch p.parcelidcnty == .error .htmlParsing).map
                   (·.parcelkey) }) := by
  induction ps with
  | nil =>
    intro db total skipped hgood
    simp [sync_municipality_go, municipality_run_spec]
  | cons p rest ih =>
    intro db total skipped hgood
    rcases hgood with ⟨hf, hrest⟩ | hmatch
    · have hsync : sync_parcel_data fetch db p.parcelidcnty = .error .htmlParsing := by
        unfold sync_parcel_data
        rw [hf]
      have hfb : (fetch p.parcelidcnty == Except.error SyncError.htmlParsing) = true := by
        rw [hf]
        rfl
      have hstep : sync_municipality_go fetch db (p :: rest) total skipped
          = sync_municipality_go fetch db rest (total + 1) (skipped ++ [p.parcelkey]) := by
        conv_lhs => unfold sync_municipality_go
        rw [hsync]
      rw [hstep]
      rw [ih db (total + 1) (skipped ++ [p.parcelkey]) hrest]
      have hrun : municipality_run_spec fetch db (p :: rest)
          = municipality_run_spec fetch db rest := by
        conv_lhs => unfold municipality_run_spec
        rw [hsync]
      rw [hrun]
      have hfilter : ((p :: rest).filter fun q =>
            fetch q.parcelidcnty == Except.error SyncError.htmlParsing)
          = p :: (rest.filter fun q =>
            fetch q.parcelidcnty == Except.error SyncError.htmlParsing) := by
        simp [List.filter_cons, hfb]
      rw [hfilter]
      simp [Nat.add_assoc, Nat.add_comm 1 rest.length]
    · rcases hs : sync_parcel_data fetch db p.parcelidcnty with e | res
      · rw [hs] at hmatch
        exact absurd hmatch (by simp)
      · obtain ⟨resdb, resv⟩ := res
        rw [hs] at hmatch
        have hfb : (fetch p.parcelidcnty == Except.error SyncError.htmlParsing) = false := by
          rcases hfe : fetch p.parcelidcnty with e | v
          · exfalso
            revert hs
            unfold sync_parcel_data
            rw [hfe]
            intro hs
            cases hs
          · rfl
        have hstep : sync_municipality_go fetch db (p :: rest) total skipped
            = sync_municipality_go fetch resdb rest (total + 1) skipped := by
          conv_lhs => unfold sync_municipality_go
          rw [hs]
        rw [hstep]
        rw [ih resdb (total + 1) skipped hmatch]
        have hrun : municipality_run_spec fetch db (p :: rest)
            = municipality_run_spec fetch resdb rest := by
          conv_lhs => unfold municipality_run_spec
          rw [hs]
        rw [hrun]
        have hfilter : ((p :: rest).filter fun q =>
              fetch q.parcelidcnty == Except.error SyncError.htmlParsing)
            = rest.filter fun q =>
              fetch q.parcelidcnty == Except.error SyncError.htmlParsing := by
          simp [List.filter_cons, hfb]
        rw [hfilter]
        simp [Nat.add_assoc, Nat.add_comm 1 rest.length]

theorem sync_municipality_go_no_html_abort (fetch : String → Except SyncError GeneralAndMortgage)
    (ps : List ParcelRow) :
    ∀ (db : DB) (total : Nat) (skipped : List Nat),
    sync_municipality_go fetch db ps total skipped ≠ .error .htmlParsing := by
  induction ps with
  | nil =>
    intro db total skipped h
    cases h
  | cons p rest ih =>
    intro db total skipped h
    unfold sync_municipality_go at h
    rcases hs : sync_parcel_data fetch db p.parcelidcnty with e | res
    · rcases e with _ | _ | e | e | e <;> rw [hs] at h
      · exact ih db (total + 1) (skipped ++ [p.parcelkey]) h
      all_goals cases h
    · obtain ⟨resdb, resv⟩ := res
      rw [hs] at h
      exact ih resdb (total + 1) skipped h

/-- C9: for a municipality batch over the parcels selected by municode, where
each parcel either raises `HtmlParsingError` during its sync or syncs
successfully, the batch reports `total` equal to the number of parcels,
`skipped` equal to the keys of exactly the parcels that raised
`HtmlParsingError`, the final store is the sequential reconciliation of the
non-skipped parcels (`municipality_run_spec`), and a batch is never aborted
by an `HtmlParsingError`. -/
theorem sync_municipality_batch (fetch : String → Except SyncError GeneralAndMortgage)
    (db : DB) (municode : Nat)
    (hgood : municipality_good_run fetch db (parcels_by_municode db municode)) :
    sync_municipality fetch db municode
      = .ok (municipality_run_spec fetch db (parcels_by_municode db municode),
             { total := (parcels_by_municode db municode).length,
               skipped := ((parcels_by_municode db municode).filter
                   fun p => fetch p.parcelidcnty == .error .htmlParsing).map
                 (·.parcelkey) }) ∧
    (∀ (fetch2 : String → Except SyncError GeneralAndMortgage) (db2 : DB) (mu2 : Nat),
      sync_municipality fetch2 db2 mu2 ≠ .error .htmlParsing) := by
  constructor
  · have h := sync_municipality_go_spec fetch (parcels_by_municode db municode) db 0 [] hgood
    unfold sync_municipality
    rw [h]
    simp
  · intro fetch2 db2 mu2
    exact sync_municipality_go_no_html_abort fetch2 (parcels_by_municode db2 mu2) db2 0 []

theorem sync_municipality_batch_witness :
    ∃ dbF, sync_municipality demoFetch batchDb 9
      = .ok (dbF, { total := 3, skipped := [2] }) := by
  have hgood : municipality_good_run demoFetch batchDb (parcels_by_municode batchDb 9) := by
    refine Or.inr ?_
    refine Or.inl ⟨rfl, ?_⟩
    refine Or.inr ?_
    exact trivial
  obtain ⟨h1, -⟩ := sync_municipality_batch demoFetch batchDb 9 hgood
  exact ⟨municipality_run_spec demoFetch batchDb (parcels_by_municode batchDb 9),
    by rw [h1]; rfl⟩

/-! ## Reader inversion machinery -/

theorem resolve_all_forall₂ (db : DB) (links : List ParcelMailingAddressRow) :
    ∀ ts, resolve_all db links = .ok ts →
      List.Forall₂ (fun L t => resolve_tables db L = .ok t) links ts := by
  induction links with
  | nil =>
    intro ts h
    cases h
    exact List.Forall₂.nil
  | cons L rest ih =>
    intro ts h
    unfold resolve_all at h
    rcases hL : resolve_tables db L with e | t
    · rw [hL] at h
      cases h
    · rw [hL] at h
      rcases hrest : resolve_all db rest with e | ts'
      · rw [hrest] at h
        cases h
      · rw [hrest] at h
        cases h
        exact List.Forall₂.cons hL (ih ts' hrest)

theorem forall₂_mem_left {α β : Type} {R : α → β → Prop} {l₁ : List α} {l₂ : List β}
    (h : List.Forall₂ R l₁ l₂) {a : α} (ha : a ∈ l₁) : ∃ b ∈ l₂, R a b := by
  induction h with
  | nil => cases ha
  | cons hR hrest ih =>
    rcases List.mem_cons.mp ha with heq | hmem
    · subst heq
      exact ⟨_, List.mem_cons_self _ _, hR⟩
    · obtain ⟨b, hb, hRb⟩ := ih hmem
      exact ⟨b, List.mem_cons_of_mem _ hb, hRb⟩

theorem resolve_tables_parcel_address (db : DB) (L : ParcelMailingAddressRow) (t : CogTables)
    (h : resolve_tables db L = .ok t) : t.parcel_address = some L := by
  unfold resolve_tables at h
  rcases h1 : select_address db L.mailingaddress_addressid with e | address
  · rw [h1] at h
    cases h
  rw [h1] at h
  dsimp only at h
  rcases h2 : select_street db address.street_streetid with e | street
  · rw [h2] at h
    cases h
  rw [h2] at h
  dsimp only at h
  rcases h3 : select_city_state_zip db street.citystatezip_cszipid with e | csz
  · rw [h3] at h
    cases h
  rw [h3] at h
  dsimp only at h
  rcases h4 : select_human_mailing_address db address.addressid with e | ha
  · rcases e with _ | _ <;> rw [h4] at h
    · cases h
      rfl
    · cases h
  · rw [h4] at h
    dsimp only at h
    rcases h5 : select_human db ha.humanmailing_humanid with e | hu
    · rcases e with _ | _ <;> rw [h5] at h
      · cases h
        rfl
      · cases h
    · rw [h5] at h
      cases h
      rfl

theorem match_of_forall₂ (db : DB) (r : Nat) {links : List ParcelMailingAddressRow}
    {ts : List CogTables}
    (h : List.Forall₂ (fun L t => resolve_tables db L = .ok t) links ts) :
    _match_number r ts
      = (links.find? fun L => L.linkedobjectrole_lorid == r).bind
          (fun L => okResult (resolve_tables db L)) := by
  induction h with
  | nil => rfl
  | cons hLt hrest ih =>
    rename_i L t links' ts'
    have hpa := resolve_tables_parcel_address db _ _ hLt
    unfold _match_number
    rw [hpa]
    rcases hr : L.linkedobjectrole_lorid == r with _ | _
    · rw [List.find?_cons_of_neg _ (by rw [hr]; exact Bool.false_ne_true)]
      simpa [Option.any, hr] using ih
    · rw [List.find?_cons_of_pos _ (by rw [hr])]
      simp [Option.any, hr, hLt, okResult]

theorem get_cog_tables_role_inv (db : DB) (pid : String) (r : Nat) (ct : CogTables)
    (h : get_cog_tables_role db pid r = .ok ct) :
    ∃ P ts,
      select_parcel db pid = .ok P ∧
      resolve_all db (parcel_mailing_addresses db P.parcelkey) = .ok ts ∧
      ct = { (_match_number r ts).getD {} with parcel := some P } := by
  unfold get_cog_tables_role at h
  rcases hp : select_parcel db pid with e | P
  · rw [hp] at h
    cases h
  rw [hp] at h
  dsimp only at h
  rcases hr : resolve_all db (parcel_mailing_addresses db P.parcelkey) with e | ts
  · rw [hr] at h
    cases h
  rw [hr] at h
  cases h
  exact ⟨P, ts, rfl, hr, rfl⟩

/-- What the chain read for one role says about the active links: either no
active link of the parcel carries the role and the chain has no link, or the
chain's link is an active link of the parcel carrying the role. -/
theorem get_cog_tables_role_link (db : DB) (pid : String) (r : Nat) (ct : CogTables)
    (h : get_cog_tables_role db pid r = .ok ct) :
    ∃ P, select_parcel db pid = .ok P ∧ ct.parcel = some P ∧
      ((ct.parcel_address = none ∧
        ∀ L ∈ parcel_mailing_addresses db P.parcelkey,
          (L.linkedobjectrole_lorid == r) = false) ∨
       (∃ L, ct.parcel_address = some L ∧ L ∈ parcel_mailing_addresses db P.parcelkey ∧
         L.linkedobjectrole_lorid = r)) := by
  obtain ⟨P, ts, hp, hres, hct⟩ := get_cog_tables_role_inv db pid r ct h
  have hfa := resolve_all_forall₂ db (parcel_mailing_addresses db P.parcelkey) ts hres
  have hmatch := match_of_forall₂ db r hfa
  refine ⟨P, hp, by rw [hct], ?_⟩
  rcases hfind : (parcel_mailing_addresses db P.parcelkey).find?
      (fun L => L.linkedobjectrole_lorid == r) with _ | L
  · left
    constructor
    · rw [hfind] at hmatch
      simp only [Option.bind] at hmatch
      rw [hct, hmatch]
      rfl
    · intro L hL
      have := List.find?_eq_none.mp hfind L hL
      simpa using this
  · right
    have hmem := List.mem_of_find?_eq_some hfind
    have hpred := List.find?_some hfind
    obtain ⟨t, ht, hres2⟩ := forall₂_mem_left hfa hmem
    have hmatch2 : _match_number r ts = some t := by
      rw [hmatch, hfind]
      simp [Option.bind, hres2, okResult]
    refine ⟨L, ?_, hmem, by simpa using hpred⟩
    rw [hct, hmatch2]
    simpa using resolve_tables_parcel_address db L t hres2

/-! ## Shape of the parcel-to-address link table through one reconcile call -/

theorem ensure_city_state_zip_pmal (db : DB) (city state zip_ : String) :
    (ensure_city_state_zip db city state zip_).1.parcel_address_links
      = db.parcel_address_links := by
  unfold ensure_city_state_zip
  split <;> rfl

theorem ensure_street_pmal (db : DB) (cszid : Nat) (sname : String) (pobox : Bool) :
    (ensure_street db cszid sname pobox).1.parcel_address_links
      = db.parcel_address_links := by
  unfold ensure_street
  split <;> rfl

theorem ensure_address_pmal (db : DB) (sid : Nat) (num : String) (attn sec : Option String) :
    (ensure_address db sid num attn sec).1.parcel_address_links
      = db.parcel_address_links := by
  unfold ensure_address
  split <;> rfl

theorem address_side_deactivations_pmal (db : DB) (ct : Option CogTables) :
    (address_side_deactivations db ct).parcel_address_links
      = match ct.bind (fun t => t.parcel_address) with
        | some pa => db.parcel_address_links.map fun l =>
            if l.linkid == pa.linkid then { l with deactivated := true } else l
        | none => db.parcel_address_links := by
  match ct with
  | none => rfl
  | some t =>
    obtain ⟨p, a, pa, st, z, hu, ha, hp⟩ := t
    cases pa <;> cases ha <;> cases a <;>
      simp [address_side_deactivations, deactivate_parcel_to_address,
            deactivate_human_to_address, deactivate_address, Option.bind]

/-- The parcel-to-address link table after one successful reconcile call:
unchanged when the mailing matched, else the chain's old link (if any) is
retired and one new active link for (chain parcel, address-role) is
appended. -/
theorem _sync_pmal_shape (db : DB) (county : OwnerAndMailing) (ct : Option CogTables)
    (roles : Nat × Nat) (db' : DB) (r : OwnerAndMailing)
    (hok : _sync_owner_and_mailing db county ct roles = .ok (db', r)) :
    db'.parcel_address_links = db.parcel_address_links ∨
    ∃ P newRow,
      ct.bind (fun t => t.parcel) = some P ∧
      newRow.parcel_parcelkey = P.parcelkey ∧
      newRow.linkedobjectrole_lorid = roles.1 ∧
      newRow.deactivated = false ∧
      db'.parcel_address_links =
        (match ct.bind (fun t => t.parcel_address) with
         | some pa => db.parcel_address_links.map fun l =>
             if l.linkid == pa.linkid then { l with deactivated := true } else l
         | none => db.parcel_address_links) ++ [newRow] := by
  obtain ⟨db1, aid0, rm, db2, hid0, ro, ha, hh, hr, hcase⟩ :=
    _sync_owner_and_mailing_parts db county ct roles db' r hok
  have hdb'2 : db'.parcel_address_links = db2.parcel_address_links := by
    rcases hcase with ⟨-, -, hdb'⟩ | ⟨-, hdb'⟩
    · rw [hdb']
    · rw [hdb']
      rfl
  obtain ⟨f1, f2, f3, f4, f5⟩ := _sync_human_side_frame db1 county ct roles.2 db2 hid0 ro hh
  by_cases hsame : county.mailing = (_cog_tables_to_owner_and_mailing ct).mailing
  · left
    rw [_sync_address_side_same db county ct roles.1 hsame] at ha
    cases ha
    rw [hdb'2, f4]
  · obtain ⟨m, P, hm, hcb, hdb1, -⟩ :=
      _sync_address_side_changed db county ct roles.1 db1 aid0 rm hsame ha
    right
    rw [hdb'2, f4, hdb1]
    simp only [link_parcel_to_address, ensure_address_pmal, ensure_street_pmal,
      ensure_city_state_zip_pmal, address_side_deactivations_pmal]
    exact ⟨P, _, hcb, rfl, rfl, rfl, rfl⟩

/-! ## The at-most-one-active-link invariant (C3) -/

theorem length_filter_map_le {α : Type} (l : List α) (g : α → α) (p : α → Bool)
    (h : ∀ x ∈ l, p (g x) = true → g x = x) :
    ((l.map g).filter p).length ≤ (l.filter p).length := by
  induction l with
  | nil => simp
  | cons x rest ih =>
    have ih' := ih fun y hy => h y (List.mem_cons_of_mem x hy)
    rw [List.map_cons]
    rcases hp : p (g x) with _ | _
    · rw [List.filter_cons_of_neg (by rw [hp]; exact Bool.false_ne_true)]
      rcases hq : p x with _ | _
      · rw [List.filter_cons_of_neg (by rw [hq]; exact Bool.false_ne_true)]
        exact ih'
      · rw [List.filter_cons_of_pos hq]
        exact Nat.le_succ_of_le ih'
    · have hx := h x (List.mem_cons_self x rest) hp
      have hq : p x = true := by rw [← hx]; exact hp
      rw [List.filter_cons_of_pos hp, hx, List.filter_cons_of_pos hq]
      simpa using ih'

theorem eq_singleton_of_mem_of_len_le_one {α : Type} {l : List α} {a : α}
    (ha : a ∈ l) (hlen : l.length ≤ 1) : l = [a] := by
  match l, ha with
  | [x], ha =>
    rw [List.mem_singleton.mp ha]
  | x :: y :: rest, ha =>
    exfalso
    simp at hlen

theorem mem_activePMAL {db : DB} {pk r : Nat} {x : ParcelMailingAddressRow} :
    x ∈ activePMAL db pk r ↔
      x ∈ db.parcel_address_links ∧ x.parcel_parcelkey = pk ∧
      x.linkedobjectrole_lorid = r ∧ x.deactivated = false := by
  unfold activePMAL
  rw [List.mem_filter]
  constructor
  · rintro ⟨hm, hp⟩
    simp only [Bool.and_eq_true, beq_iff_eq, Bool.not_eq_eq_eq_not, Bool.not_true] at hp
    exact ⟨hm, hp.1.1, hp.1.2, hp.2⟩
  · rintro ⟨hm, h1, h2, h3⟩
    refine ⟨hm, ?_⟩
    simp [h1, h2, h3]

theorem mem_parcel_mailing_addresses {db : DB} {pk : Nat} {x : ParcelMailingAddressRow} :
    x ∈ parcel_mailing_addresses db pk ↔
      x ∈ db.parcel_address_links ∧ x.parcel_parcelkey = pk ∧ x.deactivated = false := by
  unfold parcel_mailing_addresses
  rw [List.mem_filter]
  constructor
  · rintro ⟨hm, hp⟩
    simp only [Bool.and_eq_true, beq_iff_eq, Bool.not_eq_eq_eq_not, Bool.not_true] at hp
    exact ⟨hm, hp.1, hp.2⟩
  · rintro ⟨hm, h1, h2⟩
    refine ⟨hm, ?_⟩
    simp [h1, h2]

/-- One reconcile call preserves the at-most-one-active-link invariant. -/
theorem reconcileStep_preserves (db : DB) (c : ReconcileCall)
    (hinv : AtMostOnePMAL db) : AtMostOnePMAL (reconcileStep db c) := by
  rcases hg : get_cog_tables_role db c.parcel_id c.roles.1 with e | ct
  · unfold reconcileStep
    rw [hg]
    exact hinv
  have h1 : reconcileStep db c
      = (match _sync_owner_and_mailing db c.county_data (some ct) c.roles with
         | .error _ => db
         | .ok (db', _) => db') := by
    unfold reconcileStep
    rw [hg]
  rcases hs : _sync_owner_and_mailing db c.county_data (some ct) c.roles with e | pr
  · rw [hs] at h1
    rw [h1]
    exact hinv
  obtain ⟨db', r⟩ := pr
  rw [hs] at h1
  rw [h1]
  show AtMostOnePMAL db'
  rcases _sync_pmal_shape db c.county_data (some ct) c.roles db' r hs with
    hsame | ⟨P, newRow, hcb, hnpk, hnrole, hnact, hshape⟩
  · intro pk r'
    have h0 := hinv pk r'
    unfold activePMAL at h0 ⊢
    rw [hsame]
    exact h0
  · obtain ⟨P₀, hsel, hctP, hdisj⟩ :=
      get_cog_tables_role_link db c.parcel_id c.roles.1 ct hg
    have hPP : P = P₀ := by
      have hcp : ct.parcel = some P := hcb
      rw [hctP] at hcp
      exact (Option.some.inj hcp).symm
    subst hPP
    intro pk r'
    have h0 := hinv pk r'
    unfold activePMAL at h0 ⊢
    rw [hshape, List.filter_append, List.length_append]
    by_cases hmatch : pk = P.parcelkey ∧ r' = c.roles.1
    · -- the new link is the only active one for this (parcel, role)
      obtain ⟨hpk, hr'⟩ := hmatch
      subst hpk
      subst hr'
      have hbase0 : ∀ sub : List ParcelMailingAddressRow,
          (∀ y ∈ sub, (y.parcel_parcelkey == P.parcelkey &&
            y.linkedobjectrole_lorid == c.roles.1 && !y.deactivated) = false) →
          (sub.filter (fun l => l.parcel_parcelkey == P.parcelkey &&
            l.linkedobjectrole_lorid == c.roles.1 && !l.deactivated)).length = 0 := by
        intro sub hsub
        rw [List.filter_eq_nil_iff.mpr (by
          intro a ha hpa
          rw [hsub a ha] at hpa
          cases hpa)]
        rfl
      rcases hdisj with ⟨hnone, hall⟩ | ⟨L, hsome, hLmem, hLrole⟩
      · have hpa : (some ct).bind (fun t => t.parcel_address) = none := hnone
        simp only [hpa]
        rw [hbase0 db.parcel_address_links ?hsub]
        case hsub =>
          intro y hy
          rcases hcond : (y.parcel_parcelkey == P.parcelkey &&
              y.linkedobjectrole_lorid == c.roles.1 && !y.deactivated) with _ | _
          · rfl
          · exfalso
            simp only [Bool.and_eq_true, beq_iff_eq, Bool.not_eq_eq_eq_not,
              Bool.not_true] at hcond
            have hymem : y ∈ parcel_mailing_addresses db P.parcelkey :=
              mem_parcel_mailing_addresses.mpr ⟨hy, hcond.1.1, hcond.2⟩
            have hfalse := hall y hymem
            rw [hcond.1.2] at hfalse
            simp at hfalse
        have : (List.filter (fun l => l.parcel_parcelkey == P.parcelkey &&
            l.linkedobjectrole_lorid == c.roles.1 && !l.deactivated) [newRow]).length ≤ 1 := by
          refine Nat.le_trans (List.length_filter_le _ _) ?_
          simp
        omega
      · have hpa : (some ct).bind (fun t => t.parcel_address) = some L := hsome
        simp only [hpa]
        rw [hbase0 _ ?hsub]
        case hsub =>
          intro y hy
          obtain ⟨x, hx, hgx⟩ := List.mem_map.mp hy
          by_cases hlid : (x.linkid == L.linkid) = true
          · rw [if_pos hlid] at hgx
            subst hgx
            simp
          · rw [if_neg hlid] at hgx
            subst hgx
            rcases hcond : (x.parcel_parcelkey == P.parcelkey &&
                x.linkedobjectrole_lorid == c.roles.1 && !x.deactivated) with _ | _
            · rfl
            · exfalso
              simp only [Bool.and_eq_true, beq_iff_eq, Bool.not_eq_eq_eq_not,
                Bool.not_true] at hcond
              have hxact : x ∈ activePMAL db P.parcelkey c.roles.1 :=
                mem_activePMAL.mpr ⟨hx, hcond.1.1, hcond.1.2, hcond.2⟩
              have hLact : L ∈ activePMAL db P.parcelkey c.roles.1 := by
                obtain ⟨hLm, hLpk, hLd⟩ := mem_parcel_mailing_addresses.mp hLmem
                exact mem_activePMAL.mpr ⟨hLm, hLpk, hLrole, hLd⟩
              have hsingle := eq_singleton_of_mem_of_len_le_one hLact
                (hinv P.parcelkey c.roles.1)
              rw [hsingle] at hxact
              have hxL : x = L := List.mem_singleton.mp hxact
              rw [hxL] at hlid
              simp at hlid
        have : (List.filter (fun l => l.parcel_parcelkey == P.parcelkey &&
            l.linkedobjectrole_lorid == c.roles.1 && !l.deactivated) [newRow]).length ≤ 1 := by
          refine Nat.le_trans (List.length_filter_le _ _) ?_
          simp
        omega
    · -- the new link does not concern (pk, r'): its filter is empty
      have hnew0 : (List.filter (fun l => l.parcel_parcelkey == pk &&
          l.linkedobjectrole_lorid == r' && !l.deactivated) [newRow]).length = 0 := by
        rw [List.filter_eq_nil_iff.mpr ?hnp]
        · rfl
        case hnp =>
          intro a ha hpa
          rw [List.mem_singleton.mp ha] at hpa
          simp only [Bool.and_eq_true, beq_iff_eq, Bool.not_eq_eq_eq_not,
            Bool.not_true] at hpa
          exact hmatch ⟨hnpk ▸ hpa.1.1.symm, hnrole ▸ hpa.1.2.symm⟩
      rw [hnew0, Nat.add_zero]
      rcases hpa : (some ct).bind (fun t => t.parcel_address) with _ | pa
      · exact h0
      · show (List.filter (fun l => l.parcel_parcelkey == pk &&
            l.linkedobjectrole_lorid == r' && !l.deactivated)
            (db.parcel_address_links.map fun l =>
              if l.linkid == pa.linkid then { l with deactivated := true } else l)).length ≤ 1
        refine Nat.le_trans (length_filter_map_le _ _ _ ?_) h0
        intro x hx hgx
        by_cases hlid : (x.linkid == pa.linkid) = true
        · exfalso
          rw [if_pos hlid] at hgx
          simp at hgx
        · rw [if_neg hlid]

/-- The human side never retires a parcel-to-address link. -/
theorem _sync_human_side_no_deactPTA (db : DB) (county : OwnerAndMailing)
    (ct : Option CogTables) (role : Nat) (db2 : DB) (hid : Option Nat) (ro : Option Owner)
    (hok : _sync_human_side db county ct role = .ok (db2, hid, ro)) :
    ∃ ext, db2.log = db.log ++ ext ∧ ∀ op ∈ ext, isDeactPTA op = false := by
  by_cases hsame : county.owner = (_cog_tables_to_owner_and_mailing ct).owner
  · rw [_sync_human_side_same db county ct role hsame] at hok
    cases hok
    exact ⟨[], by simp, by intro op hop; cases hop⟩
  · obtain ⟨o, P, ho, hcb, hdb2, -, -⟩ :=
      _sync_human_side_changed db county ct role db2 hid ro hsame hok
    subst hdb2
    have l1 := human_side_deactivations_log db ct
    have l2 := (ensure_human_spec (human_side_deactivations db ct) o.name o.is_multi_entity).2.2.2.2.1
    refine ⟨(match ct with
      | none => ([] : List WriteOp)
      | some t =>
        (match t.human_parcel with
         | some hp => [WriteOp.deactivateHumanToParcel hp.linkid]
         | none => []) ++
        (match t.human_address with
         | some ha => [WriteOp.deactivateHumanToAddress ha.linkid]
         | none => []) ++
        (match t.human with
         | some h => [WriteOp.deactivateHuman h.humanid]
         | none => [])) ++
      ([WriteOp.ensureHuman o.name o.is_multi_entity] ++
       [WriteOp.linkHumanToParcel P.parcelkey
         (ensure_human (human_side_deactivations db ct) o.name o.is_multi_entity).2.humanid
         role]), ?_, ?_⟩
    · simp only [link_human_to_parcel, l2, l1, List.append_assoc]
      rcases ct with _ | t <;> rfl
    · intro op hop
      rcases List.mem_append.mp hop with hD | hEL
      · match ct with
        | none => cases hD
        | some t =>
          rcases List.mem_append.mp hD with h12 | h3
          · rcases List.mem_append.mp h12 with h1 | h2
            · rcases hv : t.human_parcel with _ | hp
              · rw [hv] at h1
                cases h1
              · rw [hv] at h1
                rw [List.mem_singleton.mp h1]
                rfl
            · rcases hv : t.human_address with _ | ha
              · rw [hv] at h2
                cases h2
              · rw [hv] at h2
                rw [List.mem_singleton.mp h2]
                rfl
          · rcases hv : t.human with _ | hu
            · rw [hv] at h3
              cases h3
            · rw [hv] at h3
              rw [List.mem_singleton.mp h3]
              rfl
      · rcases List.mem_append.mp hEL with h4 | h5
        · rw [List.mem_singleton.mp h4]
          rfl
        · rw [List.mem_singleton.mp h5]
          rfl

/-- The address side writes its retirements strictly before its new link:
the log extension splits into a link-free part followed by a
retirement-free part. -/
theorem _sync_address_side_split (db : DB) (county : OwnerAndMailing)
    (ct : Option CogTables) (r1 : Nat) (db1 : DB) (aid : Option Nat) (rm : Option Mailing)
    (hok : _sync_address_side db county ct r1 = .ok (db1, aid, rm)) :
    ∃ ops₁ ops₂, db1.log = db.log ++ ops₁ ++ ops₂ ∧
      (∀ op ∈ ops₁, isLinkPTA op = false) ∧ (∀ op ∈ ops₂, isDeactPTA op = false) := by
  by_cases hsame : county.mailing = (_cog_tables_to_owner_and_mailing ct).mailing
  · rw [_sync_address_side_same db county ct r1 hsame] at hok
    cases hok
    exact ⟨[], [], by simp, fun op hop => absurd hop (List.not_mem_nil op),
      fun op hop => absurd hop (List.not_mem_nil op)⟩
  · obtain ⟨m, P, hm, hcb, hdb1, -⟩ :=
      _sync_address_side_changed db county ct r1 db1 aid rm hsame hok
    subst hdb1
    have l1 := address_side_deactivations_log db ct
    have l2 := (ensure_city_state_zip_spec (address_side_deactivations db ct)
      m.last.city m.last.state m.last.zip).2.2.2.2.2.1
    have l3 := (ensure_street_spec (ensure_city_state_zip (address_side_deactivations db ct)
        m.last.city m.last.state m.last.zip).1
      (ensure_city_state_zip (address_side_deactivations db ct)
        m.last.city m.last.state m.last.zip).2.id
      m.delivery.street m.delivery.is_pobox).2.2.2.2.2.1
    have l4 := (ensure_address_spec (ensure_street (ensure_city_state_zip
          (address_side_deactivations db ct) m.last.city m.last.state m.last.zip).1
        (ensure_city_state_zip (address_side_deactivations db ct)
          m.last.city m.last.state m.last.zip).2.id
        m.delivery.street m.delivery.is_pobox).1
      (ensure_street (ensure_city_state_zip (address_side_deactivations db ct)
          m.last.city m.last.state m.last.zip).1
        (ensure_city_state_zip (address_side_deactivations db ct)
          m.last.city m.last.state m.last.zip).2.id
        m.delivery.street m.delivery.is_pobox).2.streetid
      m.delivery.number m.delivery.attn m.delivery.secondary).2.2.2.2.2.2.1
    refine ⟨(match ct with
      | none => ([] : List WriteOp)
      | some t =>
        (match t.parcel_address with
         | some pa => [WriteOp.deactivateParcelToAddress pa.linkid]
         | none => []) ++
        (match t.human_address with
         | some ha => [WriteOp.deactivateHumanToAddress ha.linkid]
         | none => []) ++
        (match t.address with
         | some a => [WriteOp.deactivateAddress a.addressid]
         | none => [])) ++
      ([WriteOp.ensureCityStateZip m.last.city m.last.state m.last.zip] ++
       [WriteOp.ensureStreet (ensure_city_state_zip (address_side_deactivations db ct)
           m.last.city m.last.state m.last.zip).2.id m.delivery.street m.delivery.is_pobox] ++
       [WriteOp.ensureAddress (ensure_street (ensure_city_state_zip
             (address_side_deactivations db ct) m.last.city m.last.state m.last.zip).1
           (ensure_city_state_zip (address_side_deactivations db ct)
             m.last.city m.last.state m.last.zip).2.id
           m.delivery.street m.delivery.is_pobox).2.streetid
         m.delivery.number m.delivery.attn m.delivery.secondary]),
      [WriteOp.linkParcelToAddress P.parcelkey
        (ensure_address (ensure_street (ensure_city_state_zip
              (address_side_deactivations db ct) m.last.city m.last.state m.last.zip).1
            (ensure_city_state_zip (address_side_deactivations db ct)
              m.last.city m.last.state m.last.zip).2.id
            m.delivery.street m.delivery.is_pobox).1
          (ensure_street (ensure_city_state_zip (address_side_deactivations db ct)
              m.last.city m.last.state m.last.zip).1
            (ensure_city_state_zip (address_side_deactivations db ct)
              m.last.city m.last.state m.last.zip).2.id
            m.delivery.street m.delivery.is_pobox).2.streetid
          m.delivery.number m.delivery.attn m.delivery.secondary).2.addressid r1], ?_, ?_, ?_⟩
    · simp only [link_parcel_to_address, l4, l3, l2, l1, List.append_assoc]
      rcases ct with _ | t <;> rfl
    · intro op hop
      rcases List.mem_append.mp hop with hD | hE
      · match ct with
        | none => cases hD
        | some t =>
          rcases List.mem_append.mp hD with h12 | h3
          · rcases List.mem_append.mp h12 with h1 | h2
            · rcases hv : t.parcel_address with _ | pa
              · rw [hv] at h1
                cases h1
              · rw [hv] at h1
                rw [List.mem_singleton.mp h1]
                rfl
            · rcases hv : t.human_address with _ | ha
              · rw [hv] at h2
                cases h2
              · rw [hv] at h2
                rw [List.mem_singleton.mp h2]
                rfl
          · rcases hv : t.address with _ | a
            · rw [hv] at h3
              cases h3
            · rw [hv] at h3
              rw [List.mem_singleton.mp h3]
              rfl
      · rcases List.mem_append.mp hE with h45 | h6
        · rcases List.mem_append.mp h45 with h4 | h5
          · rw [List.mem_singleton.mp h4]
            rfl
          · rw [List.mem_singleton.mp h5]
            rfl
        · rw [List.mem_singleton.mp h6]
          rfl
    · intro op hop
      rw [List.mem_singleton.mp hop]
      rfl

/-- A successful reconcile call logs every retirement of a
`ParcelMailingAddressLink` strictly before the creation of the new one. -/
theorem _sync_retire_before_create (db : DB) (county : OwnerAndMailing)
    (ct : Option CogTables) (roles : Nat × Nat) (db' : DB) (r : OwnerAndMailing)
    (hok : _sync_owner_and_mailing db county ct roles = .ok (db', r)) :
    ∃ ops₁ ops₂, db'.log = db.log ++ ops₁ ++ ops₂ ∧
      (∀ op ∈ ops₁, isLinkPTA op = false) ∧ (∀ op ∈ ops₂, isDeactPTA op = false) := by
  obtain ⟨db1, aid, rm, db2, hid0, ro, ha, hh, hr, hcase⟩ :=
    _sync_owner_and_mailing_parts db county ct roles db' r hok
  obtain ⟨A1, A2, hA, hA1, hA2⟩ := _sync_address_side_split db county ct roles.1 db1 aid rm ha
  obtain ⟨H, hH, hHk⟩ := _sync_human_side_no_deactPTA db1 county ct roles.2 db2 hid0 ro hh
  have hC : ∃ C, db'.log = db2.log ++ C ∧ ∀ op ∈ C, isDeactPTA op = false := by
    rcases hcase with ⟨-, -, hdb'⟩ | ⟨-, hdb'⟩
    · refine ⟨[], ?_, fun op hop => absurd hop (List.not_mem_nil op)⟩
      rw [hdb']
      simp
    · refine ⟨[WriteOp.linkHumanToAddress hid0 aid roles.2], ?_, ?_⟩
      · rw [hdb']
        rfl
      · intro op hop
        rw [List.mem_singleton.mp hop]
        rfl
  obtain ⟨C, hCeq, hCk⟩ := hC
  refine ⟨A1, A2 ++ H ++ C, ?_, hA1, ?_⟩
  · rw [hCeq, hH, hA]
    simp [List.append_assoc]
  · intro op hop
    rcases List.mem_append.mp hop with h12 | h3
    · rcases List.mem_append.mp h12 with h1 | h2
      · exact hA2 op h1
      · exact hHk op h2
    · exact hCk op h3

/-- C3: after any sequence of reconcile calls starting from a store with at
most one active `ParcelMailingAddressLink` per (parcel, role), at most one
active link exists per (parcel, role); and within each successful reconcile
call every retirement of a `ParcelMailingAddressLink` is logged strictly
before the creation of the new one (the log extension splits into a
creation-free part followed by a retirement-free part). -/
theorem at_most_one_active_link (db : DB) (cs : List ReconcileCall)
    (hinv : AtMostOnePMAL db) :
    AtMostOnePMAL (runReconciles db cs) ∧
    (∀ (d : DB) (county : OwnerAndMailing) (ct : Option CogTables) (roles : Nat × Nat)
       (d' : DB) (r : OwnerAndMailing),
      _sync_owner_and_mailing d county ct roles = .ok (d', r) →
      ∃ ops₁ ops₂, d'.log = d.log ++ ops₁ ++ ops₂ ∧
        (∀ op ∈ ops₁, isLinkPTA op = false) ∧ (∀ op ∈ ops₂, isDeactPTA op = false)) := by
  constructor
  · have hall : ∀ (cs' : List ReconcileCall) (d : DB),
        AtMostOnePMAL d → AtMostOnePMAL (runReconciles d cs') := by
      intro cs'
      induction cs' with
      | nil => intro d hd; exact hd
      | cons c rest ih =>
        intro d hd
        exact ih (reconcileStep d c) (reconcileStep_preserves d c hd)
    exact hall cs db hinv
  · intro d county ct roles d' r hok
    exact _sync_retire_before_create d county ct roles d' r hok

theorem at_most_one_active_link_witness :
    AtMostOnePMAL parcelOnlyDb ∧
    AtMostOnePMAL (runReconciles parcelOnlyDb
      [{ parcel_id := "p1", county_data := ownerAndMailingA,
         roles := LinkedObjectRole.general_roles }]) := by
  have hinv : AtMostOnePMAL parcelOnlyDb := by
    intro pk r
    simp [activePMAL, parcelOnlyDb]
  exact ⟨hinv, (at_most_one_active_link parcelOnlyDb
    [{ parcel_id := "p1", county_data := ownerAndMailingA,
       roles := LinkedObjectRole.general_roles }] hinv).1⟩

/-! ## Select determinism machinery (towards idempotence) -/

theorem selectOne_ok_iff {α : Type} {l : List α} {a : α} :
    selectOne l = .ok a ↔ l = [a] := by
  constructor
  · intro h
    rcases l with _ | ⟨x, _ | ⟨y, t⟩⟩
    · cases h
    · cases h
      rfl
    · cases h
  · intro h
    rw [h]
    rfl

theorem selectOne_ne_notFound_of_mem {α : Type} {l : List α} {a : α} (ha : a ∈ l) :
    selectOne l ≠ .error .notFound := by
  intro h
  rcases l with _ | ⟨x, _ | ⟨y, t⟩⟩
  · cases ha
  · cases h
  · cases h

theorem filter_key_singleton {α β : Type} [DecidableEq β] (l : List α) (f : α → β)
    (p : α → Bool) (hnd : (l.map f).Nodup) (a : α) (ha : a ∈ l) (hpa : p a = true)
    (hkey : ∀ b ∈ l, p b = true → f b = f a) : l.filter p = [a] := by
  induction l with
  | nil => cases ha
  | cons b t ih =>
    have hnd' : (t.map f).Nodup := by
      rw [List.map_cons] at hnd
      exact hnd.of_cons
    rcases List.mem_cons.mp ha with heq | hmem
    · subst heq
      rw [List.filter_cons_of_pos hpa]
      congr 1
      rw [List.filter_eq_nil_iff]
      intro c hc hpc
      have hfc := hkey c (List.mem_cons_of_mem a hc) hpc
      rw [List.map_cons] at hnd
      have : f a ∉ t.map f := by
        have := List.nodup_cons.mp hnd
        exact this.1
      exact this (hfc ▸ List.mem_map_of_mem f hc)
    · have hpb : p b = false := by
        rcases hv : p b with _ | _
        · rfl
        · exfalso
          have hfb := hkey b (List.mem_cons_self b t) hv
          rw [List.map_cons] at hnd
          have hnotin : f b ∉ t.map f := (List.nodup_cons.mp hnd).1
          exact hnotin (hfb ▸ List.mem_map_of_mem f hmem) |>.elim
      rw [List.filter_cons_of_neg (by rw [hpb]; exact Bool.false_ne_true)]
      exact ih hnd' hmem (fun c hc hpc => hkey c (List.mem_cons_of_mem b hc) hpc)

theorem filter_map_deact_nil {α : Type} (l : List α) (g : α → α) (p : α → Bool) (a : α)
    (hl : l.filter p = [a]) (hga : p (g a) = false)
    (hg : ∀ x, p (g x) = true → g x = x) : (l.map g).filter p = [] := by
  rw [List.filter_eq_nil_iff]
  intro y hy hpy
  obtain ⟨x, hx, hgx⟩ := List.mem_map.mp hy
  subst hgx
  have hxx : g x = x := hg x hpy
  rw [hxx] at hpy
  have hxf : x ∈ l.filter p := List.mem_filter.mpr ⟨hx, hpy⟩
  rw [hl] at hxf
  have hxa : x = a := List.mem_singleton.mp hxf
  subst hxa
  rw [hxx] at hga
  rw [hpy] at hga
  cases hga

/-- The owner component of the chain projection. -/
theorem proj_owner (t : CogTables) :
    (_cog_tables_to_owner_and_mailing (some t)).owner
      = t.human.map fun h => { name := h.name, is_multi_entity := h.multihuman } := rfl

/-- The mailing component of the chain projection. -/
theorem proj_mailing (t : CogTables) :
    (_cog_tables_to_owner_and_mailing (some t)).mailing
      = match t.street, t.address, t.city_state_zip with
        | some street, some address, some csz =>
          some { delivery := { is_pobox := street.pobox, attn := address.attention,
                               number := address.bldgno, street := street.name,
                               secondary := address.secondary },
                 last := { city := csz.city, state := csz.state_abbr, zip := csz.zip_code } }
        | _, _, _ => none := rfl

theorem map_deact_ids {α β : Type} (l : List α) (g : α → α) (f : α → β)
    (hf : ∀ x, f (g x) = f x) : (l.map g).map f = l.map f := by
  rw [List.map_map]
  exact List.map_congr_left fun x _ => hf x

theorem find_append_of_none {α : Type} {l₁ : List α} (l₂ : List α) {p : α → Bool}
    (h : l₁.find? p = none) : (l₁ ++ l₂).find? p = l₂.find? p := by
  induction l₁ with
  | nil => rfl
  | cons a t ih =>
    rcases hpa : p a with _ | _
    · rw [List.find?_cons_of_neg _ (by rw [hpa]; exact Bool.false_ne_true)] at h
      rw [List.cons_append, List.find?_cons_of_neg _ (by rw [hpa]; exact Bool.false_ne_true)]
      exact ih h
    · rw [List.find?_cons_of_pos _ hpa] at h
      cases h

theorem _match_number_mem {r : Nat} {ts : List CogTables} {t : CogTables}
    (h : _match_number r ts = some t) : t ∈ ts := by
  induction ts with
  | nil => cases h
  | cons x xs ih =>
    unfold _match_number at h
    split at h
    · cases h
      exact List.mem_cons_self _ _
    · exact List.mem_cons_of_mem _ (ih h)

theorem _match_number_prop {r : Nat} {ts : List CogTables} {t : CogTables}
    (h : _match_number r ts = some t) :
    t.parcel_address.any (fun pa => pa.linkedobjectrole_lorid == r) = true := by
  induction ts with
  | nil => cases h
  | cons x xs ih =>
    unfold _match_number at h
    split at h
    · cases h
      assumption
    · exact ih h

theorem forall₂_mem_right {α β : Type} {R : α → β → Prop} {l₁ : List α} {l₂ : List β}
    (h : List.Forall₂ R l₁ l₂) {b : β} (hb : b ∈ l₂) : ∃ a ∈ l₁, R a b := by
  induction h with
  | nil => cases hb
  | cons hR hrest ih =>
    rcases List.mem_cons.mp hb with heq | hmem
    · subst heq
      exact ⟨_, List.mem_cons_self _ _, hR⟩
    · obtain ⟨a, ha, hRa⟩ := ih hmem
      exact ⟨a, List.mem_cons_of_mem _ ha, hRa⟩

/-! ## Determinism of the by-id selects on a store with distinct row ids -/

theorem select_address_of_mem (db : DB) (a : AddressRow)
    (hnd : (db.addresses.map (·.addressid)).Nodup) (ha : a ∈ db.addresses)
    (hact : a.deactivated = false) : select_address db a.addressid = .ok a := by
  unfold select_address
  rw [filter_key_singleton db.addresses (·.addressid) _ hnd a ha
    (by simp [hact]) (fun b _ hpb => by
      simp only [Bool.and_eq_true, beq_iff_eq] at hpb
      exact hpb.1)]
  rfl

theorem select_street_of_mem (db : DB) (s : StreetRow)
    (hnd : (db.streets.map (·.streetid)).Nodup) (hs : s ∈ db.streets)
    (hact : s.deactivated = false) : select_street db s.streetid = .ok s := by
  unfold select_street
  rw [filter_key_singleton db.streets (·.streetid) _ hnd s hs
    (by simp [hact]) (fun b _ hpb => by
      simp only [Bool.and_eq_true, beq_iff_eq] at hpb
      exact hpb.1)]
  rfl

theorem select_city_state_zip_of_mem (db : DB) (z : CityStateZipRow)
    (hnd : (db.city_state_zips.map (·.id)).Nodup) (hz : z ∈ db.city_state_zips)
    (hact : z.deactivated = false) : select_city_state_zip db z.id = .ok z := by
  unfold select_city_state_zip
  rw [filter_key_singleton db.city_state_zips (·.id) _ hnd z hz
    (by simp [hact]) (fun b _ hpb => by
      simp only [Bool.and_eq_true, beq_iff_eq] at hpb
      exact hpb.1)]
  rfl

theorem select_human_of_mem (db : DB) (h : HumanRow)
    (hnd : (db.humans.map (·.humanid)).Nodup) (hh : h ∈ db.humans)
    (hact : h.deactivated = false) : select_human db (some h.humanid) = .ok h := by
  unfold select_human
  rw [filter_key_singleton db.humans (·.humanid) _ hnd h hh
    (by simp [hact]) (fun b _ hpb => by
      simp only [Bool.and_eq_true, beq_iff_eq, Option.some.injEq] at hpb
      exact hpb.1)]
  rfl

/-- A `NULL` human id matches no row (`select.py` 106–111 on a null FK). -/
theorem select_human_none (db : DB) : select_human db none = .error .notFound := by
  unfold select_human
  rw [show db.humans.filter (fun h => some h.humanid == none && !h.deactivated) = [] from
    List.filter_eq_nil_iff.mpr (fun h _ => by simp)]
  rfl

theorem select_address_inv {db : DB} {x : Nat} {A : AddressRow}
    (h : select_address db x = .ok A) :
    A ∈ db.addresses ∧ A.deactivated = false ∧ A.addressid = x := by
  have hf := selectOne_ok_iff.mp h
  have hm : A ∈ db.addresses.filter (fun a => a.addressid == x && !a.deactivated) := by
    rw [hf]
    exact List.mem_singleton_self A
  have := List.mem_filter.mp hm
  obtain ⟨h1, h2⟩ := this
  simp only [Bool.and_eq_true, beq_iff_eq, Bool.not_eq_eq_eq_not, Bool.not_true] at h2
  exact ⟨h1, h2.2, h2.1⟩

theorem select_street_inv {db : DB} {x : Nat} {S : StreetRow}
    (h : select_street db x = .ok S) :
    S ∈ db.streets ∧ S.deactivated = false ∧ S.streetid = x := by
  have hf := selectOne_ok_iff.mp h
  have hm : S ∈ db.streets.filter (fun s => s.streetid == x && !s.deactivated) := by
    rw [hf]
    exact List.mem_singleton_self S
  have := List.mem_filter.mp hm
  obtain ⟨h1, h2⟩ := this
  simp only [Bool.and_eq_true, beq_iff_eq, Bool.not_eq_eq_eq_not, Bool.not_true] at h2
  exact ⟨h1, h2.2, h2.1⟩

theorem select_city_state_zip_inv {db : DB} {x : Nat} {Z : CityStateZipRow}
    (h : select_city_state_zip db x = .ok Z) :
    Z ∈ db.city_state_zips ∧ Z.deactivated = false ∧ Z.id = x := by
  have hf := selectOne_ok_iff.mp h
  have hm : Z ∈ db.city_state_zips.filter (fun z => z.id == x && !z.deactivated) := by
    rw [hf]
    exact List.mem_singleton_self Z
  have := List.mem_filter.mp hm
  obtain ⟨h1, h2⟩ := this
  simp only [Bool.and_eq_true, beq_iff_eq, Bool.not_eq_eq_eq_not, Bool.not_true] at h2
  exact ⟨h1, h2.2, h2.1⟩

theorem select_human_inv {db : DB} {x : Option Nat} {H : HumanRow}
    (h : select_human db x = .ok H) :
    H ∈ db.humans ∧ H.deactivated = false ∧ some H.humanid = x := by
  have hf := selectOne_ok_iff.mp h
  have hm : H ∈ db.humans.filter (fun hh => some hh.humanid == x && !hh.deactivated) := by
    rw [hf]
    exact List.mem_singleton_self H
  have := List.mem_filter.mp hm
  obtain ⟨h1, h2⟩ := this
  simp only [Bool.and_eq_true, beq_iff_eq, Bool.not_eq_eq_eq_not, Bool.not_true] at h2
  exact ⟨h1, h2.2, h2.1⟩

theorem select_parcel_congr {db db' : DB} (h : db'.parcels = db.parcels) (x : String) :
    select_parcel db' x = select_parcel db x := by
  unfold select_parcel
  rw [h]

theorem select_address_congr {db db' : DB} (h : db'.addresses = db.addresses) (x : Nat) :
    select_address db' x = select_address db x := by
  unfold select_address
  rw [h]

theorem select_street_congr {db db' : DB} (h : db'.streets = db.streets) (x : Nat) :
    select_street db' x = select_street db x := by
  unfold select_street
  rw [h]

theorem select_city_state_zip_congr {db db' : DB} (h : db'.city_state_zips = db.city_state_zips)
    (x : Nat) : select_city_state_zip db' x = select_city_state_zip db x := by
  unfold select_city_state_zip
  rw [h]

theorem parcel_mailing_addresses_congr {db db' : DB}
    (h : db'.parcel_address_links = db.parcel_address_links) (pk : Nat) :
    parcel_mailing_addresses db' pk = parcel_mailing_addresses db pk := by
  unfold parcel_mailing_addresses
  rw [h]

/-! ## Complete frame lemmas per write primitive -/

theorem address_side_deactivations_frame_all (db : DB) (ct : Option CogTables) :
    (address_side_deactivations db ct).streets = db.streets ∧
    (address_side_deactivations db ct).city_state_zips = db.city_state_zips ∧
    (address_side_deactivations db ct).humans = db.humans ∧
    (address_side_deactivations db ct).parcels = db.parcels ∧
    (address_side_deactivations db ct).human_parcel_links = db.human_parcel_links ∧
    (address_side_deactivations db ct).nextId = db.nextId := by
  match ct with
  | none => exact ⟨rfl, rfl, rfl, rfl, rfl, rfl⟩
  | some t =>
    obtain ⟨p, a, pa, st, z, hu, ha, hp⟩ := t
    cases pa <;> cases ha <;> cases a <;>
      simp [address_side_deactivations, deactivate_parcel_to_address,
            deactivate_human_to_address, deactivate_address]

theorem address_side_deactivations_addresses (db : DB) (ct : Option CogTables) :
    (address_side_deactivations db ct).addresses
      = match ct.bind (fun t => t.address) with
        | some a => db.addresses.map fun x =>
            if x.addressid == a.addressid then { x with deactivated := true } else x
        | none => db.addresses := by
  match ct with
  | none => rfl
  | some t =>
    obtain ⟨p, a, pa, st, z, hu, ha, hp⟩ := t
    cases pa <;> cases ha <;> cases a <;>
      simp [address_side_deactivations, deactivate_parcel_to_address,
            deactivate_human_to_address, deactivate_address, Option.bind]

theorem human_side_deactivations_humans (db : DB) (ct : Option CogTables) :
    (human_side_deactivations db ct).humans
      = match ct.bind (fun t => t.human) with
        | some h => db.humans.map fun x =>
            if x.humanid == h.humanid then { x with deactivated := true } else x
        | none => db.humans := by
  match ct with
  | none => rfl
  | some t =>
    obtain ⟨p, a, pa, st, z, hu, ha, hp⟩ := t
    cases hp <;> cases ha <;> cases hu <;>
      simp [human_side_deactivations, deactivate_human_to_parcel,
            deactivate_human_to_address, deactivate_human, Option.bind]

theorem human_side_deactivations_nextId (db : DB) (ct : Option CogTables) :
    (human_side_deactivations db ct).nextId = db.nextId := by
  match ct with
  | none => rfl
  | some t =>
    obtain ⟨p, a, pa, st, z, hu, ha, hp⟩ := t
    cases hp <;> cases ha <;> cases hu <;>
      simp [human_side_deactivations, deactivate_human_to_parcel,
            deactivate_human_to_address, deactivate_human]

theorem ensure_city_state_zip_frame_all (db : DB) (city state zip_ : String) :
    (ensure_city_state_zip db city state zip_).1.streets = db.streets ∧
    (ensure_city_state_zip db city state zip_).1.addresses = db.addresses ∧
    (ensure_city_state_zip db city state zip_).1.humans = db.humans ∧
    (ensure_city_state_zip db city state zip_).1.parcels = db.parcels ∧
    (ensure_city_state_zip db city state zip_).1.human_parcel_links = db.human_parcel_links ∧
    db.nextId ≤ (ensure_city_state_zip db city state zip_).1.nextId := by
  unfold ensure_city_state_zip
  split
  · exact ⟨rfl, rfl, rfl, rfl, rfl, Nat.le_refl _⟩
  · exact ⟨rfl, rfl, rfl, rfl, rfl, Nat.le_succ _⟩

theorem ensure_street_frame_all (db : DB) (cszid : Nat) (sname : String) (pobox : Bool) :
    (ensure_street db cszid sname pobox).1.city_state_zips = db.city_state_zips ∧
    (ensure_street db cszid sname pobox).1.addresses = db.addresses ∧
    (ensure_street db cszid sname pobox).1.humans = db.humans ∧
    (ensure_street db cszid sname pobox).1.parcels = db.parcels ∧
    (ensure_street db cszid sname pobox).1.human_parcel_links = db.human_parcel_links ∧
    db.nextId ≤ (ensure_street db cszid sname pobox).1.nextId := by
  unfold ensure_street
  split
  · exact ⟨rfl, rfl, rfl, rfl, rfl, Nat.le_refl _⟩
  · exact ⟨rfl, rfl, rfl, rfl, rfl, Nat.le_succ _⟩

theorem ensure_address_frame_all (db : DB) (sid : Nat) (num : String) (attn sec : Option String) :
    (ensure_address db sid num attn sec).1.city_state_zips = db.city_state_zips ∧
    (ensure_address db sid num attn sec).1.streets = db.streets ∧
    (ensure_address db sid num attn sec).1.humans = db.humans ∧
    (ensure_address db sid num attn sec).1.parcels = db.parcels ∧
    (ensure_address db sid num attn sec).1.human_parcel_links = db.human_parcel_links ∧
    db.nextId ≤ (ensure_address db sid num attn sec).1.nextId := by
  unfold ensure_address
  split
  · exact ⟨rfl, rfl, rfl, rfl, rfl, Nat.le_refl _⟩
  · exact ⟨rfl, rfl, rfl, rfl, rfl, Nat.le_succ _⟩

theorem ensure_human_frame_all (db : DB) (n : String) (m : Bool) :
    (ensure_human db n m).1.city_state_zips = db.city_state_zips ∧
    (ensure_human db n m).1.streets = db.streets ∧
    (ensure_human db n m).1.addresses = db.addresses ∧
    (ensure_human db n m).1.parcels = db.parcels ∧
    (ensure_human db n m).1.human_parcel_links = db.human_parcel_links ∧
    (ensure_human db n m).1.human_address_links = db.human_address_links ∧
    (ensure_human db n m).1.parcel_address_links = db.parcel_address_links ∧
    db.nextId ≤ (ensure_human db n m).1.nextId := by
  unfold ensure_human
  split
  · exact ⟨rfl, rfl, rfl, rfl, rfl, rfl, rfl, Nat.le_refl _⟩
  · exact ⟨rfl, rfl, rfl, rfl, rfl, rfl, rfl, Nat.le_succ _⟩

theorem link_parcel_to_address_frame (db : DB) (pk aid r : Nat) :
    (link_parcel_to_address db pk aid r).addresses = db.addresses ∧
    (link_parcel_to_address db pk aid r).streets = db.streets ∧
    (link_parcel_to_address db pk aid r).city_state_zips = db.city_state_zips ∧
    (link_parcel_to_address db pk aid r).humans = db.humans ∧
    (link_parcel_to_address db pk aid r).parcels = db.parcels ∧
    (link_parcel_to_address db pk aid r).human_parcel_links = db.human_parcel_links ∧
    (link_parcel_to_address db pk aid r).human_address_links = db.human_address_links ∧
    db.nextId ≤ (link_parcel_to_address db pk aid r).nextId :=
  ⟨rfl, rfl, rfl, rfl, rfl, rfl, rfl, Nat.le_succ _⟩

theorem link_human_to_parcel_frame (db : DB) (pk hid r : Nat) :
    (link_human_to_parcel db pk hid r).addresses = db.addresses ∧
    (link_human_to_parcel db pk hid r).streets = db.streets ∧
    (link_human_to_parcel db pk hid r).city_state_zips = db.city_state_zips ∧
    (link_human_to_parcel db pk hid r).humans = db.humans ∧
    (link_human_to_parcel db pk hid r).parcels = db.parcels ∧
    (link_human_to_parcel db pk hid r).parcel_address_links = db.parcel_address_links ∧
    (link_human_to_parcel db pk hid r).human_address_links = db.human_address_links ∧
    db.nextId ≤ (link_human_to_parcel db pk hid r).nextId :=
  ⟨rfl, rfl, rfl, rfl, rfl, rfl, rfl, Nat.le_succ _⟩

theorem link_human_to_address_frame (db : DB) (hid aid : Option Nat) (r : Nat) :
    (link_human_to_address db hid aid r).addresses = db.addresses ∧
    (link_human_to_address db hid aid r).streets = db.streets ∧
    (link_human_to_address db hid aid r).city_state_zips = db.city_state_zips ∧
    (link_human_to_address db hid aid r).humans = db.humans ∧
    (link_human_to_address db hid aid r).parcels = db.parcels ∧
    (link_human_to_address db hid aid r).human_parcel_links = db.human_parcel_links ∧
    (link_human_to_address db hid aid r).parcel_address_links = db.parcel_address_links ∧
    db.nextId ≤ (link_human_to_address db hid aid r).nextId :=
  ⟨rfl, rfl, rfl, rfl, rfl, rfl, rfl, Nat.le_succ _⟩

/-! ## Distinct-id and fresh-id transport through the upsert layer -/

theorem ensure_address_ids (db : DB) (sid : Nat) (num : String) (attn sec : Option String)
    (hnd : (db.addresses.map (·.addressid)).Nodup)
    (hfr : ∀ a ∈ db.addresses, a.addressid < db.nextId) :
    ((ensure_address db sid num attn sec).1.addresses.map (·.addressid)).Nodup ∧
    ∀ a ∈ (ensure_address db sid num attn sec).1.addresses,
      a.addressid < (ensure_address db sid num attn sec).1.nextId := by
  unfold ensure_address
  split
  · exact ⟨hnd, hfr⟩
  · constructor
    · rw [List.map_append]
      refine List.Nodup.append hnd (List.nodup_singleton _) ?_
      intro x hx hx2
      obtain ⟨a0, ha0, hda⟩ := List.mem_map.mp hx
      have hlt := hfr a0 ha0
      have hxv : x = db.nextId := by
        simpa using hx2
      rw [hda, hxv] at hlt
      exact Nat.lt_irrefl _ hlt
    · intro a ha
      rcases List.mem_append.mp ha with hm | hm
      · exact Nat.lt_succ_of_lt (hfr a hm)
      · have : a.addressid = db.nextId := by
          have := List.mem_singleton.mp hm
          rw [this]
        rw [this]
        exact Nat.lt_succ_self _

theorem ensure_street_ids (db : DB) (cszid : Nat) (sname : String) (pobox : Bool)
    (hnd : (db.streets.map (·.streetid)).Nodup)
    (hfr : ∀ s ∈ db.streets, s.streetid < db.nextId) :
    ((ensure_street db cszid sname pobox).1.streets.map (·.streetid)).Nodup ∧
    ∀ s ∈ (ensure_street db cszid sname pobox).1.streets,
      s.streetid < (ensure_street db cszid sname pobox).1.nextId := by
  unfold ensure_street
  split
  · exact ⟨hnd, hfr⟩
  · constructor
    · rw [List.map_append]
      refine List.Nodup.append hnd (List.nodup_singleton _) ?_
      intro x hx hx2
      obtain ⟨a0, ha0, hda⟩ := List.mem_map.mp hx
      have hlt := hfr a0 ha0
      have hxv : x = db.nextId := by
        simpa using hx2
      rw [hda, hxv] at hlt
      exact Nat.lt_irrefl _ hlt
    · intro a ha
      rcases List.mem_append.mp ha with hm | hm
      · exact Nat.lt_succ_of_lt (hfr a hm)
      · have : a.streetid = db.nextId := by
          have := List.mem_singleton.mp hm
          rw [this]
        rw [this]
        exact Nat.lt_succ_self _

theorem ensure_city_state_zip_ids (db : DB) (city state zip_ : String)
    (hnd : (db.city_state_zips.map (·.id)).Nodup)
    (hfr : ∀ z ∈ db.city_state_zips, z.id < db.nextId) :
    ((ensure_city_state_zip db city state zip_).1.city_state_zips.map (·.id)).Nodup ∧
    ∀ z ∈ (ensure_city_state_zip db city state zip_).1.city_state_zips,
      z.id < (ensure_city_state_zip db city state zip_).1.nextId := by
  unfold ensure_city_state_zip
  split
  · exact ⟨hnd, hfr⟩
  · constructor
    · rw [List.map_append]
      refine List.Nodup.append hnd (List.nodup_singleton _) ?_
      intro x hx hx2
      obtain ⟨a0, ha0, hda⟩ := List.mem_map.mp hx
      have hlt := hfr a0 ha0
      have hxv : x = db.nextId := by
        simpa using hx2
      rw [hda, hxv] at hlt
      exact Nat.lt_irrefl _ hlt
    · intro a ha
      rcases List.mem_append.mp ha with hm | hm
      · exact Nat.lt_succ_of_lt (hfr a hm)
      · have : a.id = db.nextId := by
          have := List.mem_singleton.mp hm
          rw [this]
        rw [this]
        exact Nat.lt_succ_self _

theorem ensure_human_ids (db : DB) (n : String) (mu : Bool)
    (hnd : (db.humans.map (·.humanid)).Nodup)
    (hfr : ∀ h ∈ db.humans, h.humanid < db.nextId) :
    ((ensure_human db n mu).1.humans.map (·.humanid)).Nodup ∧
    ∀ h ∈ (ensure_human db n mu).1.humans,
      h.humanid < (ensure_human db n mu).1.nextId := by
  unfold ensure_human
  split
  · exact ⟨hnd, hfr⟩
  · constructor
    · rw [List.map_append]
      refine List.Nodup.append hnd (List.nodup_singleton _) ?_
      intro x hx hx2
      obtain ⟨a0, ha0, hda⟩ := List.mem_map.mp hx
      have hlt := hfr a0 ha0
      have hxv : x = db.nextId := by
        simpa using hx2
      rw [hda, hxv] at hlt
      exact Nat.lt_irrefl _ hlt
    · intro a ha
      rcases List.mem_append.mp ha with hm | hm
      · exact Nat.lt_succ_of_lt (hfr a hm)
      · have : a.humanid = db.nextId := by
          have := List.mem_singleton.mp hm
          rw [this]
        rw [this]
        exact Nat.lt_succ_self _

/-! ## Full inversion and forward computation of the chain resolver -/

theorem resolve_tables_inv (db : DB) (L : ParcelMailingAddressRow) (t : CogTables)
    (h : resolve_tables db L = .ok t) :
    ∃ A S Z,
      select_address db L.mailingaddress_addressid = .ok A ∧
      select_street db A.street_streetid = .ok S ∧
      select_city_state_zip db S.citystatezip_cszipid = .ok Z ∧
      t.address = some A ∧ t.street = some S ∧ t.city_state_zip = some Z ∧
      t.parcel_address = some L ∧ t.human_parcel = none ∧
      ((t.human = none ∧ t.human_address = none) ∨
       ∃ HA H, select_human_mailing_address db A.addressid = .ok HA ∧
         select_human db HA.humanmailing_humanid = .ok H ∧
         t.human_address = some HA ∧ t.human = some H) := by
  unfold resolve_tables at h
  rcases h1 : select_address db L.mailingaddress_addressid with e | A
  · rw [h1] at h
    cases h
  rw [h1] at h
  dsimp only at h
  rcases h2 : select_street db A.street_streetid with e | S
  · rw [h2] at h
    cases h
  rw [h2] at h
  dsimp only at h
  rcases h3 : select_city_state_zip db S.citystatezip_cszipid with e | Z
  · rw [h3] at h
    cases h
  rw [h3] at h
  dsimp only at h
  rcases h4 : select_human_mailing_address db A.addressid with e | HA
  · rcases e with _ | _ <;> rw [h4] at h
    · cases h
      exact ⟨A, S, Z, rfl, h2, h3, rfl, rfl, rfl, rfl, rfl, Or.inl ⟨rfl, rfl⟩⟩
    · cases h
  · rw [h4] at h
    dsimp only at h
    rcases h5 : select_human db HA.humanmailing_humanid with e | H
    · rcases e with _ | _ <;> rw [h5] at h
      · cases h
        exact ⟨A, S, Z, rfl, h2, h3, rfl, rfl, rfl, rfl, rfl, Or.inl ⟨rfl, rfl⟩⟩
      · cases h
    · rw [h5] at h
      cases h
      exact ⟨A, S, Z, rfl, h2, h3, rfl, rfl, rfl, rfl, rfl,
        Or.inr ⟨HA, H, h4, h5, rfl, rfl⟩⟩

theorem resolve_tables_build (db : DB) (L : ParcelMailingAddressRow) (A : AddressRow)
    (S : StreetRow) (Z : CityStateZipRow)
    (hA : select_address db L.mailingaddress_addressid = .ok A)
    (hS : select_street db A.street_streetid = .ok S)
    (hZ : select_city_state_zip db S.citystatezip_cszipid = .ok Z) :
    resolve_tables db L
      = match select_human_mailing_address db A.addressid with
        | .error .multiple => .error .multiple
        | .error .notFound =>
          .ok { address := some A, parcel_address := some L, street := some S,
                city_state_zip := some Z, human := none, human_address := none }
        | .ok human_address =>
          match select_human db human_address.humanmailing_humanid with
          | .error .multiple => .error .multiple
          | .error .notFound =>
            .ok { address := some A, parcel_address := some L, street := some S,
                  city_state_zip := some Z, human := none, human_address := none }
          | .ok human =>
            .ok { address := some A, parcel_address := some L, street := some S,
                  city_state_zip := some Z, human := some human,
                  human_address := some human_address } := by
  unfold resolve_tables
  rw [hA]
  dsimp only
  rw [hS]
  dsimp only
  rw [hZ]

/-! ## What one role read of `get_cog_tables` pins down -/

/-- When the active links of the parcel have a first role match, the chain the
role read returns is exactly the resolution of that link. -/
theorem gct_role_of_find (db : DB) (pid : String) (r : Nat) (ct : CogTables)
    (h : get_cog_tables_role db pid r = .ok ct) (P : ParcelRow)
    (hP : select_parcel db pid = .ok P) (L : ParcelMailingAddressRow)
    (hfind : (parcel_mailing_addresses db P.parcelkey).find?
        (fun x => x.linkedobjectrole_lorid == r) = some L) :
    ∃ T, resolve_tables db L = .ok T ∧ ct = { T with parcel := some P } := by
  obtain ⟨P', ts, hP', hres, hct⟩ := get_cog_tables_role_inv db pid r ct h
  have hPP : P = P' := by
    rw [hP] at hP'
    exact Except.ok.inj hP'
  subst hPP
  have hfa := resolve_all_forall₂ db (parcel_mailing_addresses db P.parcelkey) ts hres
  have hmatch := match_of_forall₂ db r hfa
  obtain ⟨T, hT, hresT⟩ := forall₂_mem_left hfa (List.mem_of_find?_eq_some hfind)
  refine ⟨T, hresT, ?_⟩
  rw [hct, hmatch, hfind]
  simp [Option.bind, hresT, okResult]

/-- The uniqueness of the active role link determines the `find?`. -/
theorem find_role_unique (db : DB) (pk r : Nat) (hone : AtMostOnePMAL db)
    (L : ParcelMailingAddressRow) (hL : L ∈ parcel_mailing_addresses db pk)
    (hr : L.linkedobjectrole_lorid = r) :
    (parcel_mailing_addresses db pk).find?
      (fun x => x.linkedobjectrole_lorid == r) = some L := by
  obtain ⟨hmem, hpk, hact⟩ := mem_parcel_mailing_addresses.mp hL
  have hLa : L ∈ activePMAL db pk r := mem_activePMAL.mpr ⟨hmem, hpk, hr, hact⟩
  have hsingle : activePMAL db pk r = [L] :=
    eq_singleton_of_mem_of_len_le_one hLa (hone pk r)
  rcases hf : (parcel_mailing_addresses db pk).find?
      (fun x => x.linkedobjectrole_lorid == r) with _ | L'
  · exfalso
    have := List.find?_eq_none.mp hf L hL
    simp [hr] at this
  · have hmem' := List.mem_of_find?_eq_some hf
    have hpred := List.find?_some hf
    obtain ⟨hmem'2, hpk', hact'⟩ := mem_parcel_mailing_addresses.mp hmem'
    have hL'a : L' ∈ activePMAL db pk r :=
      mem_activePMAL.mpr ⟨hmem'2, hpk', by simpa using hpred, hact'⟩
    rw [hsingle] at hL'a
    rw [← List.mem_singleton.mp hL'a]
    exact hf

/-- Everything the first role read pins down when the chain has an address:
the parcel, the role link, the trio selects and the optional human chain. -/
theorem gct_role_chain_facts (db : DB) (pid : String) (r : Nat) (ct : CogTables)
    (h : get_cog_tables_role db pid r = .ok ct) (A : AddressRow)
    (hA : ct.address = some A) :
    ∃ P L S Z,
      select_parcel db pid = .ok P ∧ ct.parcel = some P ∧
      ct.parcel_address = some L ∧ L ∈ parcel_mailing_addresses db P.parcelkey ∧
      L.linkedobjectrole_lorid = r ∧
      ct.street = some S ∧ ct.city_state_zip = some Z ∧
      select_address db L.mailingaddress_addressid = .ok A ∧
      select_street db A.street_streetid = .ok S ∧
      select_city_state_zip db S.citystatezip_cszipid = .ok Z ∧
      ((ct.human = none ∧ ct.human_address = none) ∨
       ∃ HA H, select_human_mailing_address db A.addressid = .ok HA ∧
         select_human db HA.humanmailing_humanid = .ok H ∧
         ct.human_address = some HA ∧ ct.human = some H) := by
  obtain ⟨P, ts, hP, hres, hct⟩ := get_cog_tables_role_inv db pid r ct h
  have hfa := resolve_all_forall₂ db (parcel_mailing_addresses db P.parcelkey) ts hres
  rcases hmm : _match_number r ts with _ | t₀
  · exfalso
    rw [hct, hmm] at hA
    cases hA
  · have hmem := _match_number_mem hmm
    obtain ⟨L, hLmem, hresL⟩ := forall₂_mem_right hfa hmem
    obtain ⟨A', S, Z, hselA, hselS, hselZ, htA, htS, htZ, htpa, _, hhum⟩ :=
      resolve_tables_inv db L t₀ hresL
    have hAA : A' = A := by
      rw [hct, hmm] at hA
      dsimp only [Option.getD] at hA
      rw [htA] at hA
      exact Option.some.inj hA
    subst hAA
    have hprop := _match_number_prop hmm
    rw [htpa] at hprop
    have hLr : L.linkedobjectrole_lorid = r := by
      simpa [Option.any] using hprop
    refine ⟨P, L, S, Z, hP, by rw [hct], ?_, hLmem, hLr, ?_, ?_, hselA, hselS, hselZ, ?_⟩
    · rw [hct, hmm]
      exact htpa
    · rw [hct, hmm]
      exact htS
    · rw [hct, hmm]
      exact htZ
    · rcases hhum with ⟨hh1, hh2⟩ | ⟨HA, H, hs1, hs2, hh1, hh2⟩
      · left
        rw [hct, hmm]
        exact ⟨hh1, hh2⟩
      · right
        refine ⟨HA, H, hs1, hs2, ?_, ?_⟩ <;> rw [hct, hmm]
        · exact hh1
        · exact hh2

/-- After the address-side deactivation block, no active link of the parcel
carries the role any more (the chain's role link is retired; other links never
carried the role). -/
theorem deact_kills_role_links (db : DB) (P : ParcelRow) (r : Nat) (ct₀ : CogTables)
    (hone : AtMostOnePMAL db)
    (hdisj : (ct₀.parcel_address = none ∧
        ∀ L ∈ parcel_mailing_addresses db P.parcelkey,
          (L.linkedobjectrole_lorid == r) = false) ∨
      (∃ L₀, ct₀.parcel_address = some L₀ ∧ L₀ ∈ parcel_mailing_addresses db P.parcelkey ∧
        L₀.linkedobjectrole_lorid = r)) :
    ∀ x ∈ (address_side_deactivations db (some ct₀)).parcel_address_links,
      x.parcel_parcelkey = P.parcelkey → x.deactivated = false →
      (x.linkedobjectrole_lorid == r) = false := by
  intro x hx hpk hact
  have hshape := address_side_deactivations_pmal db (some ct₀)
  rcases hdisj with ⟨hpa, hnone⟩ | ⟨L₀, hpa, hL₀, hL₀r⟩
  · rw [show (some ct₀).bind (fun t => t.parcel_address) = none by
      simpa [Option.bind] using hpa] at hshape
    rw [hshape] at hx
    exact hnone x (mem_parcel_mailing_addresses.mpr ⟨hx, hpk, hact⟩)
  · rw [show (some ct₀).bind (fun t => t.parcel_address) = some L₀ by
      simpa [Option.bind] using hpa] at hshape
    rw [hshape] at hx
    obtain ⟨y, hy, hgy⟩ := List.mem_map.mp hx
    obtain ⟨hL₀mem, hL₀pk, hL₀act⟩ := mem_parcel_mailing_addresses.mp hL₀
    have hsingle : activePMAL db P.parcelkey r = [L₀] :=
      eq_singleton_of_mem_of_len_le_one
        (mem_activePMAL.mpr ⟨hL₀mem, hL₀pk, hL₀r, hL₀act⟩) (hone P.parcelkey r)
    rcases hlid : y.linkid == L₀.linkid with _ | _
    · rw [if_neg (by rw [hlid]; exact Bool.false_ne_true)] at hgy
      subst hgy
      rcases hxr : y.linkedobjectrole_lorid == r with _ | _
      · rfl
      · exfalso
        have hxa : y ∈ activePMAL db P.parcelkey r :=
          mem_activePMAL.mpr ⟨hy, hpk, by simpa using hxr, hact⟩
        rw [hsingle] at hxa
        rw [List.mem_singleton.mp hxa] at hlid
        simp at hlid
    · rw [if_pos (by rw [hlid])] at hgy
      subst hgy
      cases hact

/-! ## Transport of table facts through one reconcile call -/

theorem address_side_deactivations_addr_ids (db : DB) (ct : Option CogTables)
    (hnd : (db.addresses.map (·.addressid)).Nodup)
    (hfr : ∀ a ∈ db.addresses, a.addressid < db.nextId) :
    ((address_side_deactivations db ct).addresses.map (·.addressid)).Nodup ∧
    ∀ a ∈ (address_side_deactivations db ct).addresses,
      a.addressid < (address_side_deactivations db ct).nextId := by
  have hsh := address_side_deactivations_addresses db ct
  have hnx := (address_side_deactivations_frame_all db ct).2.2.2.2.2
  rcases hb : ct.bind (fun t => t.address) with _ | a0 <;> rw [hb] at hsh <;> rw [hsh, hnx]
  · exact ⟨hnd, hfr⟩
  · constructor
    · rw [map_deact_ids _ _ _ (fun x => by split <;> rfl)]
      exact hnd
    · intro a ha
      obtain ⟨y, hy, hgy⟩ := List.mem_map.mp ha
      have hlt := hfr y hy
      rw [← hgy]
      split <;> exact hlt

theorem human_side_deactivations_h_ids (db : DB) (ct : Option CogTables)
    (hnd : (db.humans.map (·.humanid)).Nodup)
    (hfr : ∀ h ∈ db.humans, h.humanid < db.nextId) :
    ((human_side_deactivations db ct).humans.map (·.humanid)).Nodup ∧
    ∀ h ∈ (human_side_deactivations db ct).humans,
      h.humanid < (human_side_deactivations db ct).nextId := by
  have hsh := human_side_deactivations_humans db ct
  have hnx := human_side_deactivations_nextId db ct
  rcases hb : ct.bind (fun t => t.human) with _ | h0 <;> rw [hb] at hsh <;> rw [hsh, hnx]
  · exact ⟨hnd, hfr⟩
  · constructor
    · rw [map_deact_ids _ _ _ (fun x => by split <;> rfl)]
      exact hnd
    · intro a ha
      obtain ⟨y, hy, hgy⟩ := List.mem_map.mp ha
      have hlt := hfr y hy
      rw [← hgy]
      split <;> exact hlt

/-- The address side never touches humans, human-to-parcel links or parcels,
and never lowers the fresh-id counter. -/
theorem _sync_address_side_tables (db : DB) (county : OwnerAndMailing)
    (ct : Option CogTables) (r1 : Nat) (db1 : DB) (aid : Option Nat) (rm : Option Mailing)
    (hok : _sync_address_side db county ct r1 = .ok (db1, aid, rm)) :
    db1.humans = db.humans ∧ db1.human_parcel_links = db.human_parcel_links ∧
    db1.parcels = db.parcels ∧ db.nextId ≤ db1.nextId := by
  by_cases hsame : county.mailing = (_cog_tables_to_owner_and_mailing ct).mailing
  · rw [_sync_address_side_same db county ct r1 hsame] at hok
    cases hok
    exact ⟨rfl, rfl, rfl, Nat.le_refl _⟩
  · obtain ⟨m, P, hm, hP, hdb1, haid⟩ :=
      _sync_address_side_changed db county ct r1 db1 aid rm hsame hok
    subst hdb1
    set A := address_side_deactivations db ct with hA
    set EZ := ensure_city_state_zip A m.last.city m.last.state m.last.zip with hEZ
    set ES := ensure_street EZ.1 EZ.2.id m.delivery.street m.delivery.is_pobox with hES
    set EA := ensure_address ES.1 ES.2.streetid m.delivery.number m.delivery.attn
      m.delivery.secondary with hEA
    obtain ⟨a1, a2, a3, a4, a5, a6⟩ := address_side_deactivations_frame_all db ct
    obtain ⟨z1, z2, z3, z4, z5, z6⟩ :=
      ensure_city_state_zip_frame_all A m.last.city m.last.state m.last.zip
    obtain ⟨s1, s2, s3, s4, s5, s6⟩ :=
      ensure_street_frame_all EZ.1 EZ.2.id m.delivery.street m.delivery.is_pobox
    obtain ⟨d1, d2, d3, d4, d5, d6⟩ :=
      ensure_address_frame_all ES.1 ES.2.streetid m.delivery.number m.delivery.attn
        m.delivery.secondary
    rw [← hA] at a1 a2 a3 a4 a5 a6
    rw [← hEZ] at z1 z2 z3 z4 z5 z6
    rw [← hES] at s1 s2 s3 s4 s5 s6
    rw [← hEA] at d1 d2 d3 d4 d5 d6
    refine ⟨?_, ?_, ?_, ?_⟩
    · show EA.1.humans = db.humans
      rw [d3, s3, z3, a3]
    · show EA.1.human_parcel_links = db.human_parcel_links
      rw [d5, s5, z5, a5]
    · show EA.1.parcels = db.parcels
      rw [d4, s4, z4, a4]
    · show db.nextId ≤ EA.1.nextId + 1
      rw [← a6]
      exact Nat.le_succ_of_le (Nat.le_trans z6 (Nat.le_trans s6 d6))

/-- Distinct and fresh address ids survive the address side. -/
theorem _sync_address_side_addr_wf (db : DB) (county : OwnerAndMailing)
    (ct : Option CogTables) (r1 : Nat) (db1 : DB) (aid : Option Nat) (rm : Option Mailing)
    (hok : _sync_address_side db county ct r1 = .ok (db1, aid, rm))
    (hnd : (db.addresses.map (·.addressid)).Nodup)
    (hfr : ∀ a ∈ db.addresses, a.addressid < db.nextId) :
    (db1.addresses.map (·.addressid)).Nodup ∧
    ∀ a ∈ db1.addresses, a.addressid < db1.nextId := by
  by_cases hsame : county.mailing = (_cog_tables_to_owner_and_mailing ct).mailing
  · rw [_sync_address_side_same db county ct r1 hsame] at hok
    cases hok
    exact ⟨hnd, hfr⟩
  · obtain ⟨m, P, hm, hP, hdb1, haid⟩ :=
      _sync_address_side_changed db county ct r1 db1 aid rm hsame hok
    subst hdb1
    set A := address_side_deactivations db ct with hA
    set EZ := ensure_city_state_zip A m.last.city m.last.state m.last.zip with hEZ
    set ES := ensure_street EZ.1 EZ.2.id m.delivery.street m.delivery.is_pobox with hES
    set EA := ensure_address ES.1 ES.2.streetid m.delivery.number m.delivery.attn
      m.delivery.secondary with hEA
    obtain ⟨ha1, ha2⟩ := address_side_deactivations_addr_ids db ct hnd hfr
    rw [← hA] at ha1 ha2
    obtain ⟨z1, z2, z3, z4, z5, z6⟩ :=
      ensure_city_state_zip_frame_all A m.last.city m.last.state m.last.zip
    obtain ⟨s1, s2, s3, s4, s5, s6⟩ :=
      ensure_street_frame_all EZ.1 EZ.2.id m.delivery.street m.delivery.is_pobox
    rw [← hEZ] at z1 z2 z3 z4 z5 z6
    rw [← hES] at s1 s2 s3 s4 s5 s6
    have hnd' : (ES.1.addresses.map (·.addressid)).Nodup := by
      rw [s2, z2]
      exact ha1
    have hfr' : ∀ a ∈ ES.1.addresses, a.addressid < ES.1.nextId := by
      intro a ha
      rw [s2, z2] at ha
      exact Nat.lt_of_lt_of_le (ha2 a ha) (Nat.le_trans z6 s6)
    obtain ⟨e1, e2⟩ := ensure_address_ids ES.1 ES.2.streetid m.delivery.number
      m.delivery.attn m.delivery.secondary hnd' hfr'
    rw [← hEA] at e1 e2
    constructor
    · exact e1
    · intro a ha
      exact Nat.lt_succ_of_lt (e2 a ha)

/-- Distinct and fresh street ids survive the address side. -/
theorem _sync_address_side_street_wf (db : DB) (county : OwnerAndMailing)
    (ct : Option CogTables) (r1 : Nat) (db1 : DB) (aid : Option Nat) (rm : Option Mailing)
    (hok : _sync_address_side db county ct r1 = .ok (db1, aid, rm))
    (hnd : (db.streets.map (·.streetid)).Nodup)
    (hfr : ∀ s ∈ db.streets, s.streetid < db.nextId) :
    (db1.streets.map (·.streetid)).Nodup ∧
    ∀ s ∈ db1.streets, s.streetid < db1.nextId := by
  by_cases hsame : county.mailing = (_cog_tables_to_owner_and_mailing ct).mailing
  · rw [_sync_address_side_same db county ct r1 hsame] at hok
    cases hok
    exact ⟨hnd, hfr⟩
  · obtain ⟨m, P, hm, hP, hdb1, haid⟩ :=
      _sync_address_side_changed db county ct r1 db1 aid rm hsame hok
    subst hdb1
    set A := address_side_deactivations db ct with hA
    set EZ := ensure_city_state_zip A m.last.city m.last.state m.last.zip with hEZ
    set ES := ensure_street EZ.1 EZ.2.id m.delivery.street m.delivery.is_pobox with hES
    set EA := ensure_address ES.1 ES.2.streetid m.delivery.number m.delivery.attn
      m.delivery.secondary with hEA
    obtain ⟨a1, a2, a3, a4, a5, a6⟩ := address_side_deactivations_frame_all db ct
    rw [← hA] at a1 a2 a3 a4 a5 a6
    obtain ⟨z1, z2, z3, z4, z5, z6⟩ :=
      ensure_city_state_zip_frame_all A m.last.city m.last.state m.last.zip
    rw [← hEZ] at z1 z2 z3 z4 z5 z6
    have hnd' : (EZ.1.streets.map (·.streetid)).Nodup := by
      rw [z1, a1]
      exact hnd
    have hfr' : ∀ s ∈ EZ.1.streets, s.streetid < EZ.1.nextId := by
      intro s hs
      rw [z1, a1] at hs
      exact Nat.lt_of_lt_of_le (hfr s hs) (a6 ▸ z6)
    obtain ⟨e1, e2⟩ := ensure_street_ids EZ.1 EZ.2.id m.delivery.street
      m.delivery.is_pobox hnd' hfr'
    rw [← hES] at e1 e2
    obtain ⟨d1, d2, d3, d4, d5, d6⟩ :=
      ensure_address_frame_all ES.1 ES.2.streetid m.delivery.number m.delivery.attn
        m.delivery.secondary
    rw [← hEA] at d1 d2 d3 d4 d5 d6
    constructor
    · show ((EA.1.streets.map (·.streetid))).Nodup
      rw [d2]
      exact e1
    · intro s hs
      have hs' : s ∈ ES.1.streets := by
        rw [← d2]
        exact hs
      show s.streetid < EA.1.nextId + 1
      exact Nat.lt_succ_of_lt (Nat.lt_of_lt_of_le (e2 s hs') d6)

/-- Distinct and fresh city/state/zip ids survive the address side. -/
theorem _sync_address_side_csz_wf (db : DB) (county : OwnerAndMailing)
    (ct : Option CogTables) (r1 : Nat) (db1 : DB) (aid : Option Nat) (rm : Option Mailing)
    (hok : _sync_address_side db county ct r1 = .ok (db1, aid, rm))
    (hnd : (db.city_state_zips.map (·.id)).Nodup)
    (hfr : ∀ z ∈ db.city_state_zips, z.id < db.nextId) :
    (db1.city_state_zips.map (·.id)).Nodup ∧
    ∀ z ∈ db1.city_state_zips, z.id < db1.nextId := by
  by_cases hsame : county.mailing = (_cog_tables_to_owner_and_mailing ct).mailing
  · rw [_sync_address_side_same db county ct r1 hsame] at hok
    cases hok
    exact ⟨hnd, hfr⟩
  · obtain ⟨m, P, hm, hP, hdb1, haid⟩ :=
      _sync_address_side_changed db county ct r1 db1 aid rm hsame hok
    subst hdb1
    set A := address_side_deactivations db ct with hA
    set EZ := ensure_city_state_zip A m.last.city m.last.state m.last.zip with hEZ
    set ES := ensure_street EZ.1 EZ.2.id m.delivery.street m.delivery.is_pobox with hES
    set EA := ensure_address ES.1 ES.2.streetid m.delivery.number m.delivery.attn
      m.delivery.secondary with hEA
    obtain ⟨a1, a2, a3, a4, a5, a6⟩ := address_side_deactivations_frame_all db ct
    rw [← hA] at a1 a2 a3 a4 a5 a6
    have hnd' : (A.city_state_zips.map (·.id)).Nodup := by
      rw [a2]
      exact hnd
    have hfr' : ∀ z ∈ A.city_state_zips, z.id < A.nextId := by
      intro z hz
      rw [a2] at hz
      rw [a6]
      exact hfr z hz
    obtain ⟨e1, e2⟩ := ensure_city_state_zip_ids A m.last.city m.last.state m.last.zip hnd' hfr'
    rw [← hEZ] at e1 e2
    obtain ⟨s1, s2, s3, s4, s5, s6⟩ :=
      ensure_street_frame_all EZ.1 EZ.2.id m.delivery.street m.delivery.is_pobox
    rw [← hES] at s1 s2 s3 s4 s5 s6
    obtain ⟨d1, d2, d3, d4, d5, d6⟩ :=
      ensure_address_frame_all ES.1 ES.2.streetid m.delivery.number m.delivery.attn
        m.delivery.secondary
    rw [← hEA] at d1 d2 d3 d4 d5 d6
    constructor
    · show ((EA.1.city_state_zips.map (·.id))).Nodup
      rw [d1, s1]
      exact e1
    · intro z hz
      have hz' : z ∈ EZ.1.city_state_zips := by
        rw [← s1, ← d1]
        exact hz
      show z.id < EA.1.nextId + 1
      exact Nat.lt_succ_of_lt (Nat.lt_of_lt_of_le (e2 z hz') (Nat.le_trans s6 d6))

/-- Distinct and fresh human ids survive the human side. -/
theorem _sync_human_side_h_wf (db : DB) (county : OwnerAndMailing)
    (ct : Option CogTables) (role : Nat) (db2 : DB) (hid : Option Nat) (ro : Option Owner)
    (hok : _sync_human_side db county ct role = .ok (db2, hid, ro))
    (hnd : (db.humans.map (·.humanid)).Nodup)
    (hfr : ∀ h ∈ db.humans, h.humanid < db.nextId) :
    (db2.humans.map (·.humanid)).Nodup ∧
    ∀ h ∈ db2.humans, h.humanid < db2.nextId := by
  by_cases hsame : county.owner = (_cog_tables_to_owner_and_mailing ct).owner
  · rw [_sync_human_side_same db county ct role hsame] at hok
    cases hok
    exact ⟨hnd, hfr⟩
  · obtain ⟨o, P, ho, hP, hdb2, hhid, hro⟩ :=
      _sync_human_side_changed db county ct role db2 hid ro hsame hok
    subst hdb2
    obtain ⟨hh1, hh2⟩ := human_side_deactivations_h_ids db ct hnd hfr
    obtain ⟨e1, e2⟩ := ensure_human_ids (human_side_deactivations db ct) o.name
      o.is_multi_entity hh1 hh2
    constructor
    · exact e1
    · intro h hh
      exact Nat.lt_succ_of_lt (e2 h hh)

/-- A whole reconcile call leaves the parcel table untouched. -/
theorem _sync_parcels_frame (db : DB) (county : OwnerAndMailing) (ct : Option CogTables)
    (roles : Nat × Nat) (db' : DB) (r : OwnerAndMailing)
    (hok : _sync_owner_and_mailing db county ct roles = .ok (db', r)) :
    db'.parcels = db.parcels := by
  obtain ⟨db1, aid, rm, db2, hid, ro, haddr, hhum, hr, hbranch⟩ :=
    _sync_owner_and_mailing_parts db county ct roles db' r hok
  have h1 := (_sync_address_side_tables db county ct roles.1 db1 aid rm haddr).2.2.1
  have h2 := (_sync_human_side_frame db1 county ct roles.2 db2 hid ro hhum).2.2.2.2
  rcases hbranch with ⟨_, _, hdb⟩ | ⟨_, hdb⟩ <;> subst hdb
  · rw [h2, h1]
  · show db2.parcels = db.parcels
    rw [h2, h1]

/-- A successful reconcile call always returns exactly the scraped values
(the same-branch returns them unchanged, the changed-branch rebuilds them
from the freshly ensured rows, whose attributes are the scraped ones). -/
theorem _sync_returns_scraped (db : DB) (county : OwnerAndMailing) (ct : Option CogTables)
    (roles : Nat × Nat) (db' : DB) (r : OwnerAndMailing)
    (hok : _sync_owner_and_mailing db county ct roles = .ok (db', r)) :
    r = { owner := county.owner, mailing := county.mailing } := by
  obtain ⟨db1, aid, rm, db2, hid, ro, haddr, hhum, hr, hbranch⟩ :=
    _sync_owner_and_mailing_parts db county ct roles db' r hok
  have hrm : rm = county.mailing := by
    by_cases hsm : county.mailing = (_cog_tables_to_owner_and_mailing ct).mailing
    · have hs := _sync_address_side_same db county ct roles.1 hsm
      rw [haddr] at hs
      exact congrArg (fun p => p.2.2) (Except.ok.inj hs)
    · simp only [_sync_address_side, if_neg hsm] at haddr
      rcases hm : county.mailing with _ | m
      · rw [hm] at haddr
        cases haddr
      · rw [hm] at haddr
        dsimp only at haddr
        rcases hcb : ct.bind (fun t => t.parcel) with _ | P
        · rw [hcb] at haddr
          cases haddr
        · rw [hcb] at haddr
          cases haddr
          set A := address_side_deactivations db ct with hA
          set EZ := ensure_city_state_zip A m.last.city m.last.state m.last.zip with hEZ
          set ES := ensure_street EZ.1 EZ.2.id m.delivery.street m.delivery.is_pobox with hES
          set EA := ensure_address ES.1 ES.2.streetid m.delivery.number m.delivery.attn
            m.delivery.secondary with hEA
          obtain ⟨ez1, ez2, ez3, _, _, _, _⟩ :=
            ensure_city_state_zip_spec A m.last.city m.last.state m.last.zip
          obtain ⟨es1, es2, es3, _, _, _, _⟩ :=
            ensure_street_spec EZ.1 EZ.2.id m.delivery.street m.delivery.is_pobox
          obtain ⟨ea1, ea2, ea3, ea4, _, _, _, _⟩ :=
            ensure_address_spec ES.1 ES.2.streetid m.delivery.number m.delivery.attn
              m.delivery.secondary
          rw [← hEZ] at ez1 ez2 ez3
          rw [← hES] at es1 es2 es3
          rw [← hEA] at ea1 ea2 ea3 ea4
          rw [ez1, ez2, ez3, es2, es3, ea2, ea3, ea4]
  have hro : ro = county.owner := by
    by_cases hso : county.owner = (_cog_tables_to_owner_and_mailing ct).owner
    · have hs := _sync_human_side_same db1 county ct roles.2 hso
      rw [hhum] at hs
      exact congrArg (fun p => p.2.2) (Except.ok.inj hs)
    · obtain ⟨o, P, ho, hP, hdb2, hhid, hro'⟩ :=
        _sync_human_side_changed db1 county ct roles.2 db2 hid ro hso hhum
      obtain ⟨eh1, eh2, _, _, _, _⟩ :=
        ensure_human_spec (human_side_deactivations db1 ct) o.name o.is_multi_entity
      rw [hro', eh1, eh2, ho]
  rw [hr, hrm, hro]

/-- A non-null projected mailing forces the full address trio in the chain. -/
theorem proj_mailing_some_inv (t : CogTables) (m : Mailing)
    (h : (_cog_tables_to_owner_and_mailing (some t)).mailing = some m) :
    ∃ S A Z, t.street = some S ∧ t.address = some A ∧ t.city_state_zip = some Z ∧
      m = { delivery := { is_pobox := S.pobox, attn := A.attention, number := A.bldgno,
                          street := S.name, secondary := A.secondary },
            last := { city := Z.city, state := Z.state_abbr, zip := Z.zip_code } } := by
  rw [proj_mailing] at h
  rcases hS : t.street with _ | S <;> rcases hA : t.address with _ | A <;>
    rcases hZ : t.city_state_zip with _ | Z <;> rw [hS, hA, hZ] at h <;> dsimp only at h
  all_goals first
    | exact ⟨_, _, _, rfl, rfl, rfl, (Option.some.inj h).symm⟩
    | cases h

/-- A human in the chain the role read returns is an active row of the
store. -/
theorem gct_role_human_facts (db : DB) (pid : String) (r : Nat) (ct : CogTables)
    (h : get_cog_tables_role db pid r = .ok ct) (H : HumanRow) (hh : ct.human = some H) :
    H ∈ db.humans ∧ H.deactivated = false := by
  obtain ⟨P, ts, hP, hres, hct⟩ := get_cog_tables_role_inv db pid r ct h
  have hfa := resolve_all_forall₂ db (parcel_mailing_addresses db P.parcelkey) ts hres
  rcases hmm : _match_number r ts with _ | t₀
  · rw [hct, hmm] at hh
    cases hh
  · obtain ⟨L, hLmem, hresL⟩ := forall₂_mem_right hfa (_match_number_mem hmm)
    obtain ⟨A, S, Z, _, _, _, _, _, _, _, _, hhum⟩ := resolve_tables_inv db L t₀ hresL
    rw [hct, hmm] at hh
    dsimp only [Option.getD] at hh
    rcases hhum with ⟨hh1, _⟩ | ⟨HA, H', hs1, hs2, _, hh2⟩
    · rw [hh1] at hh
      cases hh
    · rw [hh2] at hh
      obtain ⟨hm1, hm2, _⟩ := select_human_inv hs2
      rw [← Option.some.inj hh]
      exact ⟨hm1, hm2⟩

/-- Core of the idempotence argument: after one successful reconcile call
with a non-null scraped mailing, re-reading the chain for the same role and
projecting it yields exactly the scraped owner and mailing. -/
theorem reconcile_readback (db : DB) (pid : String) (roles : Nat × Nat)
    (county : OwnerAndMailing) (m : Mailing) (ct₀ ct₁ : CogTables) (db₁ : DB)
    (r₁ : OwnerAndMailing)
    (hwf : WF db)
    (hm : county.mailing = some m)
    (h0 : get_cog_tables_role db pid roles.1 = .ok ct₀)
    (h1 : _sync_owner_and_mailing db county (some ct₀) roles = .ok (db₁, r₁))
    (h2 : get_cog_tables_role db₁ pid roles.1 = .ok ct₁) :
    (_cog_tables_to_owner_and_mailing (some ct₁)).owner = county.owner ∧
    (_cog_tables_to_owner_and_mailing (some ct₁)).mailing = county.mailing := by
  obtain ⟨⟨wa, ws, wz, wh, wl⟩, ⟨fa, fs, fz, fh, fl⟩, hone⟩ := hwf
  obtain ⟨db1, aid, rm, db2, hid, ro, haddr, hhum, hr, hbranch⟩ :=
    _sync_owner_and_mailing_parts db county (some ct₀) roles db₁ r₁ h1
  have htabP : db₁.parcels = db.parcels :=
    _sync_parcels_frame db county (some ct₀) roles db₁ r₁ h1
  by_cases hsm : county.mailing = (_cog_tables_to_owner_and_mailing (some ct₀)).mailing
  · -- mailing unchanged: the address side wrote nothing
    have hsa := _sync_address_side_same db county (some ct₀) roles.1 hsm
    rw [haddr] at hsa
    have hinj := Except.ok.inj hsa
    have hdb1 : db1 = db := congrArg (fun p => p.1) hinj
    have haidv : aid = ct₀.address.map (·.addressid) := congrArg (fun p => p.2.1) hinj
    by_cases hso : county.owner = (_cog_tables_to_owner_and_mailing (some ct₀)).owner
    · -- both sides unchanged: the call is the identity on the store
      have hsh := _sync_human_side_same db1 county (some ct₀) roles.2 hso
      rw [hhum] at hsh
      have hdb2 : db2 = db1 := congrArg (fun p => p.1) (Except.ok.inj hsh)
      have hdbf : db₁ = db := by
        rcases hbranch with ⟨_, _, hd⟩ | ⟨hcond, _⟩
        · rw [hd, hdb2, hdb1]
        · exact absurd ⟨hso, hsm⟩ hcond
      rw [hdbf, h0] at h2
      rw [← Except.ok.inj h2]
      exact ⟨hso.symm, hsm.symm⟩
    · -- mailing unchanged, owner changed
      rw [hdb1] at hhum
      obtain ⟨o, P₀, ho, hP₀, hdb2, hhid, hrov⟩ :=
        _sync_human_side_changed db county (some ct₀) roles.2 db2 hid ro hso hhum
      have hdbf : db₁ = link_human_to_address db2 hid aid roles.2 := by
        rcases hbranch with ⟨hc1, _, _⟩ | ⟨_, hd⟩
        · exact absurd hc1 hso
        · exact hd
      have hmp : (_cog_tables_to_owner_and_mailing (some ct₀)).mailing = some m := by
        rw [← hsm, hm]
      obtain ⟨S₀, A₀, Z₀, hS0, hA0, hZ0, hmval⟩ := proj_mailing_some_inv ct₀ m hmp
      obtain ⟨P, L₀, S₀', Z₀', hselP, hctP, hctL, hL₀mem, hL₀r, hS0', hZ0', hselA, hselS,
        hselZ, hhum0⟩ := gct_role_chain_facts db pid roles.1 ct₀ h0 A₀ hA0
      have hSS : S₀ = S₀' := by
        rw [hS0] at hS0'
        exact Option.some.inj hS0'
      subst hSS
      have hZZ : Z₀ = Z₀' := by
        rw [hZ0] at hZ0'
        exact Option.some.inj hZ0'
      subst hZZ
      have hPP : P = P₀ := by
        have hx : ct₀.parcel = some P₀ := hP₀
        rw [hctP] at hx
        exact Option.some.inj hx
      subst hPP
      set Hd := human_side_deactivations db (some ct₀) with hHd
      set EH := ensure_human Hd o.name o.is_multi_entity with hEH
      obtain ⟨eh1, eh2, eh3, ehmem, _, _⟩ := ensure_human_spec Hd o.name o.is_multi_entity
      rw [← hEH] at eh1 eh2 eh3 ehmem
      obtain ⟨hsdA, hsdS, hsdZ, hsdL, hsdP⟩ := human_side_deactivations_frame db (some ct₀)
      rw [← hHd] at hsdA hsdS hsdZ hsdL hsdP
      obtain ⟨ehZt, ehSt, ehAt, ehPt, _, _, ehLt, _⟩ :=
        ensure_human_frame_all Hd o.name o.is_multi_entity
      rw [← hEH] at ehZt ehSt ehAt ehPt ehLt
      have htabA : db₁.addresses = db.addresses := by
        rw [hdbf]
        show db2.addresses = db.addresses
        rw [hdb2]
        show EH.1.addresses = db.addresses
        rw [ehAt, hsdA]
      have htabS : db₁.streets = db.streets := by
        rw [hdbf]
        show db2.streets = db.streets
        rw [hdb2]
        show EH.1.streets = db.streets
        rw [ehSt, hsdS]
      have htabZ : db₁.city_state_zips = db.city_state_zips := by
        rw [hdbf]
        show db2.city_state_zips = db.city_state_zips
        rw [hdb2]
        show EH.1.city_state_zips = db.city_state_zips
        rw [ehZt, hsdZ]
      have htabL : db₁.parcel_address_links = db.parcel_address_links := by
        rw [hdbf]
        show db2.parcel_address_links = db.parcel_address_links
        rw [hdb2]
        show EH.1.parcel_address_links = db.parcel_address_links
        rw [ehLt, hsdL]
      obtain ⟨wh2, fh2⟩ := _sync_human_side_h_wf db county (some ct₀) roles.2 db2 hid ro hhum wh fh
      have htabH : db₁.humans = db2.humans := by
        rw [hdbf]
        exact rfl
      have hselPf : select_parcel db₁ pid = .ok P := by
        rw [select_parcel_congr htabP]
        exact hselP
      have hfind : (parcel_mailing_addresses db₁ P.parcelkey).find?
          (fun x => x.linkedobjectrole_lorid == roles.1) = some L₀ := by
        rw [parcel_mailing_addresses_congr htabL]
        exact find_role_unique db P.parcelkey roles.1 hone L₀ hL₀mem hL₀r
      obtain ⟨T, hresT, hct₁⟩ := gct_role_of_find db₁ pid roles.1 ct₁ h2 P hselPf L₀ hfind
      have hselA' : select_address db₁ L₀.mailingaddress_addressid = .ok A₀ := by
        rw [select_address_congr htabA]
        exact hselA
      have hselS' : select_street db₁ A₀.street_streetid = .ok S₀ := by
        rw [select_street_congr htabS]
        exact hselS
      have hselZ' : select_city_state_zip db₁ S₀.citystatezip_cszipid = .ok Z₀ := by
        rw [select_city_state_zip_congr htabZ]
        exact hselZ
      rw [resolve_tables_build db₁ L₀ A₀ S₀ Z₀ hselA' hselS' hselZ'] at hresT
      have haidA : aid = some A₀.addressid := by
        rw [haidv, hA0]
        rfl
      have hcross : ({ linkid := db2.nextId, humanmailing_humanid := hid, humanmailing_addressid := aid, role := roles.2, deactivated := false } : HumanMailingAddressRow) ∈ db₁.human_address_links.filter (fun l => l.humanmailing_addressid == some A₀.addressid && !l.deactivated) := by
        refine List.mem_filter.mpr ⟨?_, ?_⟩
        · rw [hdbf]
          show _ ∈ db2.human_address_links ++ [_]
          exact List.mem_append_right _ (List.mem_singleton_self _)
        · rw [haidA]
          simp
      rcases hha : select_human_mailing_address db₁ A₀.addressid with e | HA
      · rcases e with _ | _
        · exact absurd hha (selectOne_ne_notFound_of_mem hcross)
        · rw [hha] at hresT
          cases hresT
      · have hHAc : HA = { linkid := db2.nextId, humanmailing_humanid := hid, humanmailing_addressid := aid, role := roles.2, deactivated := false } := by
          have hf := selectOne_ok_iff.mp hha
          rw [hf] at hcross
          exact (List.mem_singleton.mp hcross).symm
        rw [hha] at hresT
        dsimp only at hresT
        rw [hHAc] at hresT
        dsimp only at hresT
        rw [hhid] at hresT
        have hselH : select_human db₁ (some EH.2.humanid) = .ok EH.2 := by
          refine select_human_of_mem db₁ EH.2 ?_ ?_ eh3
          · rw [htabH]
            exact wh2
          · rw [htabH, hdb2]
            show EH.2 ∈ EH.1.humans
            exact ehmem
        rw [hselH] at hresT
        dsimp only at hresT
        cases hresT
        rw [hct₁]
        refine ⟨?_, ?_⟩
        · rw [proj_owner]
          show some ({ name := EH.2.name, is_multi_entity := EH.2.multihuman } : Owner) = county.owner
          rw [eh1, eh2, ho]
        · rw [proj_mailing]
          dsimp only
          rw [hm, hmval]
  · -- mailing changed: the address chain is rebuilt
    obtain ⟨m', P₀, hm', hP₀, hdb1, haidv⟩ :=
      _sync_address_side_changed db county (some ct₀) roles.1 db1 aid rm hsm haddr
    have hmm' : m = m' := by
      rw [hm] at hm'
      exact Option.some.inj hm'
    subst hmm'
    obtain ⟨P, hselP, hctP, hdisj⟩ := get_cog_tables_role_link db pid roles.1 ct₀ h0
    have hPP : P = P₀ := by
      have hx : ct₀.parcel = some P₀ := hP₀
      rw [hctP] at hx
      exact Option.some.inj hx
    subst hPP
    have hdbf : db₁ = link_human_to_address db2 hid aid roles.2 := by
      rcases hbranch with ⟨_, hc2, _⟩ | ⟨_, hd⟩
      · exact absurd hc2 hsm
      · exact hd
    subst hdb1
    set A := address_side_deactivations db (some ct₀) with hA
    set EZ := ensure_city_state_zip A m.last.city m.last.state m.last.zip with hEZ
    set ES := ensure_street EZ.1 EZ.2.id m.delivery.street m.delivery.is_pobox with hES
    set EA := ensure_address ES.1 ES.2.streetid m.delivery.number m.delivery.attn m.delivery.secondary with hEA
    obtain ⟨ez1, ez2, ez3, ez4, ezmem, _, _⟩ :=
      ensure_city_state_zip_spec A m.last.city m.last.state m.last.zip
    obtain ⟨es1, es2, es3, es4, esmem, _, _⟩ :=
      ensure_street_spec EZ.1 EZ.2.id m.delivery.street m.delivery.is_pobox
    obtain ⟨ea1, ea2, ea3, ea4, ea5, eamem, _, _⟩ :=
      ensure_address_spec ES.1 ES.2.streetid m.delivery.number m.delivery.attn m.delivery.secondary
    rw [← hEZ] at ez1 ez2 ez3 ez4 ezmem
    rw [← hES] at es1 es2 es3 es4 esmem
    rw [← hEA] at ea1 ea2 ea3 ea4 ea5 eamem
    obtain ⟨hfr1, hfr2, hfr3, hfr4, hfr5⟩ :=
      _sync_human_side_frame _ county (some ct₀) roles.2 db2 hid ro hhum
    obtain ⟨dz1, dz2, dz3, dz4, dz5, dz6⟩ :=
      ensure_city_state_zip_frame_all A m.last.city m.last.state m.last.zip
    obtain ⟨ds1, ds2, ds3, ds4, ds5, ds6⟩ :=
      ensure_street_frame_all EZ.1 EZ.2.id m.delivery.street m.delivery.is_pobox
    obtain ⟨dd1, dd2, dd3, dd4, dd5, dd6⟩ :=
      ensure_address_frame_all ES.1 ES.2.streetid m.delivery.number m.delivery.attn m.delivery.secondary
    rw [← hEZ] at dz1 dz2 dz3 dz4 dz5 dz6
    rw [← hES] at ds1 ds2 ds3 ds4 ds5 ds6
    rw [← hEA] at dd1 dd2 dd3 dd4 dd5 dd6
    have hAh : A.humans = db.humans := by
      rw [hA]
      exact (address_side_deactivations_frame_all db (some ct₀)).2.2.1
    have hAnx : A.nextId = db.nextId := by
      rw [hA]
      exact (address_side_deactivations_frame_all db (some ct₀)).2.2.2.2.2
    have hApm : A.parcel_address_links ++ [({ linkid := EA.1.nextId, parcel_parcelkey := P.parcelkey, mailingaddress_addressid := EA.2.addressid, linkedobjectrole_lorid := roles.1, deactivated := false } : ParcelMailingAddressRow)] = (link_parcel_to_address EA.1 P.parcelkey EA.2.addressid roles.1).parcel_address_links := by
      show _ = EA.1.parcel_address_links ++ [_]
      have pz : EZ.1.parcel_address_links = A.parcel_address_links := by
        rw [hEZ]
        exact ensure_city_state_zip_pmal A m.last.city m.last.state m.last.zip
      have ps : ES.1.parcel_address_links = EZ.1.parcel_address_links := by
        rw [hES]
        exact ensure_street_pmal EZ.1 EZ.2.id m.delivery.street m.delivery.is_pobox
      have pa : EA.1.parcel_address_links = ES.1.parcel_address_links := by
        rw [hEA]
        exact ensure_address_pmal ES.1 ES.2.streetid m.delivery.number m.delivery.attn m.delivery.secondary
      rw [pa, ps, pz]
    have htabL : db₁.parcel_address_links = A.parcel_address_links ++ [({ linkid := EA.1.nextId, parcel_parcelkey := P.parcelkey, mailingaddress_addressid := EA.2.addressid, linkedobjectrole_lorid := roles.1, deactivated := false } : ParcelMailingAddressRow)] := by
      rw [hdbf]
      show db2.parcel_address_links = _
      rw [hfr4, hApm]
    have hlinks1 : parcel_mailing_addresses db₁ P.parcelkey
        = (A.parcel_address_links.filter fun l => l.parcel_parcelkey == P.parcelkey && !l.deactivated) ++ [({ linkid := EA.1.nextId, parcel_parcelkey := P.parcelkey, mailingaddress_addressid := EA.2.addressid, linkedobjectrole_lorid := roles.1, deactivated := false } : ParcelMailingAddressRow)] := by
      unfold parcel_mailing_addresses
      rw [htabL, List.filter_append]
      congr 1
      rw [List.filter_cons_of_pos (by simp), List.filter_nil]
    have hkill := deact_kills_role_links db P roles.1 ct₀ hone hdisj
    rw [← hA] at hkill
    have hfindold : ((A.parcel_address_links.filter fun l => l.parcel_parcelkey == P.parcelkey && !l.deactivated).find? (fun x => x.linkedobjectrole_lorid == roles.1)) = none := by
      apply List.find?_eq_none.mpr
      intro x hx
      obtain ⟨hxm, hxp⟩ := List.mem_filter.mp hx
      simp only [Bool.and_eq_true, beq_iff_eq, Bool.not_eq_eq_eq_not, Bool.not_true] at hxp
      intro hc
      rw [hkill x hxm hxp.1 hxp.2] at hc
      cases hc
    have hfind : (parcel_mailing_addresses db₁ P.parcelkey).find? (fun x => x.linkedobjectrole_lorid == roles.1) = some ({ linkid := EA.1.nextId, parcel_parcelkey := P.parcelkey, mailingaddress_addressid := EA.2.addressid, linkedobjectrole_lorid := roles.1, deactivated := false } : ParcelMailingAddressRow) := by
      rw [hlinks1, find_append_of_none _ hfindold, List.find?_cons_of_pos _ (by simp)]
    have hselPf : select_parcel db₁ pid = .ok P := by
      rw [select_parcel_congr htabP]
      exact hselP
    obtain ⟨T, hresT, hct₁⟩ := gct_role_of_find db₁ pid roles.1 ct₁ h2 P hselPf _ hfind
    obtain ⟨wa1, fa1⟩ := _sync_address_side_addr_wf db county (some ct₀) roles.1 _ aid rm haddr wa fa
    obtain ⟨ws1, fs1⟩ := _sync_address_side_street_wf db county (some ct₀) roles.1 _ aid rm haddr ws fs
    obtain ⟨wz1, fz1⟩ := _sync_address_side_csz_wf db county (some ct₀) roles.1 _ aid rm haddr wz fz
    have htabA : db₁.addresses = EA.1.addresses := by
      rw [hdbf]
      show db2.addresses = EA.1.addresses
      rw [hfr1]
      exact rfl
    have htabS : db₁.streets = ES.1.streets := by
      rw [hdbf]
      show db2.streets = ES.1.streets
      rw [hfr2]
      show EA.1.streets = ES.1.streets
      exact dd2
    have htabZ : db₁.city_state_zips = EZ.1.city_state_zips := by
      rw [hdbf]
      show db2.city_state_zips = EZ.1.city_state_zips
      rw [hfr3]
      show EA.1.city_state_zips = EZ.1.city_state_zips
      rw [dd1, ds1]
    have hselA' : select_address db₁ EA.2.addressid = .ok EA.2 := by
      refine select_address_of_mem db₁ EA.2 ?_ ?_ ea5
      · rw [htabA]
        exact wa1
      · rw [htabA]
        exact eamem
    have hselS' : select_street db₁ EA.2.street_streetid = .ok ES.2 := by
      rw [ea1]
      refine select_street_of_mem db₁ ES.2 ?_ ?_ es4
      · rw [htabS, ← dd2]
        exact ws1
      · rw [htabS]
        exact esmem
    have hselZ' : select_city_state_zip db₁ ES.2.citystatezip_cszipid = .ok EZ.2 := by
      rw [es1]
      refine select_city_state_zip_of_mem db₁ EZ.2 ?_ ?_ ez4
      · rw [htabZ, ← ds1, ← dd1]
        exact wz1
      · rw [htabZ]
        exact ezmem
    rw [resolve_tables_build db₁ ({ linkid := EA.1.nextId, parcel_parcelkey := P.parcelkey, mailingaddress_addressid := EA.2.addressid, linkedobjectrole_lorid := roles.1, deactivated := false } : ParcelMailingAddressRow) EA.2 ES.2 EZ.2 hselA' hselS' hselZ'] at hresT
    have hcross : ({ linkid := db2.nextId, humanmailing_humanid := hid, humanmailing_addressid := aid, role := roles.2, deactivated := false } : HumanMailingAddressRow) ∈ db₁.human_address_links.filter (fun l => l.humanmailing_addressid == some EA.2.addressid && !l.deactivated) := by
      refine List.mem_filter.mpr ⟨?_, ?_⟩
      · rw [hdbf]
        show _ ∈ db2.human_address_links ++ [_]
        exact List.mem_append_right _ (List.mem_singleton_self _)
      · rw [haidv]
        simp
    rcases hha : select_human_mailing_address db₁ EA.2.addressid with e | HA
    · rcases e with _ | _
      · exact absurd hha (selectOne_ne_notFound_of_mem hcross)
      · rw [hha] at hresT
        cases hresT
    · have hHAc : HA = { linkid := db2.nextId, humanmailing_humanid := hid, humanmailing_addressid := aid, role := roles.2, deactivated := false } := by
        have hf := selectOne_ok_iff.mp hha
        rw [hf] at hcross
        exact (List.mem_singleton.mp hcross).symm
      rw [hha] at hresT
      dsimp only at hresT
      rw [hHAc] at hresT
      dsimp only at hresT
      by_cases hso : county.owner = (_cog_tables_to_owner_and_mailing (some ct₀)).owner
      · -- owner unchanged: the cross link reuses the current human id
        have hs := _sync_human_side_same (link_parcel_to_address EA.1 P.parcelkey EA.2.addressid roles.1) county (some ct₀) roles.2 hso
        rw [hhum] at hs
        have hinj2 := Except.ok.inj hs
        have hdb2v : db2 = link_parcel_to_address EA.1 P.parcelkey EA.2.addressid roles.1 :=
          congrArg (fun p => p.1) hinj2
        have hidv : hid = ct₀.human.map (·.humanid) := congrArg (fun p => p.2.1) hinj2
        rcases hH0 : ct₀.human with _ | H₀
        · have hno : county.owner = none := by
            rw [hso, proj_owner, hH0]
            rfl
          have hidn : hid = none := by
            rw [hidv, hH0]
            rfl
          rw [hidn, select_human_none] at hresT
          dsimp only at hresT
          cases hresT
          rw [hct₁]
          refine ⟨?_, ?_⟩
          · rw [proj_owner]
            show (none : Option Owner) = county.owner
            rw [hno]
          · rw [proj_mailing]
            dsimp only
            rw [hm, ez1, ez2, ez3, es2, es3, ea2, ea3, ea4]
        · have hsome : county.owner = some { name := H₀.name, is_multi_entity := H₀.multihuman } := by
            rw [hso, proj_owner, hH0]
            rfl
          have hidv2 : hid = some H₀.humanid := by
            rw [hidv, hH0]
            rfl
          obtain ⟨hH0mem, hH0act⟩ := gct_role_human_facts db pid roles.1 ct₀ h0 H₀ hH0
          have htabH : db₁.humans = db.humans := by
            rw [hdbf]
            show db2.humans = db.humans
            rw [hdb2v]
            show EA.1.humans = db.humans
            rw [dd3, ds3, dz3, hAh]
          have hselH : select_human db₁ (some H₀.humanid) = .ok H₀ := by
            refine select_human_of_mem db₁ H₀ ?_ ?_ hH0act
            · rw [htabH]
              exact wh
            · rw [htabH]
              exact hH0mem
          rw [hidv2, hselH] at hresT
          dsimp only at hresT
          cases hresT
          rw [hct₁]
          refine ⟨?_, ?_⟩
          · rw [proj_owner]
            show some ({ name := H₀.name, is_multi_entity := H₀.multihuman } : Owner) = county.owner
            rw [hsome]
          · rw [proj_mailing]
            dsimp only
            rw [hm, ez1, ez2, ez3, es2, es3, ea2, ea3, ea4]
      · -- owner changed as well: a fresh human is ensured and linked
        obtain ⟨o, P₀', ho, hP₀', hdb2v, hhidv, hrov⟩ :=
          _sync_human_side_changed _ county (some ct₀) roles.2 db2 hid ro hso hhum
        have hPP' : P = P₀' := by
          have hx : ct₀.parcel = some P₀' := hP₀'
          rw [hctP] at hx
          exact Option.some.inj hx
        subst hPP'
        set Hd := human_side_deactivations (link_parcel_to_address EA.1 P.parcelkey EA.2.addressid roles.1) (some ct₀) with hHd
        set EH := ensure_human Hd o.name o.is_multi_entity with hEH
        obtain ⟨eh1, eh2, eh3, ehmem, _, _⟩ := ensure_human_spec Hd o.name o.is_multi_entity
        rw [← hEH] at eh1 eh2 eh3 ehmem
        have hh1 : ((link_parcel_to_address EA.1 P.parcelkey EA.2.addressid roles.1).humans.map (·.humanid)).Nodup := by
          show (EA.1.humans.map (·.humanid)).Nodup
          rw [dd3, ds3, dz3, hAh]
          exact wh
        have hnx1 : db.nextId ≤ (link_parcel_to_address EA.1 P.parcelkey EA.2.addressid roles.1).nextId := by
          show db.nextId ≤ EA.1.nextId + 1
          rw [← hAnx]
          exact Nat.le_succ_of_le (Nat.le_trans dz6 (Nat.le_trans ds6 dd6))
        have hf1 : ∀ h ∈ (link_parcel_to_address EA.1 P.parcelkey EA.2.addressid roles.1).humans, h.humanid < (link_parcel_to_address EA.1 P.parcelkey EA.2.addressid roles.1).nextId := by
          intro h hhm
          have hmem : h ∈ db.humans := by
            revert hhm
            show h ∈ EA.1.humans → _
            rw [dd3, ds3, dz3, hAh]
            exact id
          exact Nat.lt_of_lt_of_le (fh h hmem) hnx1
        obtain ⟨wh2, fh2⟩ := _sync_human_side_h_wf _ county (some ct₀) roles.2 db2 hid ro hhum hh1 hf1
        have htabH : db₁.humans = db2.humans := by
          rw [hdbf]
          exact rfl
        have hselH : select_human db₁ (some EH.2.humanid) = .ok EH.2 := by
          refine select_human_of_mem db₁ EH.2 ?_ ?_ eh3
          · rw [htabH]
            exact wh2
          · rw [htabH, hdb2v]
            show EH.2 ∈ EH.1.humans
            exact ehmem
        rw [hhidv, hselH] at hresT
        dsimp only at hresT
        cases hresT
        rw [hct₁]
        refine ⟨?_, ?_⟩
        · rw [proj_owner]
          show some ({ name := EH.2.name, is_multi_entity := EH.2.multihuman } : Owner) = county.owner
          rw [eh1, eh2, ho]
        · rw [proj_mailing]
          dsimp only
          rw [hm, ez1, ez2, ez3, es2, es3, ea2, ea3, ea4]

/-- C1 (amended): for every well-formed store, parcel, role pair and scraped
`OwnerAndMailing` whose mailing is non-null, calling the reconcile engine a
second time with identical scraped input — where the chain passed to the
second call is the one `get_cog_tables` reads back from the state produced by
the first call — returns the first call's store unchanged (the identical
store value, so zero deactivate/ensure/link writes and an unchanged write
log), and both calls return the same value, namely the scraped owner and
mailing.  (The original unqualified claim also covered a null scraped
mailing; see the counterexample: a human ensured without an address chain is
invisible to the readback, so the second call repeats its writes.) -/
theorem reconcile_idempotent (db : DB) (pid : String) (roles : Nat × Nat)
    (county : OwnerAndMailing) (m : Mailing) (ct₀ ct₁ : CogTables) (db₁ : DB)
    (r₁ : OwnerAndMailing)
    (hwf : WF db)
    (hm : county.mailing = some m)
    (h0 : get_cog_tables_role db pid roles.1 = .ok ct₀)
    (h1 : _sync_owner_and_mailing db county (some ct₀) roles = .ok (db₁, r₁))
    (h2 : get_cog_tables_role db₁ pid roles.1 = .ok ct₁) :
    _sync_owner_and_mailing db₁ county (some ct₁) roles = .ok (db₁, r₁) ∧
    r₁ = { owner := county.owner, mailing := county.mailing } := by
  obtain ⟨hown, hmail⟩ :=
    reconcile_readback db pid roles county m ct₀ ct₁ db₁ r₁ hwf hm h0 h1 h2
  have hret := _sync_returns_scraped db county (some ct₀) roles db₁ r₁ h1
  constructor
  · have hsa := _sync_address_side_same db₁ county (some ct₁) roles.1 hmail.symm
    have hsh := _sync_human_side_same db₁ county (some ct₁) roles.2 hown.symm
    simp only [_sync_owner_and_mailing, hsa, hsh]
    rw [if_pos ⟨hown.symm, hmail.symm⟩]
    rw [hret]
  · exact hret

/-- Witness for the amended idempotence claim: reconciling `ownerAndMailingA`
against the one-parcel store, then re-reading the chain and reconciling the
identical scraped input again, returns the identical store (zero writes) and
the same result. -/
theorem reconcile_idempotent_witness :
    WF parcelOnlyDb ∧
    ownerAndMailingA.mailing = some mailingA ∧
    get_cog_tables_role parcelOnlyDb "p1" LinkedObjectRole.general_roles.1
      = .ok { parcel := some theParcel } ∧
    _sync_owner_and_mailing parcelOnlyDb ownerAndMailingA (some { parcel := some theParcel })
      LinkedObjectRole.general_roles = .ok (dbAfterFirst, ownerAndMailingA) ∧
    get_cog_tables_role dbAfterFirst "p1" LinkedObjectRole.general_roles.1
      = .ok ctAfterFirst ∧
    _sync_owner_and_mailing dbAfterFirst ownerAndMailingA (some ctAfterFirst)
      LinkedObjectRole.general_roles = .ok (dbAfterFirst, ownerAndMailingA) := by
  have hwf : WF parcelOnlyDb :=
    ⟨by unfold NodupIds; decide, by unfold FreshIds; decide,
      fun pk r => by simp [activePMAL, parcelOnlyDb]⟩
  exact ⟨hwf, rfl, rfl, rfl, rfl,
    (reconcile_idempotent parcelOnlyDb "p1" LinkedObjectRole.general_roles ownerAndMailingA
      mailingA { parcel := some theParcel } ctAfterFirst dbAfterFirst ownerAndMailingA
      hwf rfl rfl rfl rfl).1⟩

/-- C1 counterexample to the original unqualified claim: with a null scraped
mailing, the human created by the first call hangs off no address chain, so
the readback does not see it, and the second identical call repeats all three
writes (ensure the human, relink it to the parcel, recreate the cross link)
instead of performing zero writes — the write log grows from three to six
entries. -/
theorem reconcile_second_call_writes :
    (reconcileStep parcelOnlyDb callOwnerOnly).log
      = [WriteOp.ensureHuman "JANE DOE" false, WriteOp.linkHumanToParcel 1 2 224,
         WriteOp.linkHumanToAddress (some 2) none 224] ∧
    (reconcileStep (reconcileStep parcelOnlyDb callOwnerOnly) callOwnerOnly).log
      = [WriteOp.ensureHuman "JANE DOE" false, WriteOp.linkHumanToParcel 1 2 224,
         WriteOp.linkHumanToAddress (some 2) none 224,
         WriteOp.ensureHuman "JANE DOE" false, WriteOp.linkHumanToParcel 1 2 224,
         WriteOp.linkHumanToAddress (some 2) none 224] :=
  ⟨rfl, rfl⟩
